import Mathlib

/-!
# sdk-warps-go: identifier classification, validation, links, detection and cache

A shallow embedding of `pkg/utils/helpers.go`, `pkg/validator/validator.go`,
`pkg/link/link.go`, `pkg/cache/cache.go`, `pkg/builder/builder.go`, the resolvers and
the registration methods of `pkg/registry/registry.go` and the parts of
`pkg/types/types.go`, `pkg/constants/constants.go` and `pkg/core/config.go` they read.

Go strings are modelled by Lean strings (sequences of Unicode scalar values, i.e.
well-formed UTF-8 text).  Go `error` values are modelled by their message, so a
function returning `error` becomes a function into `Except String Unit`.  The functions
of the Go standard library that the code calls are modelled next to it; `url.Parse` is
moreover a parameter of the functions that call it, and the builder and the registry
that `Detect` creates are parameters giving their answers.  What the builder reads from
outside the program (the answers of `http.Get` and `http.Post`, the local time zone) is
a parameter too, and the clock is an explicit instant.
-/

deriving instance DecidableEq for Except

namespace Warps

/-! ## Go standard library: `strings`, `fmt`, `regexp` -/

/-- Go `strings.HasPrefix(s, p)`. -/
def HasPrefix (s p : String) : Bool :=
  p.data.isPrefixOf s.data

/-- Go `strings.TrimPrefix(s, p)`: `s` without the leading `p` when present, else `s`. -/
def TrimPrefix (s p : String) : String :=
  if HasPrefix s p then String.mk (s.data.drop p.data.length) else s

/-- Go `fmt.Sprintf("%d", n)` for an `int`. -/
def formatInt (n : Int) : String :=
  match n with
  | Int.ofNat m => String.mk (Nat.toDigits 10 m)
  | Int.negSucc m => String.mk ('-' :: Nat.toDigits 10 (m + 1))

/-- A regular-expression bracket expression, as its list of inclusive ranges
(a single character `c` is the range `(c, c)`). -/
abbrev CharClass := List (Char × Char)

/-- Membership of a character in a bracket expression. -/
def CharClass.mem (cls : CharClass) (c : Char) : Bool :=
  cls.any fun r => decide (r.1.toNat ≤ c.toNat) && decide (c.toNat ≤ r.2.toNat)

/-- The anchored pattern `^[cls]{n}$` matched against the whole text. -/
def matchExactly (cls : CharClass) (n : Nat) (s : String) : Bool :=
  s.data.length == n && s.data.all cls.mem

/-- The anchored pattern `^[cls]{n,}$` matched against the whole text. -/
def matchAtLeast (cls : CharClass) (n : Nat) (s : String) : Bool :=
  decide (n ≤ s.data.length) && s.data.all cls.mem

/-! ## `pkg/constants` and `pkg/types` -/

/-- The field `WarpConstants.IdentifierParamSeparator`. -/
def IdentifierParamSeparator : String := ":"

/-- The field `WarpConstants.IdentifierType.Alias`. -/
def IdentifierTypeAlias : String := "alias"

/-- The field `WarpConstants.IdentifierType.Hash`. -/
def IdentifierTypeHash : String := "hash"

/-- Go `type WarpIDType string`. -/
abbrev WarpIDType := String

/-- The constant `types.HashIDType`. -/
def HashIDType : WarpIDType := "hash"

/-- The constant `types.AliasIDType`. -/
def AliasIDType : WarpIDType := "alias"

/-- The anonymous result struct of `GetInfoFromPrefixedIdentifier`. -/
structure IdentifierInfo where
  Type_ : WarpIDType
  ID : String
  deriving DecidableEq, Repr

/-! ## `pkg/utils/helpers.go` -/

/-- The compiled pattern `^[a-f0-9]{64}$`. -/
def hashPattern (s : String) : Bool :=
  matchExactly [('a', 'f'), ('0', '9')] 64 s

/-- The compiled pattern `^[a-zA-Z0-9-_]{3,}$` (the `-` after the range `0-9` is a
literal, so the class is letters, digits, `-` and `_`). -/
def aliasPattern (s : String) : Bool :=
  matchAtLeast [('a', 'z'), ('A', 'Z'), ('0', '9'), ('-', '-'), ('_', '_')] 3 s

/-- The function `GetInfoFromPrefixedIdentifier`: a nil result is `none`. -/
def GetInfoFromPrefixedIdentifier (identifier : String) : Option IdentifierInfo :=
  if HasPrefix identifier (IdentifierTypeHash ++ IdentifierParamSeparator) then
    some { Type_ := HashIDType,
           ID := TrimPrefix identifier (IdentifierTypeHash ++ IdentifierParamSeparator) }
  else if HasPrefix identifier (IdentifierTypeAlias ++ IdentifierParamSeparator) then
    some { Type_ := AliasIDType,
           ID := TrimPrefix identifier (IdentifierTypeAlias ++ IdentifierParamSeparator) }
  else if hashPattern identifier then
    some { Type_ := HashIDType, ID := identifier }
  else if aliasPattern identifier then
    some { Type_ := AliasIDType, ID := identifier }
  else
    none

/-! ## `pkg/types/types.go`: the data model read by the validator -/

/-- Go `type WarpActionType string`. -/
abbrev WarpActionType := String

/-- The constant `types.TransferActionType`. -/
def TransferActionType : WarpActionType := "transfer"

/-- The constant `types.ContractActionType`. -/
def ContractActionType : WarpActionType := "contract"

/-- The constant `types.QueryActionType`. -/
def QueryActionType : WarpActionType := "query"

/-- The constant `types.CollectActionType`. -/
def CollectActionType : WarpActionType := "collect"

/-- The constant `types.LinkActionType`. -/
def LinkActionType : WarpActionType := "link"

/-- Go `type RequestMethod string`. -/
abbrev RequestMethod := String

/-- The constant `types.GET`. -/
def GET : RequestMethod := "GET"

/-- The constant `types.POST`. -/
def POST : RequestMethod := "POST"

/-- Go `type WarpActionInputSource string`. -/
abbrev WarpActionInputSource := String

/-- The constant `types.FieldSource`. -/
def FieldSource : WarpActionInputSource := "field"

/-- The constant `types.QuerySource`. -/
def QuerySource : WarpActionInputSource := "query"

/-- Go `type WarpActionInputPosition string`. -/
abbrev WarpActionInputPosition := String

/-- The constant `types.ReceiverPosition`. -/
def ReceiverPosition : WarpActionInputPosition := "receiver"

/-- The constant `types.ValuePosition`. -/
def ValuePosition : WarpActionInputPosition := "value"

/-- The constant `types.TransferPosition`. -/
def TransferPosition : WarpActionInputPosition := "transfer"

/-- The function `ArgPosition`: `fmt.Sprintf("arg:%d", index)`. -/
def ArgPosition (index : Int) : WarpActionInputPosition :=
  "arg:" ++ formatInt index

/-- The struct `WarpActionInput`.  A nil pointer is `none`, a nil slice is `[]`.  The fields `Min`
and `Max` (untyped `interface{}` values) are read by no function and are left out. -/
structure WarpActionInput where
  Name : String
  As : Option String := none
  Description : Option String := none
  Bot : Option String := none
  Type_ : String
  Position : WarpActionInputPosition
  Source : WarpActionInputSource
  Required : Option Bool := none
  Pattern : Option String := none
  PatternDescription : Option String := none
  Options : List String := []
  Modifier : Option String := none
  deriving DecidableEq, Repr

/-- The struct `WarpContractActionTransfer`. -/
structure WarpContractActionTransfer where
  Token : String
  Nonce : Option Int := none
  Amount : Option String := none
  deriving DecidableEq, Repr

/-- The struct `WarpTransferAction`. -/
structure WarpTransferAction where
  Type_ : WarpActionType
  Label : String
  Description : Option String := none
  Address : Option String := none
  Args : List String := []
  Value : Option String := none
  Transfers : List WarpContractActionTransfer := []
  Inputs : List WarpActionInput := []
  Next : Option String := none
  deriving DecidableEq, Repr

/-- The struct `WarpContractAction`. -/
structure WarpContractAction where
  Type_ : WarpActionType
  Label : String
  Description : Option String := none
  Address : String
  Func : Option String := none
  Args : List String := []
  Value : Option String := none
  GasLimit : Int
  Transfers : List WarpContractActionTransfer := []
  Inputs : List WarpActionInput := []
  Next : Option String := none
  deriving DecidableEq, Repr

/-- The struct `WarpLinkAction`. -/
structure WarpLinkAction where
  Type_ : WarpActionType
  Label : String
  Description : Option String := none
  URL : String
  Inputs : List WarpActionInput := []
  Next : Option String := none
  deriving DecidableEq, Repr

/-- The struct `WarpQueryAction`. -/
structure WarpQueryAction where
  Type_ : WarpActionType
  Label : String
  Description : Option String := none
  Address : String
  Func : String
  Args : List String := []
  ABI : Option String := none
  Inputs : List WarpActionInput := []
  Next : Option String := none
  deriving DecidableEq, Repr

/-- The anonymous struct of the field `WarpCollectAction.Destination`. -/
structure CollectDestination where
  URL : String
  Method : RequestMethod
  Headers : Option (List (String × String)) := none
  deriving DecidableEq, Repr

/-- The struct `WarpCollectAction`. -/
structure WarpCollectAction where
  Type_ : WarpActionType
  Label : String
  Description : Option String := none
  Destination : CollectDestination
  Inputs : List WarpActionInput := []
  Next : Option String := none
  deriving DecidableEq, Repr

/-- A non-nil value of the interface `WarpAction`: one of the five concrete structs that
implement it.  The declared type is the struct's own `Type` field and is independent
of the variant. -/
inductive WarpAction where
  | transfer (a : WarpTransferAction)
  | contract (a : WarpContractAction)
  | query (a : WarpQueryAction)
  | collect (a : WarpCollectAction)
  | link (a : WarpLinkAction)
  deriving DecidableEq, Repr

/-- The interface method `GetType`. -/
def WarpAction.GetType : WarpAction → WarpActionType
  | .transfer a => a.Type_
  | .contract a => a.Type_
  | .query a => a.Type_
  | .collect a => a.Type_
  | .link a => a.Type_

/-- The interface method `GetLabel`. -/
def WarpAction.GetLabel : WarpAction → String
  | .transfer a => a.Label
  | .contract a => a.Label
  | .query a => a.Label
  | .collect a => a.Label
  | .link a => a.Label

/-- The struct `WarpMeta`. -/
structure WarpMeta where
  Hash : String
  Creator : String
  CreatedAt : String
  deriving DecidableEq, Repr

/-- The struct `Warp`.  A map is an optional association list (`none` is the nil map); an element
of `Actions` is `none` for a nil interface value. -/
structure Warp where
  Protocol : String
  Name : String
  Title : String
  Description : Option String := none
  Bot : Option String := none
  Preview : Option String := none
  Vars : Option (List (String × String)) := none
  Actions : List (Option WarpAction)
  Next : Option String := none
  Meta : Option WarpMeta := none
  deriving DecidableEq, Repr

/-! ## `pkg/validator/validator.go` -/

/-- The compiled pattern `^arg:[1-9][0-9]*$`. -/
def argPositionPattern (s : String) : Bool :=
  "arg:".data.isPrefixOf s.data &&
    match s.data.drop 4 with
    | [] => false
    | d :: rest => CharClass.mem [('1', '9')] d && rest.all (CharClass.mem [('0', '9')])

/-- The lookup `validSources[source]` in the map literal of `validateInput`. -/
def validSources (source : WarpActionInputSource) : Bool :=
  source == FieldSource || source == QuerySource

/-- The method `WarpValidator.validateInput`. -/
def validateInput (input : WarpActionInput) : Except String Unit :=
  if input.Name = "" then .error "input name is required"
  else if input.Type_ = "" then .error "input type is required"
  else if input.Position = "" then .error "input position is required"
  else if input.Source = "" then .error "input source is required"
  else if !validSources input.Source then
    .error ("invalid input source: " ++ input.Source)
  else if input.Position = ReceiverPosition ∨ input.Position = ValuePosition
      ∨ input.Position = TransferPosition then .ok ()
  else if !argPositionPattern input.Position then
    .error ("invalid input position: " ++ input.Position)
  else .ok ()

/-- The loop `for i, input := range action.Inputs` that ends each of the five
variant checks, started at index `i`. -/
def validateInputs (i : Nat) : List WarpActionInput → Except String Unit
  | [] => .ok ()
  | input :: rest =>
    match validateInput input with
    | .error err => .error ("invalid input at index " ++ formatInt i ++ ": " ++ err)
    | .ok () => validateInputs (i + 1) rest

/-- The method `WarpValidator.validateTransferAction`. -/
def validateTransferAction (action : WarpTransferAction) : Except String Unit :=
  if action.Type_ ≠ TransferActionType then
    .error ("expected action type " ++ TransferActionType ++ ", got " ++ action.Type_)
  else validateInputs 0 action.Inputs

/-- The method `WarpValidator.validateContractAction`. -/
def validateContractAction (action : WarpContractAction) : Except String Unit :=
  if action.Type_ ≠ ContractActionType then
    .error ("expected action type " ++ ContractActionType ++ ", got " ++ action.Type_)
  else if action.Address = "" then .error "contract address is required"
  else validateInputs 0 action.Inputs

/-- The method `WarpValidator.validateQueryAction`. -/
def validateQueryAction (action : WarpQueryAction) : Except String Unit :=
  if action.Type_ ≠ QueryActionType then
    .error ("expected action type " ++ QueryActionType ++ ", got " ++ action.Type_)
  else if action.Address = "" then .error "query address is required"
  else if action.Func = "" then .error "query function is required"
  else validateInputs 0 action.Inputs

/-- The method `WarpValidator.validateCollectAction`.  Go `url.Parse` is the parameter `urlParse`,
giving the message of its error or success. -/
def validateCollectAction (urlParse : String → Except String Unit)
    (action : WarpCollectAction) : Except String Unit :=
  if action.Type_ ≠ CollectActionType then
    .error ("expected action type " ++ CollectActionType ++ ", got " ++ action.Type_)
  else if action.Destination.URL = "" then .error "destination URL is required"
  else
    match urlParse action.Destination.URL with
    | .error err => .error ("invalid destination URL: " ++ err)
    | .ok () =>
      if action.Destination.Method ≠ GET ∧ action.Destination.Method ≠ POST then
        .error ("unsupported HTTP method: " ++ action.Destination.Method)
      else validateInputs 0 action.Inputs

/-- The method `WarpValidator.validateLinkAction`. -/
def validateLinkAction (urlParse : String → Except String Unit)
    (action : WarpLinkAction) : Except String Unit :=
  if action.Type_ ≠ LinkActionType then
    .error ("expected action type " ++ LinkActionType ++ ", got " ++ action.Type_)
  else if action.URL = "" then .error "URL is required"
  else
    match urlParse action.URL with
    | .error err => .error ("invalid URL: " ++ err)
    | .ok () => validateInputs 0 action.Inputs

/-- The method `WarpValidator.validateAction`.  A failed type assertion leaves the `switch` and
reaches the final `return nil`. -/
def validateAction (urlParse : String → Except String Unit) :
    Option WarpAction → Except String Unit
  | none => .error "action is nil"
  | some action =>
    let actionType := action.GetType
    let label := action.GetLabel
    if actionType = "" then .error "action type is required"
    else if label = "" then .error "action label is required"
    else if actionType = TransferActionType then
      match action with
      | .transfer a => validateTransferAction a
      | _ => .ok ()
    else if actionType = ContractActionType then
      match action with
      | .contract a => validateContractAction a
      | _ => .ok ()
    else if actionType = QueryActionType then
      match action with
      | .query a => validateQueryAction a
      | _ => .ok ()
    else if actionType = CollectActionType then
      match action with
      | .collect a => validateCollectAction urlParse a
      | _ => .ok ()
    else if actionType = LinkActionType then
      match action with
      | .link a => validateLinkAction urlParse a
      | _ => .ok ()
    else .error ("unsupported action type: " ++ actionType)

/-- The loop `for i, action := range warp.Actions` of `Validate`, started at index `i`. -/
def validateActions (urlParse : String → Except String Unit) (i : Nat) :
    List (Option WarpAction) → Except String Unit
  | [] => .ok ()
  | action :: rest =>
    match validateAction urlParse action with
    | .error err =>
      .error ("WarpValidator: invalid action at index " ++ formatInt i ++ ": " ++ err)
    | .ok () => validateActions urlParse (i + 1) rest

/-- The method `WarpValidator.Validate`: a nil warp is `none`. -/
def Validate (urlParse : String → Except String Unit) :
    Option Warp → Except String Unit
  | none => .error "WarpValidator: warp is nil"
  | some warp =>
    if warp.Protocol = "" then .error "WarpValidator: protocol is required"
    else if warp.Name = "" then .error "WarpValidator: name is required"
    else if warp.Title = "" then .error "WarpValidator: title is required"
    else if warp.Actions.length = 0 then
      .error "WarpValidator: at least one action is required"
    else validateActions urlParse 0 warp.Actions

/-! ## Go standard library: `unicode/utf8`, `strings`, `net/url`

The functions of `net/url` work on the bytes of a string.  The bytes of a Lean string
are its UTF-8 encoding; a byte string is read back as its runes, an invalid byte being
the rune U+FFFD, which is what Go's `range` and `regexp` see in it. -/

/-- The UTF-8 encoding of a character. -/
def utf8Bytes (c : Char) : List Nat :=
  let n := c.toNat
  if n < 0x80 then [n]
  else if n < 0x800 then [0xC0 + n / 64, 0x80 + n % 64]
  else if n < 0x10000 then [0xE0 + n / 4096, 0x80 + n / 64 % 64, 0x80 + n % 64]
  else [0xF0 + n / 262144, 0x80 + n / 4096 % 64, 0x80 + n / 64 % 64, 0x80 + n % 64]

/-- The bytes of a string: Go `[]byte(s)`. -/
def bytesOf (s : List Char) : List Nat :=
  s.flatMap utf8Bytes

/-- A continuation byte `10xxxxxx`. -/
def isContinuation (b : Nat) : Bool :=
  decide (0x80 ≤ b) && decide (b ≤ 0xBF)

/-- The bytes `b0 b1` start a well-formed encoding of 2 bytes or more: the second byte
lies in the range that the first one accepts (`utf8.acceptRanges`). -/
def acceptsSecond (b0 b1 : Nat) : Bool :=
  if b0 = 0xE0 then decide (0xA0 ≤ b1) && decide (b1 ≤ 0xBF)
  else if b0 = 0xED then decide (0x80 ≤ b1) && decide (b1 ≤ 0x9F)
  else if b0 = 0xF0 then decide (0x90 ≤ b1) && decide (b1 ≤ 0xBF)
  else if b0 = 0xF4 then decide (0x80 ≤ b1) && decide (b1 ≤ 0x8F)
  else isContinuation b1

/-- Go `utf8.DecodeRune`: the first rune of a non-empty byte string and its width in
bytes; an ill-formed encoding is the rune U+FFFD of width 1. -/
def DecodeRune (p : List Nat) : Char × Nat :=
  match p with
  | [] => (Char.ofNat 0xFFFD, 0)
  | b0 :: r0 =>
    if b0 < 0x80 then (Char.ofNat b0, 1)
    else
      match r0 with
      | [] => (Char.ofNat 0xFFFD, 1)
      | b1 :: r1 =>
        if 0xC2 ≤ b0 ∧ b0 ≤ 0xDF ∧ isContinuation b1 then
          (Char.ofNat ((b0 - 0xC0) * 64 + (b1 - 0x80)), 2)
        else
          match r1 with
          | [] => (Char.ofNat 0xFFFD, 1)
          | b2 :: r2 =>
            if 0xE0 ≤ b0 ∧ b0 ≤ 0xEF ∧ acceptsSecond b0 b1 ∧ isContinuation b2 then
              (Char.ofNat ((b0 - 0xE0) * 4096 + (b1 - 0x80) * 64 + (b2 - 0x80)), 3)
            else
              match r2 with
              | [] => (Char.ofNat 0xFFFD, 1)
              | b3 :: _ =>
                if 0xF0 ≤ b0 ∧ b0 ≤ 0xF4 ∧ acceptsSecond b0 b1 ∧ isContinuation b2
                    ∧ isContinuation b3 then
                  (Char.ofNat ((b0 - 0xF0) * 262144 + (b1 - 0x80) * 4096 + (b2 - 0x80) * 64
                    + (b3 - 0x80)), 4)
                else (Char.ofNat 0xFFFD, 1)

/-- The runes of a byte string, decoded one after the other by `DecodeRune`; `skip`
counts the bytes still to pass over, which belong to the rune decoded last. -/
def runesFrom : Nat → List Nat → List Char
  | _, [] => []
  | skip + 1, _ :: rest => runesFrom skip rest
  | 0, b :: rest =>
    let r := DecodeRune (b :: rest)
    r.1 :: runesFrom (r.2 - 1) rest

/-- The runes of a byte string: Go `[]rune(string(p))`. -/
def runesOf (p : List Nat) : List Char :=
  runesFrom 0 p

/-- Go `strings.Cut(s, sep)` for a separator of one character: the text before the
first `sep`, the text after it, and whether `sep` occurs. -/
def Cut (sep : Char) : List Char → List Char × List Char × Bool
  | [] => ([], [], false)
  | c :: cs =>
    if c = sep then ([], cs, true)
    else
      let r := Cut sep cs
      (c :: r.1, r.2.1, r.2.2)

/-- Go `strings.Split(s, sep)` for a separator of one character. -/
def Split (sep : Char) : List Char → List (List Char)
  | [] => [[]]
  | c :: cs =>
    if c = sep then [] :: Split sep cs
    else
      match Split sep cs with
      | [] => [[c]]
      | p :: ps => (c :: p) :: ps

/-- Go `strings.Index(s, pat)`: the position of the first occurrence of `pat`. -/
def Index (pat : List Char) : List Char → Option Nat
  | [] => if pat = [] then some 0 else none
  | c :: cs =>
    if pat.isPrefixOf (c :: cs) then some 0
    else (Index pat cs).map (· + 1)

/-- Go `strings.LastIndex(s, sep)` for a separator of one character. -/
def LastIndex (sep : Char) (s : List Char) : Option Nat :=
  match Index [sep] s.reverse with
  | none => none
  | some i => some (s.length - 1 - i)

/-- The type `encoding` of `net/url`: the part of a URL being escaped or unescaped. -/
inductive encoding where
  | encodePath
  | encodePathSegment
  | encodeHost
  | encodeZone
  | encodeUserPassword
  | encodeQueryComponent
  | encodeFragment
  deriving DecidableEq, Repr

/-- The function `ishex` of `net/url`. -/
def ishex (c : Char) : Bool :=
  (decide ('0' ≤ c) && decide (c ≤ '9')) || (decide ('a' ≤ c) && decide (c ≤ 'f'))
    || (decide ('A' ≤ c) && decide (c ≤ 'F'))

/-- The function `unhex` of `net/url`. -/
def unhex (c : Char) : Nat :=
  if '0' ≤ c ∧ c ≤ '9' then c.toNat - 48
  else if 'a' ≤ c ∧ c ≤ 'f' then c.toNat - 97 + 10
  else if 'A' ≤ c ∧ c ≤ 'F' then c.toNat - 65 + 10
  else 0

/-- The function `shouldEscape` of `net/url`, on a byte. -/
def shouldEscape (c : Nat) (mode : encoding) : Bool :=
  if (97 ≤ c ∧ c ≤ 122) ∨ (65 ≤ c ∧ c ≤ 90) ∨ (48 ≤ c ∧ c ≤ 57) then false
  else if (mode = .encodeHost ∨ mode = .encodeZone) ∧
      c ∈ [33, 36, 38, 39, 40, 41, 42, 43, 44, 59, 61, 58, 91, 93, 60, 62, 34] then false
  else if c ∈ [45, 95, 46, 126] then false
  else if c ∈ [36, 38, 43, 44, 47, 58, 59, 61, 63, 64] ∧ mode = .encodePath then
    decide (c = 63)
  else if c ∈ [36, 38, 43, 44, 47, 58, 59, 61, 63, 64] ∧ mode = .encodePathSegment then
    decide (c = 47 ∨ c = 59 ∨ c = 44 ∨ c = 63)
  else if c ∈ [36, 38, 43, 44, 47, 58, 59, 61, 63, 64] ∧ mode = .encodeUserPassword then
    decide (c = 64 ∨ c = 47 ∨ c = 63 ∨ c = 58)
  else if c ∈ [36, 38, 43, 44, 47, 58, 59, 61, 63, 64] ∧ mode = .encodeQueryComponent then
    true
  else if c ∈ [36, 38, 43, 44, 47, 58, 59, 61, 63, 64] ∧ mode = .encodeFragment then
    false
  else if mode = .encodeFragment ∧ c ∈ [33, 40, 41, 42] then false
  else true

/-- The digit of `upperhex` of `net/url` for a value below 16. -/
def upperhex (n : Nat) : Char :=
  if n < 10 then Char.ofNat (48 + n) else Char.ofNat (55 + n)

/-- The escaping of one byte in `escape(s, encodeQueryComponent)`. -/
def escapeByte (c : Nat) : List Char :=
  if shouldEscape c .encodeQueryComponent then
    if c = 32 then ['+'] else ['%', upperhex (c / 16), upperhex (c % 16)]
  else [Char.ofNat c]

/-- Go `url.QueryEscape(s)`. -/
def QueryEscape (s : String) : String :=
  String.mk ((bytesOf s.data).flatMap escapeByte)

/-- The first loop of `unescape(s, mode)` of `net/url`: the escapes are well formed and,
in a host, the characters are allowed.  The error is the offending text. -/
def unescapeCheck (mode : encoding) : List Char → Except String Unit
  | [] => .ok ()
  | c :: rest =>
    if c = '%' then
      match rest with
      | h1 :: h2 :: rest2 =>
        if ishex h1 && ishex h2 then
          if mode = .encodeHost ∧ unhex h1 < 8 ∧ [c, h1, h2] ≠ ['%', '2', '5'] then
            .error ("invalid URL escape " ++ String.mk [c, h1, h2])
          else if mode = .encodeZone ∧ [c, h1, h2] ≠ ['%', '2', '5']
              ∧ unhex h1 * 16 + unhex h2 ≠ 32
              ∧ shouldEscape (unhex h1 * 16 + unhex h2) .encodeHost then
            .error ("invalid URL escape " ++ String.mk [c, h1, h2])
          else unescapeCheck mode rest2
        else .error ("invalid URL escape " ++ String.mk ((c :: rest).take 3))
      | _ => .error ("invalid URL escape " ++ String.mk ((c :: rest).take 3))
    else if (mode = .encodeHost ∨ mode = .encodeZone) ∧ c.toNat < 0x80
        ∧ shouldEscape c.toNat .encodeHost then
      .error ("invalid character " ++ String.mk [c] ++ " in host name")
    else unescapeCheck mode rest

/-- The second loop of `unescape(s, mode)`: the bytes of the unescaped text.  It runs
on a text that passed `unescapeCheck`, in which two characters follow every `%`. -/
def unescapeBytes (mode : encoding) : List Char → List Nat
  | [] => []
  | c :: rest =>
    if c = '%' then
      match rest with
      | h1 :: h2 :: rest2 => (unhex h1 * 16 + unhex h2) :: unescapeBytes mode rest2
      | _ => []
    else if c = '+' ∧ mode = .encodeQueryComponent then 32 :: unescapeBytes mode rest
    else utf8Bytes c ++ unescapeBytes mode rest

/-- The function `unescape(s, mode)` of `net/url`. -/
def unescape (s : List Char) (mode : encoding) : Except String (List Char) :=
  match unescapeCheck mode s with
  | .error e => .error e
  | .ok () => .ok (runesOf (unescapeBytes mode s))

/-- Go `url.QueryUnescape(s)`. -/
def QueryUnescape (s : String) : Except String String :=
  match unescape s.data .encodeQueryComponent with
  | .error e => .error e
  | .ok r => .ok (String.mk r)

/-- The loop of `parseQuery` of `net/url` (Go 1.17 and later): the pairs of key and
value of a query, in order.  A pair with a `;` in it or with a malformed escape is
dropped (the error it raises is ignored by `URL.Query`). -/
def parseQueryPairs (pieces : List (List Char)) : List (String × String) :=
  pieces.filterMap fun piece =>
    if ';' ∈ piece then none
    else if piece = [] then none
    else
      let kv := Cut '=' piece
      match unescape kv.1 .encodeQueryComponent, unescape kv.2.1 .encodeQueryComponent with
      | .ok k, .ok v => some (String.mk k, String.mk v)
      | _, _ => none

/-- The method `Values.Get(key)` on the result of `URL.Query()`, for a URL of raw query
`rawQuery`: the first value of `key`, or the empty string. -/
def QueryGet (rawQuery : String) (key : String) : String :=
  match (parseQueryPairs (Split '&' rawQuery.data)).find? (fun kv => kv.1 = key) with
  | some kv => kv.2
  | none => ""

/-- The struct `url.URL`, with the fields that `url.Parse` fills and the repository can
read; `User`, `RawPath`, `RawFragment`, `ForceQuery` and `OmitHost` are left out. -/
structure URL where
  Scheme : String := ""
  Opaque : String := ""
  Host : String := ""
  Path : String := ""
  RawQuery : String := ""
  Fragment : String := ""
  deriving DecidableEq, Repr

/-- The function `stringContainsCTLByte` of `net/url`. -/
def stringContainsCTLByte (s : List Char) : Bool :=
  s.any fun c => decide (c.toNat < 0x20) || decide (c.toNat = 0x7f)

/-- The loop of `getScheme` of `net/url`, at index `i` of `rawURL` with `rest` left. -/
def getSchemeLoop (rawURL : List Char) :
    Nat → List Char → Except String (List Char × List Char)
  | _, [] => .ok ([], rawURL)
  | i, c :: rest =>
    if ('a' ≤ c ∧ c ≤ 'z') ∨ ('A' ≤ c ∧ c ≤ 'Z') then getSchemeLoop rawURL (i + 1) rest
    else if ('0' ≤ c ∧ c ≤ '9') ∨ c = '+' ∨ c = '-' ∨ c = '.' then
      if i = 0 then .ok ([], rawURL) else getSchemeLoop rawURL (i + 1) rest
    else if c = ':' then
      if i = 0 then .error "missing protocol scheme" else .ok (rawURL.take i, rest)
    else .ok ([], rawURL)

/-- The function `getScheme` of `net/url`: the scheme and the text after its `:`. -/
def getScheme (rawURL : List Char) : Except String (List Char × List Char) :=
  getSchemeLoop rawURL 0 rawURL

/-- The function `validOptionalPort` of `net/url`. -/
def validOptionalPort (port : List Char) : Bool :=
  match port with
  | [] => true
  | c :: digits => decide (c = ':') && digits.all fun d => decide ('0' ≤ d) && decide (d ≤ '9')

/-- The function `validUserinfo` of `net/url`. -/
def validUserinfo (s : List Char) : Bool :=
  s.all fun r =>
    (decide ('A' ≤ r) && decide (r ≤ 'Z')) || (decide ('a' ≤ r) && decide (r ≤ 'z'))
      || (decide ('0' ≤ r) && decide (r ≤ '9'))
      || decide (r ∈ ['-', '.', '_', ':', '~', '!', '$', '&', Char.ofNat 39, '(', ')', '*',
          '+', ',', ';', '=', '%', '@'])

/-- The function `parseHost` of `net/url`. -/
def parseHost (host : List Char) : Except String (List Char) :=
  if ['['].isPrefixOf host then
    match LastIndex ']' host with
    | none => .error "missing ']' in host"
    | some i =>
      if !validOptionalPort (host.drop (i + 1)) then .error "invalid port after host"
      else
        match Index ['%', '2', '5'] (host.take i) with
        | some zone =>
          match unescape (host.take zone) .encodeHost,
              unescape ((host.take i).drop zone) .encodeZone,
              unescape (host.drop i) .encodeHost with
          | .ok host1, .ok host2, .ok host3 => .ok (host1 ++ host2 ++ host3)
          | .error e, _, _ => .error e
          | _, .error e, _ => .error e
          | _, _, .error e => .error e
        | none => unescape host .encodeHost
  else
    match LastIndex ':' host with
    | some i =>
      if !validOptionalPort (host.drop i) then .error "invalid port after host"
      else unescape host .encodeHost
    | none => unescape host .encodeHost

/-- The function `parseAuthority` of `net/url`, without the user information it also
returns: the host, or the error. -/
def parseAuthority (authority : List Char) : Except String (List Char) :=
  match LastIndex '@' authority with
  | none => parseHost authority
  | some i =>
    match parseHost (authority.drop (i + 1)) with
    | .error e => .error e
    | .ok host =>
      let userinfo := authority.take i
      if !validUserinfo userinfo then .error "net/url: invalid userinfo"
      else if ':' ∉ userinfo then
        match unescape userinfo .encodeUserPassword with
        | .error e => .error e
        | .ok _ => .ok host
      else
        let up := Cut ':' userinfo
        match unescape up.1 .encodeUserPassword, unescape up.2.1 .encodeUserPassword with
        | .ok _, .ok _ => .ok host
        | .error e, _ => .error e
        | _, .error e => .error e

/-- The end of `parse` of `net/url`, from the authority on: `rest` is what follows the
scheme, without the query. -/
def parseAuthorityAndPath (scheme rest rawQuery : List Char) : Except String URL :=
  if (scheme ≠ [] ∨ ¬ ['/', '/', '/'].isPrefixOf rest) ∧ ['/', '/'].isPrefixOf rest then
    let afterSlashes := rest.drop 2
    let split : List Char × List Char :=
      match Index ['/'] afterSlashes with
      | some i => (afterSlashes.take i, afterSlashes.drop i)
      | none => (afterSlashes, [])
    match parseAuthority split.1 with
    | .error e => .error e
    | .ok host =>
      match unescape split.2 .encodePath with
      | .error e => .error e
      | .ok path =>
        .ok { Scheme := String.mk scheme, Host := String.mk host, Path := String.mk path,
              RawQuery := String.mk rawQuery }
  else
    match unescape rest .encodePath with
    | .error e => .error e
    | .ok path =>
      .ok { Scheme := String.mk scheme, Path := String.mk path,
            RawQuery := String.mk rawQuery }

/-- The function `parse(rawURL, viaRequest)` of `net/url` with `viaRequest = false`, on a
text without fragment. -/
def parseNoFragment (rawURL : List Char) : Except String URL :=
  if stringContainsCTLByte rawURL then .error "net/url: invalid control character in URL"
  else if rawURL = ['*'] then .ok { Path := "*" }
  else
    match getScheme rawURL with
    | .error e => .error e
    | .ok (scheme0, afterScheme) =>
      let scheme := scheme0.map Char.toLower
      let split : List Char × List Char :=
        if afterScheme.getLast? = some '?' ∧ afterScheme.count '?' = 1 then
          (afterScheme.dropLast, [])
        else ((Cut '?' afterScheme).1, (Cut '?' afterScheme).2.1)
      let rest := split.1
      let rawQuery := split.2
      if ¬ ['/'].isPrefixOf rest then
        if scheme ≠ [] then
          .ok { Scheme := String.mk scheme, Opaque := String.mk rest,
                RawQuery := String.mk rawQuery }
        else if ':' ∈ (Cut '/' rest).1 then
          .error "first path segment in URL cannot contain colon"
        else parseAuthorityAndPath scheme rest rawQuery
      else parseAuthorityAndPath scheme rest rawQuery

/-- Go `url.Parse(rawURL)` (as in Go 1.20): the parsed URL, or the text of the error. -/
def url.Parse (rawURL : String) : Except String URL :=
  let cut := Cut '#' rawURL.data
  match parseNoFragment cut.1 with
  | .error e => .error ("parse " ++ String.mk cut.1 ++ ": " ++ e)
  | .ok parsed =>
    if cut.2.1 = [] then .ok parsed
    else
      match unescape cut.2.1 .encodeFragment with
      | .error e => .error ("parse " ++ rawURL ++ ": " ++ e)
      | .ok fragment => .ok { parsed with Fragment := String.mk fragment }

/-! ## `pkg/types/types.go`: configuration, registry and detection types -/

/-- Go `type ChainEnv string`. -/
abbrev ChainEnv := String

/-- The constant `types.Mainnet`. -/
def Mainnet : ChainEnv := "mainnet"

/-- The constant `types.Testnet`. -/
def Testnet : ChainEnv := "testnet"

/-- The constant `types.Devnet`. -/
def Devnet : ChainEnv := "devnet"

/-- Go `type ProtocolName string`. -/
abbrev ProtocolName := String

/-- The constant `types.WarpProtocol`. -/
def WarpProtocol : ProtocolName := "warp"

/-- The struct `WarpConfig`; Go `int` is a signed 64-bit integer. -/
structure WarpConfig where
  Env : ChainEnv
  ClientURL : String := ""
  CurrentURL : String := ""
  UserAddress : String := ""
  ChainAPIURL : String := ""
  WarpSchemaURL : String := ""
  BrandSchemaURL : String := ""
  CacheTTL : Int := 0
  RegistryContract : String := ""
  IndexURL : String := ""
  IndexAPIKey : String := ""
  IndexSearchParamName : String := ""
  Vars : Option (List (String × String)) := none
  deriving DecidableEq, Repr

/-- The struct `WarpCacheConfig`. -/
structure WarpCacheConfig where
  TTL : Int := 0
  deriving DecidableEq, Repr

/-- Go `type TrustStatus string`. -/
abbrev TrustStatus := String

/-- The struct `RegistryInfo`. -/
structure RegistryInfo where
  Hash : String
  Alias : Option String := none
  Trust : TrustStatus
  Creator : String
  CreatedAt : Int
  Brand : Option String := none
  Upgrade : Option String := none
  deriving DecidableEq, Repr

/-- The struct `BrandURLs`. -/
structure BrandURLs where
  Web : Option String := none
  deriving DecidableEq, Repr

/-- The struct `BrandColors`. -/
structure BrandColors where
  Primary : Option String := none
  Secondary : Option String := none
  deriving DecidableEq, Repr

/-- The struct `BrandCTA`. -/
structure BrandCTA where
  Title : String
  Description : String
  Label : String
  URL : String
  deriving DecidableEq, Repr

/-- The struct `BrandMeta`. -/
structure BrandMeta where
  Hash : String
  Creator : String
  CreatedAt : String
  deriving DecidableEq, Repr

/-- The struct `Brand`. -/
structure Brand where
  Protocol : String
  Name : String
  Description : String
  Logo : String
  URLs : Option BrandURLs := none
  Colors : Option BrandColors := none
  CTA : Option BrandCTA := none
  Meta : Option BrandMeta := none
  deriving DecidableEq, Repr

/-- The struct `WarpHTMLResult`. -/
structure WarpHTMLResult where
  URL : String
  Warp : Warp
  deriving DecidableEq, Repr

/-! ## `pkg/core/config.go` -/

/-- The field `Config.SuperClientURLs`. -/
def SuperClientURLs : List String :=
  ["https://warp.to", "https://usewarp.to"]

/-- The function `Config.DefaultClientURL`. -/
def DefaultClientURL (env : ChainEnv) : String :=
  if env = Mainnet then "https://usewarp.to/to"
  else if env = Testnet then "https://testnet.usewarp.to/to"
  else if env = Devnet then "https://devnet.usewarp.to/to"
  else "https://usewarp.to/to"

/-! ## `pkg/registry/registry.go`: the result type -/

/-- The struct `RegistryResult`. -/
structure RegistryResult where
  RegistryInfo : Option RegistryInfo
  Brand : Option Brand
  deriving DecidableEq, Repr

/-! ## `pkg/link/link.go` -/

/-- The field `WarpConstants.HTTPProtocolPrefix`. -/
def HTTPProtocolPrefix : String := "http"

/-- The field `WarpConstants.IdentifierParamName`. -/
def IdentifierParamName : String := "warp"

/-- The struct `DetectionResult` of package `link`. -/
structure DetectionResult where
  Match : Bool
  URL : String
  Warp : Option Warp
  RegistryInfo : Option RegistryInfo
  Brand : Option Brand
  deriving DecidableEq, Repr

/-- The struct `DetectionResultFromHTML` of package `link`. -/
structure DetectionResultFromHTML where
  Match : Bool
  Results : List WarpHTMLResult
  deriving DecidableEq, Repr

/-- The loop `for _, superURL := range core.Config.SuperClientURLs` of `Build` and of
`extractIdentifierInfoFromURL`: some super-client URL is a prefix of `s`. -/
def isSuperClient (s : String) : Bool :=
  SuperClientURLs.any fun superURL => HasPrefix s superURL

/-- The method `WarpLink.Build`, for a link of configuration `config`. -/
def WarpLink.Build (config : WarpConfig) (idType : WarpIDType) (id : String) : String :=
  let clientURL := if config.ClientURL = "" then DefaultClientURL config.Env
    else config.ClientURL
  let encodedValue :=
    if idType = AliasIDType then QueryEscape id
    else QueryEscape (idType ++ IdentifierParamSeparator ++ id)
  if isSuperClient clientURL then clientURL ++ "/" ++ encodedValue
  else clientURL ++ "?" ++ IdentifierParamName ++ "=" ++ encodedValue

/-- The method `WarpLink.extractIdentifierInfoFromURL`.  Go `url.Parse` is the parameter
`parse`; `len` counts bytes. -/
def extractIdentifierInfoFromURL (parse : String → Except String URL) (urlStr : String) :
    Option IdentifierInfo :=
  match parse urlStr with
  | .error _ => none
  | .ok parsedURL =>
    let superClient := isSuperClient (parsedURL.Scheme ++ "://" ++ parsedURL.Host)
    let pathParts := Split '/' parsedURL.Path.data
    let value : String :=
      if superClient ∧ parsedURL.Path.utf8ByteSize > 1 ∧ pathParts.length > 1 then
        String.mk (pathParts.getD 1 [])
      else ""
    let value := if value = "" then QueryGet parsedURL.RawQuery IdentifierParamName
      else value
    if value = "" then none
    else
      match QueryUnescape value with
      | .error _ => none
      | .ok decodedValue => GetInfoFromPrefixedIdentifier decodedValue

/-- The method `WarpLink.IsValid`. -/
def IsValid (parse : String → Except String URL) (urlStr : String) : Bool :=
  if !HasPrefix urlStr HTTPProtocolPrefix then false
  else (extractIdentifierInfoFromURL parse urlStr).isSome

/-- A call that `Detect` makes to the builder or the registry it creates. -/
inductive CollaboratorCall where
  | CreateFromTransactionHash (hash : String) (cacheConfig : Option WarpCacheConfig)
  | GetInfoByHash (hash : String)
  | GetInfoByAlias (aliasName : String)
  deriving DecidableEq, Repr

/-- The answers of the builder and of the registry that `Detect` creates from the
configuration: each method returns a Go pair `(pointer, error)`, where `none` is nil. -/
structure Collaborators where
  CreateFromTransactionHash : String → Option WarpCacheConfig → Option Warp × Option String
  GetInfoByHash : String → Option RegistryResult × Option String
  GetInfoByAlias : String → Option RegistryResult × Option String

/-- What a call of `Detect` returns, the pair `(*DetectionResult, error)`, and the calls
it made to its collaborators, in order. -/
structure DetectOutcome where
  result : DetectionResult
  err : Option String
  calls : List CollaboratorCall
  deriving DecidableEq, Repr

/-- The result literal `DetectionResult{Match: false, URL: urlStr}` of `Detect`. -/
def noMatch (urlStr : String) : DetectionResult :=
  { Match := false, URL := urlStr, Warp := none, RegistryInfo := none, Brand := none }

/-- The end of `Detect`, from `if warp == nil` on. -/
def detectFinish (urlStr : String) (warp : Option Warp) (registryInfo : Option RegistryInfo)
    (brand : Option Brand) (calls : List CollaboratorCall) : DetectOutcome :=
  match warp with
  | none => { result := noMatch urlStr, err := none, calls := calls }
  | some w =>
    { result := { Match := true, URL := urlStr, Warp := some w,
                  RegistryInfo := registryInfo, Brand := brand },
      err := none, calls := calls }

/-- The method `WarpLink.Detect`. -/
def Detect (parse : String → Except String URL) (collab : Collaborators) (urlStr : String) :
    DetectOutcome :=
  let idResult :=
    if HasPrefix urlStr HTTPProtocolPrefix then extractIdentifierInfoFromURL parse urlStr
    else GetInfoFromPrefixedIdentifier urlStr
  match idResult with
  | none => { result := noMatch urlStr, err := none, calls := [] }
  | some idr =>
    let warpType := idr.Type_
    let id := idr.ID
    if warpType = HashIDType then
      match collab.CreateFromTransactionHash id none with
      | (_, some err) =>
        { result := noMatch urlStr, err := some err,
          calls := [.CreateFromTransactionHash id none] }
      | (warp, none) =>
        match collab.GetInfoByHash id with
        | (some registryResult, none) =>
          detectFinish urlStr warp registryResult.RegistryInfo registryResult.Brand
            [.CreateFromTransactionHash id none, .GetInfoByHash id]
        | _ =>
          detectFinish urlStr warp none none
            [.CreateFromTransactionHash id none, .GetInfoByHash id]
    else if warpType = AliasIDType then
      match collab.GetInfoByAlias id with
      | (_, some err) =>
        { result := noMatch urlStr, err := some err, calls := [.GetInfoByAlias id] }
      | (none, none) =>
        { result := noMatch urlStr, err := none, calls := [.GetInfoByAlias id] }
      | (some registryResult, none) =>
        match registryResult.RegistryInfo with
        | some registryInfo =>
          match collab.CreateFromTransactionHash registryInfo.Hash none with
          | (_, some err) =>
            { result := noMatch urlStr, err := some err,
              calls := [.GetInfoByAlias id,
                        .CreateFromTransactionHash registryInfo.Hash none] }
          | (warp, none) =>
            detectFinish urlStr warp registryResult.RegistryInfo registryResult.Brand
              [.GetInfoByAlias id, .CreateFromTransactionHash registryInfo.Hash none]
        | none =>
          detectFinish urlStr none registryResult.RegistryInfo registryResult.Brand
            [.GetInfoByAlias id]
    else detectFinish urlStr none none none []

/-- A character of the negated class of the URL pattern of `DetectFromHTML`: any
character but the white space of `\s` (tab, line feed, form feed, carriage return,
space), the double quote, the apostrophe and the angle brackets. -/
def urlBodyChar (c : Char) : Bool :=
  !(decide (c.toNat ∈ [9, 10, 12, 13, 32, 34, 39, 60, 62]))

/-- The match of the URL pattern of `DetectFromHTML` that starts at the head of `l`: the
text `http`, an optional `s`, the text `://` and the longest run of one or more
characters of the negated class. -/
def urlRegexMatchAt (l : List Char) : Option (List Char) :=
  if "https://".data.isPrefixOf l ∧ (l.drop 8).takeWhile urlBodyChar ≠ [] then
    some ("https://".data ++ (l.drop 8).takeWhile urlBodyChar)
  else if "http://".data.isPrefixOf l ∧ (l.drop 7).takeWhile urlBodyChar ≠ [] then
    some ("http://".data ++ (l.drop 7).takeWhile urlBodyChar)
  else none

/-- The scan of `urlRegex.FindAllString(content, -1)`: the leftmost matches from left to
right, none overlapping an earlier one; `skip` counts the characters still to pass over,
which belong to the match found last. -/
def urlRegexFindAllFrom : Nat → List Char → List String
  | _, [] => []
  | skip + 1, _ :: rest => urlRegexFindAllFrom skip rest
  | 0, c :: rest =>
    match urlRegexMatchAt (c :: rest) with
    | some m => String.mk m :: urlRegexFindAllFrom (m.length - 1) rest
    | none => urlRegexFindAllFrom 0 rest

/-- The call `urlRegex.FindAllString(content, -1)` of `DetectFromHTML`. -/
def urlRegexFindAllString (content : String) : List String :=
  urlRegexFindAllFrom 0 content.data

/-- The first loop of `DetectFromHTML`: the matches that are warp links. -/
def filterWarpLinks (parse : String → Except String URL) : List String → List String
  | [] => []
  | link :: rest =>
    if IsValid parse link then link :: filterWarpLinks parse rest
    else filterWarpLinks parse rest

/-- The second loop of `DetectFromHTML`: the results of the links whose detection
succeeds with a warp. -/
def detectWarpLinks (parse : String → Except String URL) (collab : Collaborators) :
    List String → List WarpHTMLResult
  | [] => []
  | link :: rest =>
    let detection := Detect parse collab link
    match detection.err with
    | some _ => detectWarpLinks parse collab rest
    | none =>
      match detection.result.Match, detection.result.Warp with
      | true, some w =>
        { URL := detection.result.URL, Warp := w } :: detectWarpLinks parse collab rest
      | _, _ => detectWarpLinks parse collab rest

/-- The method `WarpLink.DetectFromHTML`: the pair `(*DetectionResultFromHTML, error)`. -/
def DetectFromHTML (parse : String → Except String URL) (collab : Collaborators)
    (content : String) : DetectionResultFromHTML × Option String :=
  if content.utf8ByteSize = 0 then ({ Match := false, Results := [] }, none)
  else
    let matches_ := urlRegexFindAllString content
    let warpLinks := filterWarpLinks parse matches_
    if warpLinks.length = 0 then ({ Match := false, Results := [] }, none)
    else
      let results := detectWarpLinks parse collab warpLinks
      ({ Match := decide (results.length > 0), Results := results }, none)

/-! ## `pkg/cache/cache.go`

The clock is explicit: `time.Now()` is the argument `now`, an instant counted in
nanoseconds.  A `time.Duration` is a signed 64-bit count of nanoseconds. -/

/-- The value of a signed 64-bit integer after wrap-around. -/
def wrapInt64 (x : Int) : Int :=
  (x + 9223372036854775808) % 18446744073709551616 - 9223372036854775808

/-- The constant `time.Second`, in nanoseconds. -/
def Second : Int := 1000000000

/-- Go `type CacheKey string`. -/
abbrev CacheKey := String

/-- The struct `cacheItem`: `value` is an `interface{}`, `none` being nil. -/
structure cacheItem (α : Type) where
  value : Option α
  expiration : Int

/-- The struct `WarpCache`: the map `items`, a key without entry being `none`. -/
structure WarpCache (α : Type) where
  items : CacheKey → Option (cacheItem α)

/-- The function `NewWarpCache`: the empty cache. -/
def NewWarpCache {α : Type} : WarpCache α :=
  { items := fun _ => none }

/-- The map operation `delete(c.items, key)`. -/
def WarpCache.deleteItem {α : Type} (c : WarpCache α) (key : CacheKey) : WarpCache α :=
  { items := fun k => if k = key then none else c.items k }

/-- The method `WarpCache.Get` at the instant `now`: the value returned (`none` is nil)
and the cache afterwards. -/
def WarpCache.Get {α : Type} (c : WarpCache α) (key : CacheKey) (now : Int) :
    Option α × WarpCache α :=
  match c.items key with
  | none => (none, c)
  | some item =>
    if now > item.expiration then (none, c.deleteItem key)
    else (item.value, c)

/-- The method `WarpCache.Set` at the instant `now`: the cache afterwards. -/
def WarpCache.Set {α : Type} (c : WarpCache α) (key : CacheKey) (value : Option α)
    (ttlSeconds : Int) (now : Int) : WarpCache α :=
  let expiration := now + wrapInt64 (wrapInt64 ttlSeconds * Second)
  { items := fun k =>
      if k = key then some { value := value, expiration := expiration } else c.items k }

/-! ## `pkg/builder/builder.go`: the fluent builder -/

/-- The function `GetLatestProtocolIdentifier` of `pkg/utils`. -/
def GetLatestProtocolIdentifier (protocol : ProtocolName) : String :=
  protocol ++ "-0.0.2"

/-- The struct `WarpBuilder`. -/
structure WarpBuilder where
  config : WarpConfig
  cache : WarpCache Warp
  pendingWarp : Warp

/-- The function `NewWarpBuilder`. -/
def NewWarpBuilder (config : WarpConfig) : WarpBuilder :=
  { config := config,
    cache := NewWarpCache,
    pendingWarp :=
      { Protocol := GetLatestProtocolIdentifier WarpProtocol, Name := "", Title := "",
        Description := none, Preview := none, Actions := [] } }

/-- The method `WarpBuilder.SetName`. -/
def WarpBuilder.SetName (b : WarpBuilder) (name : String) : WarpBuilder :=
  { b with pendingWarp := { b.pendingWarp with Name := name } }

/-- The method `WarpBuilder.SetTitle`. -/
def WarpBuilder.SetTitle (b : WarpBuilder) (title : String) : WarpBuilder :=
  { b with pendingWarp := { b.pendingWarp with Title := title } }

/-- The method `WarpBuilder.SetDescription`. -/
def WarpBuilder.SetDescription (b : WarpBuilder) (description : String) : WarpBuilder :=
  { b with pendingWarp := { b.pendingWarp with Description := some description } }

/-- The method `WarpBuilder.SetPreview`. -/
def WarpBuilder.SetPreview (b : WarpBuilder) (preview : String) : WarpBuilder :=
  { b with pendingWarp := { b.pendingWarp with Preview := some preview } }

/-- The method `WarpBuilder.SetActions`. -/
def WarpBuilder.SetActions (b : WarpBuilder) (actions : List (Option WarpAction)) :
    WarpBuilder :=
  { b with pendingWarp := { b.pendingWarp with Actions := actions } }

/-- The method `WarpBuilder.AddAction`. -/
def WarpBuilder.AddAction (b : WarpBuilder) (action : Option WarpAction) : WarpBuilder :=
  { b with pendingWarp := { b.pendingWarp with Actions := b.pendingWarp.Actions ++ [action] } }

/-- The method `WarpBuilder.Build`: the warp returned, or the error. -/
def WarpBuilder.Build (urlParse : String → Except String Unit) (b : WarpBuilder) :
    Except String Warp :=
  if b.pendingWarp.Protocol = "" then .error "WarpBuilder: protocol is required"
  else if b.pendingWarp.Name = "" then .error "WarpBuilder: name is required"
  else if b.pendingWarp.Title = "" then .error "WarpBuilder: title is required"
  else if b.pendingWarp.Actions.length = 0 then .error "WarpBuilder: actions are required"
  else
    match Validate urlParse (some b.pendingWarp) with
    | .error err => .error err
    | .ok () => .ok b.pendingWarp

/-! ## `pkg/cache/cache.go`: the key generators -/

/-- The generator `CacheKey.Warp`: `fmt.Sprintf("warp:%s", hash)`. -/
def CacheKey.Warp (hash : String) : CacheKey :=
  "warp:" ++ hash

/-- The generator `CacheKey.RegistryInfo`: `fmt.Sprintf("registry:%s", key)`. -/
def CacheKey.RegistryInfo (key : String) : CacheKey :=
  "registry:" ++ key

/-- The generator `CacheKey.Brand`: `fmt.Sprintf("brand:%s", key)`. -/
def CacheKey.Brand (key : String) : CacheKey :=
  "brand:" ++ key

/-! ## `pkg/utils/helpers.go`: preview text and variables -/

/-- The function `ToPreviewText`; `len` counts bytes and the slice `text[:maxChars-3]` is a
slice of bytes.  The result is `none` when the slice bound is negative, where the code
panics. -/
def ToPreviewText (text : String) (maxChars : Int) : Option String :=
  if text = "" then some ""
  else if (text.utf8ByteSize : Int) ≤ maxChars then some text
  else if maxChars - 3 < 0 then none
  else some (String.mk (runesOf ((bytesOf text.data).take (maxChars - 3).toNat)) ++ "...")

/-- The lookup `config.Vars[key]` of a map given as an association list: the value of
the first entry of the key. -/
def mapLookup (m : List (String × String)) (key : String) : Option String :=
  match m.find? (fun kv => kv.1 = key) with
  | some kv => some kv.2
  | none => none

/-- The loop of `PrepareVars` over the map `warp.Vars`: every entry whose key is in
`configVars` gets the configured value. -/
def substituteVars (configVars : List (String × String)) :
    List (String × String) → List (String × String)
  | [] => []
  | (key, value) :: rest =>
    match mapLookup configVars key with
    | some configValue => (key, configValue) :: substituteVars configVars rest
    | none => (key, value) :: substituteVars configVars rest

/-- The function `PrepareVars`: the warp returned and the warp passed in as it is after
the call.  The copy `result := *warp` shares the map `Vars` with the warp passed in,
so the loop, which writes into `warp.Vars`, changes both. -/
def PrepareVars (warp : Option Warp) (config : WarpConfig) : Option Warp × Option Warp :=
  match warp with
  | none => (none, none)
  | some w =>
    match w.Vars, config.Vars with
    | some vars, some configVars =>
      (some { w with Vars := some (substituteVars configVars vars) },
       some { w with Vars := some (substituteVars configVars vars) })
    | _, _ => (some w, some w)

/-! ## `pkg/core/config.go`: chain API and registry defaults -/

/-- The function `Config.DefaultChainAPIURL`. -/
def DefaultChainAPIURL (env : ChainEnv) : String :=
  if env = Mainnet then "https://api.multiversx.com"
  else if env = Testnet then "https://testnet-api.multiversx.com"
  else if env = Devnet then "https://devnet-api.multiversx.com"
  else "https://api.multiversx.com"

/-- The function `Config.DefaultRegistryContract`. -/
def DefaultRegistryContract (env : ChainEnv) : String :=
  if env = Mainnet then "erd1qqqqqqqqqqqqqpgqt4g39q9vzm80aujs44wmvwn4kfn6czmtcrpslzjs4e"
  else if env = Testnet then "erd1qqqqqqqqqqqqqpgqnyj0lmcyft0v8yc5xm5vljz3y7mnkx7tcrps2jgm07"
  else if env = Devnet then "erd1qqqqqqqqqqqqqpgq34s7nd6sudf3jm5w44qqkpgfdxzplh4tcrps3ffxdl"
  else "erd1qqqqqqqqqqqqqpgqt4g39q9vzm80aujs44wmvwn4kfn6czmtcrpslzjs4e"

/-! ## `pkg/registry/registry.go`: registration and the request URL -/

/-- The value of `apiURL` in `GetInfoByHash` and `GetInfoByAlias`: the address that the
registry resolvers post their query to. -/
def WarpRegistry.apiURL (config : WarpConfig) : String :=
  (if config.ChainAPIURL = "" then DefaultChainAPIURL config.Env else config.ChainAPIURL)
    ++ "/vm-values/query"

/-- The method `WarpRegistry.RegisterAlias`, for a registry of configuration `config`:
the transaction reference, or the error. -/
def WarpRegistry.RegisterAlias (config : WarpConfig) (_hash : String) (_aliasName : String) :
    Except String String :=
  if config.UserAddress = "" then .error "WarpRegistry: user address not set"
  else .ok "tx-hash-for-register-alias"

/-- The method `WarpRegistry.RegisterBrand`, for a registry of configuration `config`
and a non-nil brand: the transaction reference, or the error. -/
def WarpRegistry.RegisterBrand (config : WarpConfig) (brand : Brand) : Except String String :=
  if config.UserAddress = "" then .error "WarpRegistry: user address not set"
  else if brand.Protocol = "" then .error "WarpRegistry: brand protocol is required"
  else if brand.Name = "" then .error "WarpRegistry: brand name is required"
  else if brand.Description = "" then .error "WarpRegistry: brand description is required"
  else if brand.Logo = "" then .error "WarpRegistry: brand logo is required"
  else .ok "tx-hash-for-register-brand"

/-! ## Go standard library: `encoding/json`

The encoder and the decoder are modelled on Lean strings, which are valid UTF-8.  A
syntax error of the decoder is one message, the wording of `encoding/json` being
abridged; a type error has the text of `UnmarshalTypeError`. -/

/-- A JSON value as `encoding/json` reads and writes it: a number is kept as its literal
text, an object as its members in the order of the text. -/
inductive JSON where
  | null
  | bool (b : Bool)
  | num (text : String)
  | str (s : String)
  | arr (items : List JSON)
  | obj (members : List (String × JSON))

/-- A digit of the lower-case hexadecimal numerals. -/
def lowerhex (n : Nat) : Char :=
  if n < 10 then Char.ofNat (48 + n) else Char.ofNat (87 + n)

/-- The escape of a code unit: a backslash, `u` and four hexadecimal digits. -/
def escapeU (n : Nat) : List Char :=
  [Char.ofNat 92, 'u', lowerhex (n / 4096 % 16), lowerhex (n / 256 % 16),
   lowerhex (n / 16 % 16), lowerhex (n % 16)]

/-- One character of a string as `json.Marshal` writes it (HTML escaping is on): the
double quote and the backslash take a backslash, line feed, carriage return and tab
their letter, the other control characters, the characters `<`, `>`, `&` and the
separators U+2028 and U+2029 the escape of their code unit.  (Go 1.22 and later write
backspace and form feed with a letter too, which the decoder reads back alike.) -/
def encodeChar (c : Char) : List Char :=
  let n := c.toNat
  if n = 34 ∨ n = 92 then [Char.ofNat 92, c]
  else if n = 10 then [Char.ofNat 92, 'n']
  else if n = 13 then [Char.ofNat 92, 'r']
  else if n = 9 then [Char.ofNat 92, 't']
  else if n < 32 ∨ n = 60 ∨ n = 62 ∨ n = 38 ∨ n = 8232 ∨ n = 8233 then escapeU n
  else [c]

/-- A string as `json.Marshal` writes it, between double quotes. -/
def encodeString (s : String) : List Char :=
  Char.ofNat 34 :: (s.data.flatMap encodeChar ++ [Char.ofNat 34])

mutual
/-- The compact text of a JSON value, as `json.Marshal` writes it. -/
def JSON.render : JSON → List Char
  | .null => "null".data
  | .bool b => if b then "true".data else "false".data
  | .num text => text.data
  | .str s => encodeString s
  | .arr items => '[' :: (renderItems items ++ [']'])
  | .obj members => Char.ofNat 123 :: (renderMembers members ++ [Char.ofNat 125])
/-- The elements of an array, separated by commas. -/
def renderItems : List JSON → List Char
  | [] => []
  | [x] => x.render
  | x :: y :: rest => x.render ++ ',' :: renderItems (y :: rest)
/-- The members of an object, separated by commas. -/
def renderMembers : List (String × JSON) → List Char
  | [] => []
  | [(k, v)] => encodeString k ++ ':' :: v.render
  | (k, v) :: m :: rest =>
    encodeString k ++ ':' :: v.render ++ ',' :: renderMembers (m :: rest)
end

/-- The white space of JSON: space, tab, carriage return, line feed. -/
def isSpace (c : Char) : Bool :=
  c.toNat = 32 ∨ c.toNat = 9 ∨ c.toNat = 13 ∨ c.toNat = 10

/-- The input without its leading white space. -/
def skipSpace : List Char → List Char
  | [] => []
  | c :: rest => if isSpace c then skipSpace rest else c :: rest

/-- A decimal digit. -/
def isDigit (c : Char) : Bool :=
  48 ≤ c.toNat ∧ c.toNat ≤ 57

/-- The longest run of decimal digits at the head of the input, and the rest. -/
def takeDigits : List Char → List Char × List Char
  | [] => ([], [])
  | c :: rest =>
    if isDigit c then ((takeDigits rest).1.cons c, (takeDigits rest).2) else ([], c :: rest)

/-- The exponent of a number literal, if there is one. -/
def scanExponent (acc l : List Char) : Option (List Char × List Char) :=
  match l with
  | e :: rest =>
    if e = 'e' ∨ e = 'E' then
      let signed : List Char × List Char :=
        match rest with
        | s :: rest2 => if s = '+' ∨ s = '-' then ([s], rest2) else ([], rest)
        | [] => ([], rest)
      let ds := takeDigits signed.2
      if ds.1 = [] then none else some (acc ++ e :: signed.1 ++ ds.1, ds.2)
    else some (acc, l)
  | [] => some (acc, l)

/-- The fraction and the exponent of a number literal, if there are any. -/
def scanFraction (acc l : List Char) : Option (List Char × List Char) :=
  match l with
  | c :: rest =>
    if c = '.' then
      let ds := takeDigits rest
      if ds.1 = [] then none else scanExponent (acc ++ c :: ds.1) ds.2
    else scanExponent acc l
  | [] => some (acc, l)

/-- A number literal at the head of the input: its text and the rest. -/
def scanNumber (l : List Char) : Option (List Char × List Char) :=
  let signed : List Char × List Char :=
    match l with
    | s :: rest => if s = '-' then ([s], rest) else ([], l)
    | [] => ([], l)
  match signed.2 with
  | c :: rest =>
    if c = '0' then scanFraction (signed.1 ++ [c]) rest
    else if isDigit c then
      let ds := takeDigits rest
      scanFraction (signed.1 ++ c :: ds.1) ds.2
    else none
  | [] => none

/-- The value of a hexadecimal digit. -/
def hexValue (c : Char) : Option Nat :=
  if isDigit c then some (c.toNat - 48)
  else if 97 ≤ c.toNat ∧ c.toNat ≤ 102 then some (c.toNat - 87)
  else if 65 ≤ c.toNat ∧ c.toNat ≤ 70 then some (c.toNat - 55)
  else none

/-- The function `getu4`: the code unit of an escape that heads the input (a backslash,
`u` and four hexadecimal digits). -/
def getu4 (l : List Char) : Option Nat :=
  match l with
  | b :: u :: h1 :: h2 :: h3 :: h4 :: _ =>
    if b.toNat = 92 ∧ u = 'u' then
      match hexValue h1, hexValue h2, hexValue h3, hexValue h4 with
      | some a, some b, some c, some d => some (a * 4096 + b * 256 + c * 16 + d)
      | _, _, _, _ => none
    else none
  | _ => none

/-- The character of a one-letter escape. -/
def simpleEscape (e : Char) : Option Char :=
  if e.toNat = 34 ∨ e.toNat = 92 ∨ e = '/' then some e
  else if e = 'b' then some (Char.ofNat 8)
  else if e = 'f' then some (Char.ofNat 12)
  else if e = 'n' then some (Char.ofNat 10)
  else if e = 'r' then some (Char.ofNat 13)
  else if e = 't' then some (Char.ofNat 9)
  else none

/-- The replacement character U+FFFD. -/
def replacementChar : Char := Char.ofNat 65533

/-- The character an escape of a code unit stands for, and the number of further
characters of the input it takes: a high surrogate followed by the escape of a low
surrogate is the character of the pair, another surrogate is U+FFFD. -/
def unicodeEscape (rr : Nat) (after : List Char) : Char × Nat :=
  if 55296 ≤ rr ∧ rr < 57344 then
    match getu4 after with
    | some rr1 =>
      if rr < 56320 ∧ 56320 ≤ rr1 ∧ rr1 < 57344 then
        (Char.ofNat (65536 + (rr - 55296) * 1024 + (rr1 - 56320)), 11)
      else (replacementChar, 5)
    | none => (replacementChar, 5)
  else (Char.ofNat rr, 5)

/-- The body of a string literal after its opening quote: the string it stands for and
the rest of the input after the closing quote.  The first argument counts characters
of an escape still to be passed over. -/
def scanString : Nat → List Char → Option (List Char × List Char)
  | _, [] => none
  | skip + 1, _ :: rest => scanString skip rest
  | 0, c :: rest =>
    if c.toNat = 34 then some ([], rest)
    else if c.toNat = 92 then
      match rest with
      | [] => none
      | e :: after =>
        if e = 'u' then
          match getu4 (c :: rest) with
          | none => none
          | some rr =>
            (scanString (unicodeEscape rr (after.drop 4)).2 rest).map
              fun r => ((unicodeEscape rr (after.drop 4)).1 :: r.1, r.2)
        else
          match simpleEscape e with
          | none => none
          | some ch => (scanString 1 rest).map fun r => (ch :: r.1, r.2)
    else if c.toNat < 32 then none
    else (scanString 0 rest).map fun r => (c :: r.1, r.2)

/-- The input after the given word, if the word heads it. -/
def dropWord (word l : List Char) : Option (List Char) :=
  if word.isPrefixOf l then some (l.drop word.length) else none

mutual
/-- A JSON value at the head of the input, and the rest of the input.  The first
argument bounds the number of steps, the second counts the open arrays and objects, of
which the scanner admits 10000. -/
def parseValue : Nat → Nat → List Char → Option (JSON × List Char)
  | 0, _, _ => none
  | fuel + 1, depth, l =>
    match skipSpace l with
    | [] => none
    | c :: rest =>
      if c.toNat = 123 then
        if depth + 1 > 10000 then none
        else
          match skipSpace rest with
          | [] => none
          | d :: rest2 =>
            if d.toNat = 125 then some (.obj [], rest2)
            else (parseMembers fuel (depth + 1) (d :: rest2)).map fun r => (.obj r.1, r.2)
      else if c = '[' then
        if depth + 1 > 10000 then none
        else
          match skipSpace rest with
          | [] => none
          | d :: rest2 =>
            if d = ']' then some (.arr [], rest2)
            else (parseItems fuel (depth + 1) (d :: rest2)).map fun r => (.arr r.1, r.2)
      else if c.toNat = 34 then
        (scanString 0 rest).map fun r => (.str (String.mk r.1), r.2)
      else if c = 't' then (dropWord "rue".data rest).map fun r => (.bool true, r)
      else if c = 'f' then (dropWord "alse".data rest).map fun r => (.bool false, r)
      else if c = 'n' then (dropWord "ull".data rest).map fun r => (.null, r)
      else (scanNumber (c :: rest)).map fun r => (.num (String.mk r.1), r.2)
/-- The elements of an array up to its closing bracket. -/
def parseItems : Nat → Nat → List Char → Option (List JSON × List Char)
  | 0, _, _ => none
  | fuel + 1, depth, l =>
    match parseValue fuel depth l with
    | none => none
    | some (v, rest) =>
      match skipSpace rest with
      | [] => none
      | d :: rest2 =>
        if d = ',' then (parseItems fuel depth rest2).map fun r => (v :: r.1, r.2)
        else if d = ']' then some ([v], rest2)
        else none
/-- The members of an object up to its closing brace. -/
def parseMembers : Nat → Nat → List Char → Option (List (String × JSON) × List Char)
  | 0, _, _ => none
  | fuel + 1, depth, l =>
    match skipSpace l with
    | [] => none
    | q :: rest =>
      if q.toNat = 34 then
        match scanString 0 rest with
        | none => none
        | some (key, rest2) =>
          match skipSpace rest2 with
          | [] => none
          | colon :: rest3 =>
            if colon = ':' then
              match parseValue fuel depth rest3 with
              | none => none
              | some (v, rest4) =>
                match skipSpace rest4 with
                | [] => none
                | d :: rest5 =>
                  if d = ',' then
                    (parseMembers fuel depth rest5).map
                      fun r => ((String.mk key, v) :: r.1, r.2)
                  else if d.toNat = 125 then some ([(String.mk key, v)], rest5)
                  else none
            else none
      else none
end

/-- The text of a JSON value as a string. -/
def jsonRender (v : JSON) : String :=
  String.mk v.render

/-- The JSON value of a text: the text is one value between optional white space. -/
def jsonParse (data : String) : Except String JSON :=
  match parseValue (2 * data.data.length + 4) 0 data.data with
  | none => .error "json: syntax error"
  | some (v, rest) => if skipSpace rest = [] then .ok v else .error "json: syntax error"

/-! ### `json.Marshal` of a warp

A nil pointer is written `null` or, with `omitempty`, left out; so is a nil slice and
a nil map.  The model does not tell an empty slice from the nil one: the empty list is
written as the nil slice is.  The fields `Min` and `Max` of an input are nil. -/

/-- The order of the keys of a map in the text: the order of their bytes. -/
def lexLe : List Nat → List Nat → Bool
  | [], _ => true
  | _ :: _, [] => false
  | a :: as, b :: bs => a < b ∨ (a = b ∧ lexLe as bs)

/-- One entry put in its place among sorted entries, in the place of an entry of the
same key if there is one. -/
def insertEntry (kv : String × String) : List (String × String) → List (String × String)
  | [] => [kv]
  | e :: rest =>
    if kv.1 = e.1 then kv :: rest
    else if lexLe (bytesOf kv.1.data) (bytesOf e.1.data) then kv :: e :: rest
    else e :: insertEntry kv rest

/-- The entries of the map an association list stands for (the first entry of a key
is the one `mapLookup` reads), in the order of the keys. -/
def mapEntries (m : List (String × String)) : List (String × String) :=
  m.foldr insertEntry []

/-- A member of type `*string` without `omitempty`. -/
def marshalStringPtr (p : Option String) : JSON :=
  match p with
  | none => .null
  | some s => .str s

/-- A member of type `*string` with `omitempty`. -/
def omitEmptyString (key : String) (p : Option String) : List (String × JSON) :=
  match p with
  | none => []
  | some s => [(key, .str s)]

/-- A value of type `[]string`. -/
def marshalStrings (l : List String) : JSON :=
  if l = [] then .null else .arr (l.map .str)

/-- A value of type `map[string]string`. -/
def marshalMap (m : Option (List (String × String))) : JSON :=
  match m with
  | none => .null
  | some entries => .obj ((mapEntries entries).map fun kv => (kv.1, .str kv.2))

/-- A member with `omitempty` whose value is a slice or a map of the given length. -/
def omitEmpty (key : String) (len : Nat) (v : JSON) : List (String × JSON) :=
  if len = 0 then [] else [(key, v)]

/-- The struct `WarpActionInput` as JSON. -/
def marshalInput (i : WarpActionInput) : JSON :=
  .obj ([("name", .str i.Name)] ++ omitEmptyString "as" i.As
    ++ omitEmptyString "description" i.Description ++ omitEmptyString "bot" i.Bot
    ++ [("type", .str i.Type_), ("position", .str i.Position), ("source", .str i.Source)]
    ++ (match i.Required with
        | none => []
        | some b => [("required", .bool b)])
    ++ omitEmptyString "pattern" i.Pattern
    ++ omitEmptyString "patternDescription" i.PatternDescription
    ++ omitEmpty "options" i.Options.length (marshalStrings i.Options)
    ++ omitEmptyString "modifier" i.Modifier)

/-- A member `inputs` with `omitempty`. -/
def marshalInputs (inputs : List WarpActionInput) : List (String × JSON) :=
  omitEmpty "inputs" inputs.length (.arr (inputs.map marshalInput))

/-- The struct `WarpContractActionTransfer` as JSON. -/
def marshalTransfer (t : WarpContractActionTransfer) : JSON :=
  .obj ([("token", .str t.Token)]
    ++ (match t.Nonce with
        | none => []
        | some n => [("nonce", .num (formatInt n))])
    ++ omitEmptyString "amount" t.Amount)

/-- A member `transfers` with `omitempty`. -/
def marshalTransfers (ts : List WarpContractActionTransfer) : List (String × JSON) :=
  omitEmpty "transfers" ts.length (.arr (ts.map marshalTransfer))

/-- A non-nil action as JSON: the members of its struct in the order of the fields. -/
def marshalAction : WarpAction → JSON
  | .transfer a =>
    .obj ([("type", .str a.Type_), ("label", .str a.Label)]
      ++ omitEmptyString "description" a.Description ++ omitEmptyString "address" a.Address
      ++ omitEmpty "args" a.Args.length (marshalStrings a.Args)
      ++ omitEmptyString "value" a.Value ++ marshalTransfers a.Transfers
      ++ marshalInputs a.Inputs ++ omitEmptyString "next" a.Next)
  | .contract a =>
    .obj ([("type", .str a.Type_), ("label", .str a.Label)]
      ++ omitEmptyString "description" a.Description
      ++ [("address", .str a.Address), ("func", marshalStringPtr a.Func),
          ("args", marshalStrings a.Args)]
      ++ omitEmptyString "value" a.Value ++ [("gasLimit", .num (formatInt a.GasLimit))]
      ++ marshalTransfers a.Transfers ++ marshalInputs a.Inputs
      ++ omitEmptyString "next" a.Next)
  | .query a =>
    .obj ([("type", .str a.Type_), ("label", .str a.Label)]
      ++ omitEmptyString "description" a.Description
      ++ [("address", .str a.Address), ("func", .str a.Func),
          ("args", marshalStrings a.Args)]
      ++ omitEmptyString "abi" a.ABI ++ marshalInputs a.Inputs
      ++ omitEmptyString "next" a.Next)
  | .collect a =>
    .obj ([("type", .str a.Type_), ("label", .str a.Label)]
      ++ omitEmptyString "description" a.Description
      ++ [("destination", .obj [("url", .str a.Destination.URL),
            ("method", .str a.Destination.Method),
            ("headers", marshalMap a.Destination.Headers)])]
      ++ marshalInputs a.Inputs ++ omitEmptyString "next" a.Next)
  | .link a =>
    .obj ([("type", .str a.Type_), ("label", .str a.Label)]
      ++ omitEmptyString "description" a.Description ++ [("url", .str a.URL)]
      ++ marshalInputs a.Inputs ++ omitEmptyString "next" a.Next)

/-- An element of `Actions` as JSON: a nil interface value is `null`. -/
def marshalActionValue (a : Option WarpAction) : JSON :=
  match a with
  | none => .null
  | some action => marshalAction action

/-- The struct `WarpMeta` as JSON. -/
def marshalMeta (m : WarpMeta) : JSON :=
  .obj [("hash", .str m.Hash), ("creator", .str m.Creator), ("createdAt", .str m.CreatedAt)]

/-- The struct `Warp` as JSON. -/
def marshalWarp (w : Warp) : JSON :=
  .obj ([("protocol", .str w.Protocol), ("name", .str w.Name), ("title", .str w.Title),
      ("description", marshalStringPtr w.Description)]
    ++ omitEmptyString "bot" w.Bot ++ omitEmptyString "preview" w.Preview
    ++ (match w.Vars with
        | none => []
        | some entries => omitEmpty "vars" entries.length (marshalMap (some entries)))
    ++ [("actions", if w.Actions = [] then .null else .arr (w.Actions.map marshalActionValue))]
    ++ omitEmptyString "next" w.Next
    ++ (match w.Meta with
        | none => []
        | some m => [("meta", marshalMeta m)]))

/-- The call `json.Marshal(warp)` for a `*types.Warp`, nil being `none`. -/
def json.MarshalWarp (warp : Option Warp) : String :=
  match warp with
  | none => "null"
  | some w => jsonRender (marshalWarp w)

/-! ### `json.Unmarshal` into a warp and into a transaction response

The members of an object are read in the order of the text.  A member whose key
matches no field is passed over; a key matches a field name under simple case folding.
The first value of a wrong type is the error `json.Unmarshal` returns, and the
callers drop the value decoded so far. -/

/-- The word `UnmarshalTypeError` has for a JSON value. -/
def JSON.kind : JSON → String
  | .null => "null"
  | .bool _ => "bool"
  | .num _ => "number"
  | .str _ => "string"
  | .arr _ => "array"
  | .obj _ => "object"

/-- The text of an `UnmarshalTypeError` raised inside a struct field. -/
def typeError (v : JSON) (field goType : String) : String :=
  "json: cannot unmarshal " ++ v.kind ++ " into Go struct field " ++ field ++ " of type "
    ++ goType

/-- The least character of the simple case-folding class of a character, for the classes
that hold an ASCII letter: the capital letters, the Kelvin sign and the long s. -/
def foldRune (c : Char) : Char :=
  if 65 ≤ c.toNat ∧ c.toNat ≤ 90 then c
  else if 97 ≤ c.toNat ∧ c.toNat ≤ 122 then Char.ofNat (c.toNat - 32)
  else if c.toNat = 8490 then 'K'
  else if c.toNat = 383 then 'S'
  else c

/-- A key of the text matches a field name. -/
def keyIs (key field : String) : Bool :=
  key.data.map foldRune = field.data.map foldRune

/-- A value decoded into a field of type `string`: `null` leaves the field as it is. -/
def decodeString (field : String) (cur : String) (v : JSON) : Except String String :=
  match v with
  | .null => .ok cur
  | .str s => .ok s
  | _ => .error (typeError v field "string")

/-- A value decoded into a field of type `*string`: `null` sets the nil pointer. -/
def decodeStringPtr (field : String) (v : JSON) : Except String (Option String) :=
  match v with
  | .null => .ok none
  | .str s => .ok (some s)
  | _ => .error (typeError v field "string")

/-- The map operation `m[key] = value` on an association list. -/
def mapSet (m : List (String × String)) (key value : String) : List (String × String) :=
  match m with
  | [] => [(key, value)]
  | e :: rest => if e.1 = key then (key, value) :: rest else e :: mapSet rest key value

/-- The members of an object decoded into a map of strings: a `null` value is the empty
string. -/
def decodeMapMembers (field : String) (m : List (String × String)) :
    List (String × JSON) → Except String (List (String × String))
  | [] => .ok m
  | (key, v) :: rest =>
    match decodeString field "" v with
    | .error e => .error e
    | .ok s => decodeMapMembers field (mapSet m key s) rest

/-- A value decoded into a field of type `map[...]string`: `null` sets the nil map, an
object adds its members to the map, which is made if it is nil. -/
def decodeMap (field goType : String) (cur : Option (List (String × String))) (v : JSON) :
    Except String (Option (List (String × String))) :=
  match v with
  | .null => .ok none
  | .obj members =>
    match decodeMapMembers field (cur.getD []) members with
    | .error e => .error e
    | .ok m => .ok (some m)
  | _ => .error (typeError v field goType)

/-- The elements of an array decoded into the interface type `WarpAction`: `null` is
the nil interface value, and no other value can be stored, since the interface has
methods and the decoder knows no concrete type for it. -/
def decodeActionItems : List JSON → Except String (List (Option WarpAction))
  | [] => .ok []
  | v :: rest =>
    match v with
    | .null =>
      match decodeActionItems rest with
      | .error e => .error e
      | .ok actions => .ok (none :: actions)
    | _ => .error (typeError v "Warp.actions" "types.WarpAction")

/-- A value decoded into the field `Actions` of type `[]WarpAction`. -/
def decodeActions (v : JSON) : Except String (List (Option WarpAction)) :=
  match v with
  | .null => .ok []
  | .arr items => decodeActionItems items
  | _ => .error (typeError v "Warp.actions" "[]types.WarpAction")

/-- One member of an object decoded into a `WarpMeta`. -/
def decodeMetaMember (m : WarpMeta) (member : String × JSON) : Except String WarpMeta :=
  if keyIs member.1 "hash" then
    (decodeString "Warp.meta.hash" m.Hash member.2).map fun s => { m with Hash := s }
  else if keyIs member.1 "creator" then
    (decodeString "Warp.meta.creator" m.Creator member.2).map fun s => { m with Creator := s }
  else if keyIs member.1 "createdAt" then
    (decodeString "Warp.meta.createdAt" m.CreatedAt member.2).map
      fun s => { m with CreatedAt := s }
  else .ok m

/-- The members of an object decoded one after the other, up to the first error. -/
def decodeMembers {α : Type} (step : α → String × JSON → Except String α) (start : α) :
    List (String × JSON) → Except String α
  | [] => .ok start
  | member :: rest =>
    match step start member with
    | .error e => .error e
    | .ok next => decodeMembers step next rest

/-- A value decoded into the field `Meta` of type `*WarpMeta`: `null` sets the nil
pointer, an object is decoded into the struct pointed to, a new one if the pointer is
nil. -/
def decodeMeta (cur : Option WarpMeta) (v : JSON) : Except String (Option WarpMeta) :=
  match v with
  | .null => .ok none
  | .obj members =>
    (decodeMembers decodeMetaMember (cur.getD { Hash := "", Creator := "", CreatedAt := "" })
      members).map some
  | _ => .error (typeError v "Warp.meta" "types.WarpMeta")

/-- One member of an object decoded into a `Warp`. -/
def decodeWarpMember (w : Warp) (member : String × JSON) : Except String Warp :=
  if keyIs member.1 "protocol" then
    (decodeString "Warp.protocol" w.Protocol member.2).map fun s => { w with Protocol := s }
  else if keyIs member.1 "name" then
    (decodeString "Warp.name" w.Name member.2).map fun s => { w with Name := s }
  else if keyIs member.1 "title" then
    (decodeString "Warp.title" w.Title member.2).map fun s => { w with Title := s }
  else if keyIs member.1 "description" then
    (decodeStringPtr "Warp.description" member.2).map fun p => { w with Description := p }
  else if keyIs member.1 "bot" then
    (decodeStringPtr "Warp.bot" member.2).map fun p => { w with Bot := p }
  else if keyIs member.1 "preview" then
    (decodeStringPtr "Warp.preview" member.2).map fun p => { w with Preview := p }
  else if keyIs member.1 "vars" then
    (decodeMap "Warp.vars" "map[types.WarpVarPlaceholder]string" w.Vars member.2).map
      fun m => { w with Vars := m }
  else if keyIs member.1 "actions" then
    (decodeActions member.2).map fun actions => { w with Actions := actions }
  else if keyIs member.1 "next" then
    (decodeStringPtr "Warp.next" member.2).map fun p => { w with Next := p }
  else if keyIs member.1 "meta" then
    (decodeMeta w.Meta member.2).map fun m => { w with Meta := m }
  else .ok w

/-- The zero value of the struct `Warp`. -/
def zeroWarp : Warp :=
  { Protocol := "", Name := "", Title := "", Actions := [] }

/-- A JSON value decoded into a zero `Warp`: `null` leaves it as it is. -/
def decodeWarp (v : JSON) : Except String Warp :=
  match v with
  | .null => .ok zeroWarp
  | .obj members => decodeMembers decodeWarpMember zeroWarp members
  | _ => .error ("json: cannot unmarshal " ++ v.kind ++ " into Go value of type types.Warp")

/-- The call `json.Unmarshal([]byte(encoded), &warp)` on a zero `Warp`: the warp
decoded, or the error. -/
def json.UnmarshalWarp (encoded : String) : Except String Warp :=
  match jsonParse encoded with
  | .error e => .error e
  | .ok v => decodeWarp v

/-- The anonymous struct `txResponse` of `CreateFromTransactionHash`. -/
structure TxResponse where
  Data : String
  Sender : String
  Timestamp : Int
  deriving DecidableEq, Repr

/-- The value of a run of decimal digits. -/
def digitsValue (ds : List Char) : Nat :=
  ds.foldl (fun acc c => acc * 10 + (c.toNat - 48)) 0

/-- The call `strconv.ParseInt(text, 10, 64)` on a number literal of JSON: the integer,
if the literal is a run of digits after an optional minus sign and the integer is in
the range of `int64`. -/
def parseInt64 (text : String) : Option Int :=
  let signed : Bool × List Char :=
    match text.data with
    | s :: rest => if s = '-' then (true, rest) else (false, text.data)
    | [] => (false, [])
  if signed.2 = [] ∨ ¬ signed.2.all isDigit then none
  else
    let n : Int := if signed.1 then -(digitsValue signed.2 : Int) else (digitsValue signed.2 : Int)
    if -9223372036854775808 ≤ n ∧ n ≤ 9223372036854775807 then some n else none

/-- A value decoded into a field of type `int64`. -/
def decodeInt64 (field : String) (cur : Int) (v : JSON) : Except String Int :=
  match v with
  | .null => .ok cur
  | .num text =>
    match parseInt64 text with
    | some n => .ok n
    | none =>
      .error ("json: cannot unmarshal number " ++ text ++ " into Go struct field " ++ field
        ++ " of type int64")
  | _ => .error (typeError v field "int64")

/-- One member of an object decoded into a `txResponse`. -/
def decodeTxMember (r : TxResponse) (member : String × JSON) : Except String TxResponse :=
  if keyIs member.1 "data" then
    (decodeString ".data" r.Data member.2).map fun s => { r with Data := s }
  else if keyIs member.1 "sender" then
    (decodeString ".sender" r.Sender member.2).map fun s => { r with Sender := s }
  else if keyIs member.1 "timestamp" then
    (decodeInt64 ".timestamp" r.Timestamp member.2).map fun n => { r with Timestamp := n }
  else .ok r

/-- The call `json.Unmarshal(body, &txResponse)` on a zero `txResponse` (the name of
the struct type in the last message is abridged). -/
def json.UnmarshalTx (body : String) : Except String TxResponse :=
  match jsonParse body with
  | .error e => .error e
  | .ok v =>
    match v with
    | .null => .ok { Data := "", Sender := "", Timestamp := 0 }
    | .obj members =>
      decodeMembers decodeTxMember { Data := "", Sender := "", Timestamp := 0 } members
    | _ => .error ("json: cannot unmarshal " ++ v.kind ++ " into Go value of type struct")

/-! ## Go standard library: `time`

The offset of the local time zone at an instant is not in the program; it is the
argument `localOffset`. -/

/-- A value of `time.Time`: the seconds since the Unix epoch, the offset of its location
east of UTC, in seconds, and the nanoseconds within the second, which are 0 for an
instant of whole seconds such as `time.Unix(sec, 0)`. -/
structure Time where
  unix : Int
  offset : Int
  nsec : Int := 0
  deriving DecidableEq, Repr

/-- The call `time.Unix(sec, 0)`: the instant in the local time zone. -/
def time.Unix (localOffset : Int → Int) (sec : Int) : Time :=
  { unix := sec, offset := localOffset sec }

/-- The function `appendInt` of `time`: a decimal numeral, zero-padded to a width,
after a minus sign if the number is negative. -/
def appendInt (x : Int) (width : Nat) : String :=
  let digits := Nat.toDigits 10 x.natAbs
  (if x < 0 then "-" else "")
    ++ String.mk (List.replicate (width - digits.length) '0' ++ digits)

/-- The civil date (year, month, day) of a count of days since 1970-01-01 in the
proleptic Gregorian calendar. -/
def civilFromDays (days : Int) : Int × Int × Int :=
  let z := days + 719468
  let era := z / 146097
  let doe := z - era * 146097
  let yoe := (doe - doe / 1460 + doe / 36524 - doe / 146096) / 365
  let doy := doe - (365 * yoe + yoe / 4 - yoe / 100)
  let mp := (5 * doy + 2) / 153
  let d := doy - (153 * mp + 2) / 5 + 1
  let m := if mp < 10 then mp + 3 else mp - 9
  (if m ≤ 2 then yoe + era * 400 + 1 else yoe + era * 400, m, d)

/-- The seconds that the date and the clock are computed from: the local seconds, as the
unsigned 64-bit count of seconds since the absolute zero year wraps them. -/
def absSeconds (t : Time) : Int :=
  (t.unix + t.offset + 9223372028715321600) % 18446744073709551616 - 9223372028715321600

/-- The method `Time.Format` for the layout `time.RFC3339`, that is
`2006-01-02T15:04:05Z07:00`: the zone is `Z` for the offset 0 and otherwise the offset
in hours and minutes after its sign. -/
def Time.FormatRFC3339 (t : Time) : String :=
  let date := civilFromDays (absSeconds t / 86400)
  let clock := absSeconds t % 86400
  let zone := Int.tdiv t.offset 60
  appendInt date.1 4 ++ "-" ++ appendInt date.2.1 2 ++ "-" ++ appendInt date.2.2 2 ++ "T"
    ++ appendInt (clock / 3600) 2 ++ ":" ++ appendInt (clock % 3600 / 60) 2 ++ ":"
    ++ appendInt (clock % 60) 2
    ++ (if t.offset = 0 then "Z"
        else (if zone < 0 then "-" else "+") ++ appendInt (zone.natAbs / 60) 2 ++ ":"
          ++ appendInt (zone.natAbs % 60) 2)

/-! ## `pkg/utils/helpers.go`: time -/

/-- The function `FormatTimeISO8601`. -/
def FormatTimeISO8601 (t : Time) : String :=
  t.FormatRFC3339

/-! ## `pkg/builder/builder.go`: encoding, decoding and resolving a warp

A method that returns a Go pair `(*types.Warp, error)` returns a pair of options, `none`
being nil. -/

/-- An answer of `http.Get`: the status code and what `ioutil.ReadAll` reads from the
body, the bytes or an error. -/
structure HTTPResponse where
  StatusCode : Int
  Body : Except String String

/-- What the builder reads from outside the program: the function `url.Parse` as the
validator uses it, the answers of `http.Get`, and the offset of the local time zone at
an instant. -/
structure Runtime where
  urlParse : String → Except String Unit
  httpGet : String → Except String HTTPResponse
  localOffset : Int → Int

/-- The method `WarpBuilder.CreateInscriptionTransaction`, a nil warp being `none`: the
pair `(string, error)`. -/
def WarpBuilder.CreateInscriptionTransaction (b : WarpBuilder) (warp : Option Warp) :
    String × Option String :=
  if b.config.UserAddress = "" then ("", some "WarpBuilder: user address not set")
  else (json.MarshalWarp warp, none)

/-- The method `WarpBuilder.CreateFromRaw`. -/
def WarpBuilder.CreateFromRaw (rt : Runtime) (b : WarpBuilder) (encoded : String)
    (validate : Bool) : Option Warp × Option String :=
  match json.UnmarshalWarp encoded with
  | .error err => (none, some err)
  | .ok warp =>
    if validate then
      match Validate rt.urlParse (some warp) with
      | .error err => (none, some err)
      | .ok () => ((PrepareVars (some warp) b.config).1, none)
    else ((PrepareVars (some warp) b.config).1, none)

/-- The method `WarpBuilder.CreateFromTransaction`. -/
def WarpBuilder.CreateFromTransaction (rt : Runtime) (b : WarpBuilder) (txData sender : String)
    (timestamp : Int) (txHash : String) (validate : Bool) : Option Warp × Option String :=
  match b.CreateFromRaw rt txData validate with
  | (warp, none) =>
    (warp.map fun w =>
      { w with
        Meta := some { Hash := txHash, Creator := sender,
                       CreatedAt := FormatTimeISO8601 (time.Unix rt.localOffset timestamp) } },
     none)
  | (_, some err) => (none, some err)

/-- The address that `CreateFromTransactionHash` requests for a hash. -/
def WarpBuilder.transactionURL (b : WarpBuilder) (hash : String) : String :=
  (if b.config.ChainAPIURL = "" then "https://api.multiversx.com" else b.config.ChainAPIURL)
    ++ "/transactions/" ++ hash

/-- The part of `CreateFromTransactionHash` after the cache lookup and before the cache
update: the request, the checks of the answer, and `CreateFromTransaction` without
validation. -/
def WarpBuilder.fetchWarp (rt : Runtime) (b : WarpBuilder) (hash : String) :
    Option Warp × Option String :=
  match rt.httpGet (b.transactionURL hash) with
  | .error err => (none, some err)
  | .ok resp =>
    if resp.StatusCode ≠ 200 then (none, some "failed to get transaction")
    else
      match resp.Body with
      | .error err => (none, some err)
      | .ok body =>
        match json.UnmarshalTx body with
        | .error err => (none, some err)
        | .ok tx => b.CreateFromTransaction rt tx.Data tx.Sender tx.Timestamp hash false

/-- What a call of `CreateFromTransactionHash` returns and does: the pair returned, the
builder afterwards, and the addresses requested with `http.Get`, in order. -/
structure TxHashOutcome where
  result : Option Warp × Option String
  builder : WarpBuilder
  requests : List String

/-- The cache after the lookup of `CreateFromTransactionHash` at the instant `now`, and
the value found. -/
def WarpBuilder.lookup (b : WarpBuilder) (hash : String) (cacheConfig : Option WarpCacheConfig)
    (now : Int) : Option Warp × WarpCache Warp :=
  match cacheConfig with
  | none => (none, b.cache)
  | some _ => b.cache.Get (CacheKey.Warp hash) now

/-- The cache after the update of `CreateFromTransactionHash` at the instant `now`. -/
def WarpBuilder.store (cache : WarpCache Warp) (hash : String)
    (cacheConfig : Option WarpCacheConfig) (warp : Option Warp) (now : Int) : WarpCache Warp :=
  match cacheConfig with
  | none => cache
  | some cc => if cc.TTL > 0 then cache.Set (CacheKey.Warp hash) warp cc.TTL now else cache

/-- The method `WarpBuilder.CreateFromTransactionHash`, a nil `cacheConfig` being `none`.
The clock is read at `tGet` by the `Get` and at `tSet` by the `Set` of the cache. -/
def WarpBuilder.CreateFromTransactionHash (rt : Runtime) (b : WarpBuilder) (hash : String)
    (cacheConfig : Option WarpCacheConfig) (tGet tSet : Int) : TxHashOutcome :=
  match (b.lookup hash cacheConfig tGet).1 with
  | some cachedWarp =>
    { result := (some cachedWarp, none),
      builder := { b with cache := (b.lookup hash cacheConfig tGet).2 },
      requests := [] }
  | none =>
    match b.fetchWarp rt hash with
    | (warp, none) =>
      { result := (warp, none),
        builder :=
          { b with
            cache := WarpBuilder.store (b.lookup hash cacheConfig tGet).2 hash cacheConfig
              warp tSet },
        requests := [b.transactionURL hash] }
    | (_, some err) =>
      { result := (none, some err),
        builder := { b with cache := (b.lookup hash cacheConfig tGet).2 },
        requests := [b.transactionURL hash] }

/-! ## `pkg/utils/helpers.go`: chain identifier; `pkg/types`: protocol names -/

/-- The constant `BrandProtocol`. -/
def BrandProtocol : ProtocolName := "brand"

/-- The constant `AbiProtocol`. -/
def AbiProtocol : ProtocolName := "abi"

/-- The function `GetChainID`. -/
def GetChainID (env : ChainEnv) : String :=
  if env = Mainnet then "1"
  else if env = Testnet then "T"
  else if env = Devnet then "D"
  else "1"

/-! ## `pkg/builder/builder.go`: the description preview -/

/-- The method `WarpBuilder.GetDescriptionPreview`: `none` where `ToPreviewText` panics. -/
def WarpBuilder.GetDescriptionPreview (_b : WarpBuilder) (description : String)
    (maxChars : Int) : Option String :=
  ToPreviewText description maxChars

/-! ## `pkg/cache/cache.go`: the background sweep -/

/-- One pass of the loop of `WarpCache.cleanup` over the entries, which runs at every
tick: `clock key` is what `time.Now()` reads when the entry of `key` is visited. -/
def WarpCache.cleanupPass {α : Type} (c : WarpCache α) (clock : CacheKey → Int) :
    WarpCache α :=
  { items := fun key =>
      match c.items key with
      | none => none
      | some item => if clock key > item.expiration then none else some item }

/-! ## `pkg/registry/registry.go`: the resolvers -/

/-- The constant `Unverified`. -/
def Unverified : TrustStatus := "unverified"

/-- An answer of `http.Post` as the resolvers read it: the status code and the status
line. -/
structure PostResponse where
  StatusCode : Int
  Status : String

/-- The struct `WarpRegistry`. -/
structure WarpRegistry where
  config : WarpConfig
  cache : WarpCache RegistryResult

/-- The function `NewWarpRegistry`. -/
def NewWarpRegistry (config : WarpConfig) : WarpRegistry :=
  { config := config, cache := NewWarpCache }

/-- What a call of a resolver returns and does: the pair returned, the registry
afterwards, and the addresses posted to, in order. -/
structure RegistryOutcome where
  result : Option RegistryResult × Option String
  registry : WarpRegistry
  requests : List String

/-- The common body of `GetInfoByHash` and `GetInfoByAlias` for the cache key `key` and
the simulated registry info `info`.  `post` gives the answers of `http.Post`; the clock
is read at `tGet` by the `Get` and at `tSet` by the `Set` of the cache. -/
def WarpRegistry.resolve (post : String → Except String PostResponse) (r : WarpRegistry)
    (key : String) (info : RegistryInfo) (tGet tSet : Int) : RegistryOutcome :=
  match (r.cache.Get (CacheKey.RegistryInfo key) tGet).1 with
  | some cached =>
    { result := (some cached, none),
      registry := { r with cache := (r.cache.Get (CacheKey.RegistryInfo key) tGet).2 },
      requests := [] }
  | none =>
    match post (WarpRegistry.apiURL r.config) with
    | .error err =>
      { result := (none, some err),
        registry := { r with cache := (r.cache.Get (CacheKey.RegistryInfo key) tGet).2 },
        requests := [WarpRegistry.apiURL r.config] }
    | .ok resp =>
      if resp.StatusCode ≠ 200 then
        { result := (none, some ("failed to get registry info: " ++ resp.Status)),
          registry := { r with cache := (r.cache.Get (CacheKey.RegistryInfo key) tGet).2 },
          requests := [WarpRegistry.apiURL r.config] }
      else
        { result := (some { RegistryInfo := some info, Brand := none }, none),
          registry :=
            { r with
              cache :=
                if r.config.CacheTTL > 0 then
                  (r.cache.Get (CacheKey.RegistryInfo key) tGet).2.Set
                    (CacheKey.RegistryInfo key)
                    (some { RegistryInfo := some info, Brand := none }) r.config.CacheTTL tSet
                else (r.cache.Get (CacheKey.RegistryInfo key) tGet).2 },
          requests := [WarpRegistry.apiURL r.config] }

/-- The method `WarpRegistry.GetInfoByHash`. -/
def WarpRegistry.GetInfoByHash (post : String → Except String PostResponse) (r : WarpRegistry)
    (hash : String) (tGet tSet : Int) : RegistryOutcome :=
  r.resolve post hash
    { Hash := hash, Alias := none, Trust := Unverified, Creator := "erd1...",
      CreatedAt := 1625097600, Brand := none, Upgrade := none } tGet tSet

/-- The method `WarpRegistry.GetInfoByAlias`. -/
def WarpRegistry.GetInfoByAlias (post : String → Except String PostResponse) (r : WarpRegistry)
    (aliasName : String) (tGet tSet : Int) : RegistryOutcome :=
  r.resolve post aliasName
    { Hash := "123456789abcdef", Alias := some aliasName, Trust := Unverified,
      Creator := "erd1...", CreatedAt := 1625097600, Brand := none, Upgrade := none }
    tGet tSet

/-! ## Go standard library: `time.Parse` for the layout `time.RFC3339`

The parser works on the bytes of the value.  It is the general parser of `time.Parse`
(Go 1.20 and later), which also reads what the strict reader of RFC 3339 refuses: an
hour of one digit, a comma before the fraction of a second, a zone offset of 24 hours.
An error is its kind, the wording of `time.ParseError` being abridged. -/

/-- Whether a year of the proleptic Gregorian calendar is a leap year: the function
`isLeap` of `time`. -/
def isLeap (year : Int) : Bool :=
  year % 4 = 0 ∧ (year % 100 ≠ 0 ∨ year % 400 = 0)

/-- The function `daysIn` of `time`: the number of days of a month of a year. -/
def daysIn (month year : Int) : Int :=
  if month = 2 then (if isLeap year then 29 else 28)
  else if month = 4 ∨ month = 6 ∨ month = 9 ∨ month = 11 then 30
  else 31

/-- The table `daysBefore` of `time`: the days of a non-leap year before a month. -/
def daysBefore (month : Int) : Int :=
  if month = 1 then 0 else if month = 2 then 31 else if month = 3 then 59
  else if month = 4 then 90 else if month = 5 then 120 else if month = 6 then 151
  else if month = 7 then 181 else if month = 8 then 212 else if month = 9 then 243
  else if month = 10 then 273 else if month = 11 then 304 else 334

/-- The days from 1970-01-01 to a date of the proleptic Gregorian calendar, as
`time.Date` counts them for a month from 1 to 12 and a day of that month. -/
def daysFromCivil (year month day : Int) : Int :=
  365 * (year - 1) + (year - 1) / 4 - (year - 1) / 100 + (year - 1) / 400 - 719162
    + daysBefore month + (if month > 2 ∧ isLeap year then 1 else 0) + (day - 1)

/-- The function `isDigit` of `time`, on a byte. -/
def isDigitByte (b : Nat) : Bool :=
  48 ≤ b ∧ b ≤ 57

/-- The function `getnum` of `time`: a number of one or two digits at the head of the
value, of two digits exactly when `fixed` is set, and the rest of the value. -/
def getnum (s : List Nat) (fixed : Bool) : Option (Nat × List Nat) :=
  match s with
  | [] => none
  | a :: rest =>
    if isDigitByte a then
      match rest with
      | [] => if fixed then none else some (a - 48, rest)
      | b :: rest2 =>
        if isDigitByte b then some ((a - 48) * 10 + (b - 48), rest2)
        else if fixed then none
        else some (a - 48, rest)
    else none

/-- The year of the layout element `2006`: four digits at the head of the value. -/
def getYear (s : List Nat) : Option (Nat × List Nat) :=
  match s with
  | a :: b :: c :: d :: rest =>
    if isDigitByte a ∧ isDigitByte b ∧ isDigitByte c ∧ isDigitByte d then
      some ((a - 48) * 1000 + (b - 48) * 100 + (c - 48) * 10 + (d - 48), rest)
    else none
  | _ => none

/-- The function `skip` of `time` for a prefix of one byte that is no space. -/
def skipByte (c : Nat) (s : List Nat) : Option (List Nat) :=
  match s with
  | [] => none
  | x :: rest => if x = c then some rest else none

/-- The value of a run of digit bytes. -/
def digitBytesValue (ds : List Nat) : Nat :=
  ds.foldl (fun acc d => acc * 10 + (d - 48)) 0

/-- The fraction of a second that may follow the seconds though the layout has none: a
period or a comma and digits, of which `parseNanoseconds` reads the first nine.  The
nanoseconds and the rest of the value. -/
def getFraction (s : List Nat) : Nat × List Nat :=
  match s with
  | sep :: d :: rest =>
    if (sep = 46 ∨ sep = 44) ∧ isDigitByte d then
      (digitBytesValue (((d :: rest).takeWhile isDigitByte).take 9)
          * 10 ^ (9 - min 9 ((d :: rest).takeWhile isDigitByte).length),
        (d :: rest).dropWhile isDigitByte)
    else (0, s)
  | _ => (0, s)

/-- The zone of the layout element `Z07:00`: `Z` for UTC, or a sign, two digits, a colon
and two digits.  The offset in seconds and the rest of the value. -/
def getZone (s : List Nat) : Except String (Int × List Nat) :=
  match s with
  | [] => .error "time: cannot parse zone"
  | z :: rest =>
    if z = 90 then .ok (0, rest)
    else
      match s with
      | sign :: h1 :: h2 :: colon :: m1 :: m2 :: rest6 =>
        if colon ≠ 58 then .error "time: cannot parse zone"
        else
          match getnum [h1, h2] true, getnum [m1, m2] true with
          | some (hr, _), some (mm, _) =>
            if hr > 24 then .error "time: time zone offset hour out of range"
            else if mm > 60 then .error "time: time zone offset minute out of range"
            else if sign = 43 then .ok ((((hr * 60 + mm) * 60 : Nat) : Int), rest6)
            else if sign = 45 then .ok (-(((hr * 60 + mm) * 60 : Nat) : Int), rest6)
            else .error "time: cannot parse zone"
          | _, _ => .error "time: cannot parse zone"
      | _ => .error "time: cannot parse zone"

/-- The clock of the layout `15:04:05Z07:00` and the zone, read after the date: the
seconds since midnight, the nanoseconds, the offset of the zone and the rest of the
value. -/
def getClock (s : List Nat) : Except String (Nat × Nat × Int × List Nat) :=
  match getnum s false with
  | none => .error "time: cannot parse hour"
  | some (hour, s1) =>
    if 24 ≤ hour then .error "time: hour out of range"
    else
      match skipByte 58 s1 with
      | none => .error "time: cannot parse hour separator"
      | some s2 =>
        match getnum s2 true with
        | none => .error "time: cannot parse minute"
        | some (min, s3) =>
          if 60 ≤ min then .error "time: minute out of range"
          else
            match skipByte 58 s3 with
            | none => .error "time: cannot parse minute separator"
            | some s4 =>
              match getnum s4 true with
              | none => .error "time: cannot parse second"
              | some (sec, s5) =>
                if 60 ≤ sec then .error "time: second out of range"
                else
                  match getZone (getFraction s5).2 with
                  | .error e => .error e
                  | .ok (zoneOffset, s6) =>
                    .ok (hour * 3600 + min * 60 + sec, (getFraction s5).1, zoneOffset, s6)

/-- The date of the layout `2006-01-02T`: the year, the month and the day, whose range
is checked at the end, and the rest of the value. -/
def getDate (s : List Nat) : Except String (Nat × Nat × Nat × List Nat) :=
  match getYear s with
  | none => .error "time: cannot parse year"
  | some (year, s1) =>
    match skipByte 45 s1 with
    | none => .error "time: cannot parse year separator"
    | some s2 =>
      match getnum s2 true with
      | none => .error "time: cannot parse month"
      | some (month, s3) =>
        if month = 0 ∨ 12 < month then .error "time: month out of range"
        else
          match skipByte 45 s3 with
          | none => .error "time: cannot parse month separator"
          | some s4 =>
            match getnum s4 true with
            | none => .error "time: cannot parse day"
            | some (day, s5) =>
              match skipByte 84 s5 with
              | none => .error "time: cannot parse date separator"
              | some s6 => .ok (year, month, day, s6)

/-- The call `time.Parse(time.RFC3339, value)`: the instant, in the zone of the value,
or the error. -/
def time.ParseRFC3339 (value : String) : Except String Time :=
  match getDate (bytesOf value.data) with
  | .error e => .error e
  | .ok (year, month, day, s1) =>
    match getClock s1 with
    | .error e => .error e
    | .ok (clock, nsec, zoneOffset, rest) =>
      if rest ≠ [] then .error "time: extra text"
      else if (day : Int) < 1 ∨ (day : Int) > daysIn month year then
        .error "time: day out of range"
      else
        .ok { unix := daysFromCivil year month day * 86400 + clock - zoneOffset,
              offset := zoneOffset, nsec := nsec }

/-- The method `Time.Equal`: the two values are the same instant. -/
def Time.Equal (t u : Time) : Bool :=
  t.unix = u.unix ∧ t.nsec = u.nsec

/-! ## `pkg/utils/helpers.go`: parsing a time -/

/-- The function `ParseTimeISO8601`. -/
def ParseTimeISO8601 (s : String) : Except String Time :=
  time.ParseRFC3339 s

/-! ## Vocabulary of the specification -/

/-- A character of `[0-9a-f]`. -/
def IsLowerHexChar (c : Char) : Prop :=
  ('0' ≤ c ∧ c ≤ '9') ∨ ('a' ≤ c ∧ c ≤ 'f')

/-- An ASCII letter, a digit, `-` or `_`. -/
def IsAliasChar (c : Char) : Prop :=
  ('a' ≤ c ∧ c ≤ 'z') ∨ ('A' ≤ c ∧ c ≤ 'Z') ∨ ('0' ≤ c ∧ c ≤ '9') ∨ c = '-' ∨ c = '_'

instance : DecidablePred IsLowerHexChar := fun c => by
  unfold IsLowerHexChar; infer_instance

instance : DecidablePred IsAliasChar := fun c => by
  unfold IsAliasChar; infer_instance

/-- A text matching `^[a-f0-9]{64}$`: exactly 64 characters, each in `[0-9a-f]`. -/
def IsHash64 (s : String) : Prop :=
  s.length = 64 ∧ ∀ c ∈ s.data, IsLowerHexChar c

/-- A text matching `^[A-Za-z0-9_-]{3,}$`: at least 3 characters, each a letter, a
digit, `-` or `_`. -/
def IsAliasToken (s : String) : Prop :=
  3 ≤ s.length ∧ ∀ c ∈ s.data, IsAliasChar c

instance : DecidablePred IsHash64 := fun s => by
  unfold IsHash64; infer_instance

instance : DecidablePred IsAliasToken := fun s => by
  unfold IsAliasToken; infer_instance

/-- The slice `Inputs` of an action, whatever its variant. -/
def WarpAction.Inputs : WarpAction → List WarpActionInput
  | .transfer a => a.Inputs
  | .contract a => a.Inputs
  | .query a => a.Inputs
  | .collect a => a.Inputs
  | .link a => a.Inputs

/-- The action type that names the concrete variant of an action. -/
def WarpAction.variantType : WarpAction → WarpActionType
  | .transfer _ => TransferActionType
  | .contract _ => ContractActionType
  | .query _ => QueryActionType
  | .collect _ => CollectActionType
  | .link _ => LinkActionType

/-- The five action types known to the validator. -/
def IsKnownActionType (t : WarpActionType) : Prop :=
  t = TransferActionType ∨ t = ContractActionType ∨ t = QueryActionType
    ∨ t = CollectActionType ∨ t = LinkActionType

/-- The concrete variant agrees with the declared type: a declared type that is one of
the five known ones names the variant of the value. -/
def VariantAgrees (a : WarpAction) : Prop :=
  IsKnownActionType a.GetType → a.GetType = a.variantType

/-- The variant-specific required fields of the specification: an address for a
contract; an address and a function name for a query; a non-empty parseable URL and a
method GET or POST for a collect; a non-empty parseable URL for a link; nothing for a
transfer. -/
def VariantFieldsPresent (urlParse : String → Except String Unit) : WarpAction → Prop
  | .transfer _ => True
  | .contract a => a.Address ≠ ""
  | .query a => a.Address ≠ "" ∧ a.Func ≠ ""
  | .collect a =>
    a.Destination.URL ≠ "" ∧ urlParse a.Destination.URL = .ok () ∧
      (a.Destination.Method = GET ∨ a.Destination.Method = POST)
  | .link a => a.URL ≠ "" ∧ urlParse a.URL = .ok ()

instance : DecidablePred IsKnownActionType := fun t => by
  unfold IsKnownActionType; infer_instance

instance : DecidablePred VariantAgrees := fun a => by
  unfold VariantAgrees; infer_instance

/-- A call of one of the setters of the builder. -/
inductive SetterCall where
  | SetName (name : String)
  | SetTitle (title : String)
  | SetDescription (description : String)
  | SetPreview (preview : String)
  | SetActions (actions : List (Option WarpAction))
  | AddAction (action : Option WarpAction)
  deriving DecidableEq, Repr

/-- The builder after one setter call. -/
def WarpBuilder.call (b : WarpBuilder) : SetterCall → WarpBuilder
  | .SetName name => b.SetName name
  | .SetTitle title => b.SetTitle title
  | .SetDescription description => b.SetDescription description
  | .SetPreview preview => b.SetPreview preview
  | .SetActions actions => b.SetActions actions
  | .AddAction action => b.AddAction action

/-- The builder after a sequence of setter calls, made from left to right. -/
def WarpBuilder.configure (b : WarpBuilder) (calls : List SetterCall) : WarpBuilder :=
  calls.foldl WarpBuilder.call b

/-- The name that a sequence of calls, newest first, has set: the argument of the
newest `SetName`, the empty string without one. -/
def nameSetBy : List SetterCall → String
  | [] => ""
  | .SetName name :: _ => name
  | _ :: older => nameSetBy older

/-- The title that a sequence of calls, newest first, has set. -/
def titleSetBy : List SetterCall → String
  | [] => ""
  | .SetTitle title :: _ => title
  | _ :: older => titleSetBy older

/-- The description that a sequence of calls, newest first, has set, if any. -/
def descriptionSetBy : List SetterCall → Option String
  | [] => none
  | .SetDescription description :: _ => some description
  | _ :: older => descriptionSetBy older

/-- The preview that a sequence of calls, newest first, has set, if any. -/
def previewSetBy : List SetterCall → Option String
  | [] => none
  | .SetPreview preview :: _ => some preview
  | _ :: older => previewSetBy older

/-- The actions that a sequence of calls, newest first, has set: those of the newest
`SetActions` (none without one), then the actions added since, in the order added. -/
def actionsSetBy : List SetterCall → List (Option WarpAction)
  | [] => []
  | .SetActions actions :: _ => actions
  | .AddAction action :: older => actionsSetBy older ++ [action]
  | _ :: older => actionsSetBy older

/-- The client base URL of a link: the configured one, or the default of the
environment when none is configured. -/
def clientBaseURL (config : WarpConfig) : String :=
  if config.ClientURL = "" then DefaultClientURL config.Env else config.ClientURL

/-- A text starts with one of the super-client URLs. -/
def StartsWithSuperClient (s : String) : Prop :=
  ∃ superURL ∈ SuperClientURLs, HasPrefix s superURL = true

instance : DecidablePred StartsWithSuperClient := fun s => by
  unfold StartsWithSuperClient; infer_instance

/-- The first segment of a rooted path: the text between its leading `/` and the next
`/`.  It is empty for the paths `""` and `"/"`. -/
def firstPathSegment (path : String) : String :=
  String.mk ((path.data.drop 1).takeWhile fun c => c ≠ '/')

/-- The token that `extractIdentifierInfoFromURL` reads from a parsed URL: the first path
segment when scheme and host start with a super-client URL and the segment is not
empty, else the value of the query parameter `warp`. -/
def urlToken (u : URL) : String :=
  if StartsWithSuperClient (u.Scheme ++ "://" ++ u.Host) ∧ firstPathSegment u.Path ≠ "" then
    firstPathSegment u.Path
  else QueryGet u.RawQuery "warp"

/-- The classification of a token read from a URL: none for the empty token and for a
token that cannot be URL-decoded, else what `GetInfoFromPrefixedIdentifier` makes of
the decoded token. -/
def classifyToken (token : String) : Option IdentifierInfo :=
  if token = "" then none
  else
    match QueryUnescape token with
    | .error _ => none
    | .ok decoded => GetInfoFromPrefixedIdentifier decoded

/-- The identifier that `Detect` reads from its input: extracted from the URL when the
input starts with `http`, else the classification of the input itself. -/
def identifierOf (parse : String → Except String URL) (urlStr : String) :
    Option IdentifierInfo :=
  if HasPrefix urlStr "http" then extractIdentifierInfoFromURL parse urlStr
  else GetInfoFromPrefixedIdentifier urlStr

/-- The result of `DetectFromHTML` for one warp link: the link and its warp when `Detect`
returns no error and a warp, else nothing. -/
def htmlResultOf (parse : String → Except String URL) (collab : Collaborators)
    (link : String) : Option WarpHTMLResult :=
  match (Detect parse collab link).err, (Detect parse collab link).result.Warp with
  | none, some w => some { URL := link, Warp := w }
  | _, _ => none

/-- A character that the class of the URL pattern of `DetectFromHTML` admits: any
character but the space, the tab, the line feed, the form feed and the carriage return
(the white space of the pattern), the double quote (code 34), the apostrophe (code 39)
and the two angle brackets. -/
def IsURLBodyChar (c : Char) : Prop :=
  c ≠ ' ' ∧ c ≠ Char.ofNat 9 ∧ c ≠ Char.ofNat 10 ∧ c ≠ Char.ofNat 12 ∧ c ≠ Char.ofNat 13 ∧
    c ≠ Char.ofNat 34 ∧ c ≠ Char.ofNat 39 ∧ c ≠ '<' ∧ c ≠ '>'

/-- A text of the shape of the URL pattern of `DetectFromHTML`: `http://` or `https://`
followed by one or more characters other than white space, quotes and angle
brackets. -/
def IsURLPatternMatch (m : String) : Prop :=
  ∃ body : List Char, body ≠ [] ∧ (∀ c ∈ body, IsURLBodyChar c) ∧
    (m.data = "http://".data ++ body ∨ m.data = "https://".data ++ body)

/-- A match of the URL pattern starts at the head of a text: the text begins with a
string of the shape of the pattern. -/
def MatchStartsAt (l : List Char) : Prop :=
  ∃ m : List Char, IsURLPatternMatch (String.mk m) ∧ m <+: l

/-- The matches of the URL pattern in a text, as a search for all matches is described:
the leftmost match, taken as long as the pattern allows, and after it the matches of the
rest of the text.  A text with a match is a gap at no position of which a match starts,
the match, which the rest does not continue with a character of the class, and the rest;
a text at no position of which a match starts has no match. -/
inductive IsFindAll : List Char → List String → Prop
  | done (l : List Char) (hnone : ∀ t, t <:+ l → ¬ MatchStartsAt t) : IsFindAll l []
  | found (gap m rest : List Char) (ms : List String)
      (hgap : ∀ a b, gap = a ++ b → b ≠ [] → ¬ MatchStartsAt (b ++ (m ++ rest)))
      (hm : IsURLPatternMatch (String.mk m))
      (hmax : ∀ c tail, rest = c :: tail → ¬ IsURLBodyChar c)
      (hrest : IsFindAll rest ms) : IsFindAll (gap ++ (m ++ rest)) (String.mk m :: ms)

/-- A page with two warp links and one other link, in this order: a path-style link
on a super client, an image, and a query-style link. -/
def examplePage : String :=
  "<a href='https://usewarp.to/first-warp'>one</a> <img src='https://example.org/logo.png'> <a href='https://testnet.usewarp.to/to?warp=alias%3Asecond-warp'>two</a>"

/-- A page whose one link is an `http://` warp link between double quotes, with text
before and after it. -/
def quotedPage : String :=
  String.mk ("see <a href=".data ++ [Char.ofNat 34] ++ "http://usewarp.to/first-warp".data ++
    [Char.ofNat 34] ++ ">one</a> here".data)

/-- Collaborators that answer every call: the registry knows every alias, under a hash
made from it, and the builder resolves every hash to a warp named after it. -/
def exampleCollaborators : Collaborators :=
  { CreateFromTransactionHash := fun hash _ =>
      (some { Protocol := "warp-0.0.2", Name := hash, Title := "t", Actions := [] }, none),
    GetInfoByHash := fun _ => (none, some "failed to get registry info"),
    GetInfoByAlias := fun aliasName =>
      (some { RegistryInfo := some { Hash := "hash-of-" ++ aliasName, Alias := some aliasName,
                                     Trust := "unverified", Creator := "erd1...",
                                     CreatedAt := 1625097600 },
              Brand := none }, none) }

/-- A run of `Get` calls for one key at the given instants, in order: the values
returned and the cache afterwards. -/
def WarpCache.Gets {α : Type} (c : WarpCache α) (key : CacheKey) :
    List Int → List (Option α) × WarpCache α
  | [] => ([], c)
  | now :: rest =>
    let r := c.Get key now
    let rs := WarpCache.Gets r.2 key rest
    (r.1 :: rs.1, rs.2)

/-- The function `url.Parse` as the validator reads it: whether the parse succeeds. -/
def urlParses (s : String) : Except String Unit :=
  (url.Parse s).map fun _ => ()

/-- A warp with a single link action, which `Validate` accepts. -/
def linkWarp : Warp :=
  { Protocol := "warp-0.0.2", Name := "demo", Title := "Demo",
    Actions := [some (.link { Type_ := "link", Label := "Open",
                              URL := "https://example.com" })] }

/-- A warp without actions, as a decoder can read it back. -/
def plainWarp : Warp :=
  { Protocol := "warp-0.0.2", Name := "demo", Title := "Demo", Actions := [] }

/-- An answer of the chain API for a transaction whose payload is `plainWarp`. -/
def plainBody : String :=
  jsonRender (.obj [("data", .str (json.MarshalWarp (some plainWarp))),
    ("sender", .str "erd1sender"), ("timestamp", .num "1700000000")])

/-- A runtime in which the chain API answers every request with `plainBody`, the local
time zone is UTC and `url.Parse` is the model of the standard library. -/
def plainRuntime : Runtime :=
  { urlParse := urlParses,
    httpGet := fun _ => .ok { StatusCode := 200, Body := .ok plainBody },
    localOffset := fun _ => 0 }

/-- An instant rendered by `time.RFC3339` in some time zone: the string is the rendering
of the instant `sec` seconds after the Unix epoch at the offset given. -/
def RendersInstant (s : String) (sec offset : Int) : Prop :=
  s = Time.FormatRFC3339 { unix := sec, offset := offset }

/-- A sweep of the cache at one instant `t`: a pass of `cleanup` in which the clock
reads `t` at every entry. -/
def WarpCache.sweep {α : Type} (c : WarpCache α) (t : Int) : WarpCache α :=
  c.cleanupPass fun _ => t

/-- The builder and the registry that a call of `Detect` creates from the configuration,
as collaborators: every call is made on the new builder or the new registry. -/
def detectCollaborators (rt : Runtime) (post : String → Except String PostResponse)
    (config : WarpConfig) (tGet tSet : Int) : Collaborators :=
  { CreateFromTransactionHash := fun hash cacheConfig =>
      ((NewWarpBuilder config).CreateFromTransactionHash rt hash cacheConfig tGet tSet).result,
    GetInfoByHash := fun hash =>
      ((NewWarpRegistry config).GetInfoByHash post hash tGet tSet).result,
    GetInfoByAlias := fun aliasName =>
      ((NewWarpRegistry config).GetInfoByAlias post aliasName tGet tSet).result }

/-- The requests for a transaction that the calls of one `Detect` issue: those of its
call of `CreateFromTransactionHash` on the new builder, if it makes one. -/
def transactionRequests (rt : Runtime) (config : WarpConfig) (tGet tSet : Int) :
    List CollaboratorCall → List String
  | [] => []
  | .CreateFromTransactionHash hash cacheConfig :: rest =>
    ((NewWarpBuilder config).CreateFromTransactionHash rt hash cacheConfig tGet tSet).requests
      ++ transactionRequests rt config tGet tSet rest
  | _ :: rest => transactionRequests rt config tGet tSet rest

/-- A registry endpoint that answers every post with the status 404. -/
def notFoundPost : String → Except String PostResponse :=
  fun _ => .ok { StatusCode := 404, Status := "404 Not Found" }

/-- A registry endpoint that answers every post with the status 200. -/
def okPost : String → Except String PostResponse :=
  fun _ => .ok { StatusCode := 200, Status := "200 OK" }

/-- The decimal numeral of a number, zero-padded to a width: the last `width` decimal
digits of the number. -/
def zeroPadded : Nat → Nat → List Char
  | 0, _ => []
  | width + 1, n => zeroPadded width (n / 10) ++ [Nat.digitChar (n % 10)]

/-! ## Lemmas on the string helpers -/

theorem HasPrefix_append (p x : String) : HasPrefix (p ++ x) p = true := by
  simp [HasPrefix]

theorem TrimPrefix_append (p x : String) : TrimPrefix (p ++ x) p = x := by
  simp [TrimPrefix, HasPrefix_append]

theorem hash_separator : IdentifierTypeHash ++ IdentifierParamSeparator = "hash:" := by
  decide

theorem alias_separator : IdentifierTypeAlias ++ IdentifierParamSeparator = "alias:" := by
  decide

theorem alias_not_hash_prefixed (x : String) : HasPrefix ("alias:" ++ x) "hash:" = false := by
  have h : ("alias:" : String).data = ['a', 'l', 'i', 'a', 's', ':'] := rfl
  have h2 : ("hash:" : String).data = ['h', 'a', 's', 'h', ':'] := rfl
  simp [HasPrefix, h, h2, List.isPrefixOf]

theorem lowerHex_mem (c : Char) :
    CharClass.mem [('a', 'f'), ('0', '9')] c = true ↔ IsLowerHexChar c := by
  have h (a b : Char) : a ≤ b ↔ a.toNat ≤ b.toNat := Iff.rfl
  simp only [CharClass.mem, IsLowerHexChar, List.any_cons, List.any_nil, Bool.or_false,
    Bool.or_eq_true, Bool.and_eq_true, decide_eq_true_eq, h]
  tauto

theorem aliasChar_mem (c : Char) :
    CharClass.mem [('a', 'z'), ('A', 'Z'), ('0', '9'), ('-', '-'), ('_', '_')] c = true
      ↔ IsAliasChar c := by
  have h (a b : Char) : a ≤ b ↔ a.toNat ≤ b.toNat := Iff.rfl
  have e (a : Char) : c = a ↔ (a.toNat ≤ c.toNat ∧ c.toNat ≤ a.toNat) := by
    constructor
    · rintro rfl; exact ⟨le_refl _, le_refl _⟩
    · rintro ⟨h1, h2⟩
      exact Char.ext (UInt32.ext (Nat.le_antisymm h2 h1))
  simp only [CharClass.mem, IsAliasChar, List.any_cons, List.any_nil, Bool.or_false,
    Bool.or_eq_true, Bool.and_eq_true, decide_eq_true_eq, h, e]

theorem hashPattern_iff (s : String) : hashPattern s = true ↔ IsHash64 s := by
  simp only [hashPattern, matchExactly, IsHash64, Bool.and_eq_true, beq_iff_eq,
    List.all_eq_true, lowerHex_mem]
  rfl

theorem aliasPattern_iff (s : String) : aliasPattern s = true ↔ IsAliasToken s := by
  simp only [aliasPattern, matchAtLeast, IsAliasToken, Bool.and_eq_true, decide_eq_true_eq,
    List.all_eq_true, aliasChar_mem]
  rfl

theorem lowerHex_isAliasChar {c : Char} (h : IsLowerHexChar c) : IsAliasChar c := by
  have t (a b : Char) : a ≤ b ↔ a.toNat ≤ b.toNat := Iff.rfl
  simp only [IsLowerHexChar, IsAliasChar, t] at *
  have hf : ('f' : Char).toNat ≤ ('z' : Char).toNat := by decide
  rcases h with h | h
  · exact Or.inr (Or.inr (Or.inl h))
  · exact Or.inl ⟨h.1, le_trans h.2 hf⟩

theorem IsHash64.isAliasToken {s : String} (h : IsHash64 s) : IsAliasToken s :=
  ⟨by rw [h.1]; decide, fun c hc => lowerHex_isAliasChar (h.2 c hc)⟩

/-- A text of alias characters holds no `:`, so it starts with no text holding one. -/
theorem aliasChars_not_prefixed (s p : String) (hp : ':' ∈ p.data)
    (h : ∀ c ∈ s.data, IsAliasChar c) : HasPrefix s p = false := by
  by_contra hc
  simp only [HasPrefix, Bool.not_eq_false, List.isPrefixOf_iff_prefix] at hc
  have := h ':' (hc.subset hp)
  revert this
  decide

theorem unprefixed_classify (s : String) (h1 : HasPrefix s "hash:" = false)
    (h2 : HasPrefix s "alias:" = false) :
    GetInfoFromPrefixedIdentifier s =
      if hashPattern s then some { Type_ := HashIDType, ID := s }
      else if aliasPattern s then some { Type_ := AliasIDType, ID := s }
      else none := by
  simp [GetInfoFromPrefixedIdentifier, hash_separator, alias_separator, h1, h2]

theorem short_not_prefixed (s p : String) (h : s.length < p.length) :
    HasPrefix s p = false := by
  by_contra hc
  simp only [HasPrefix, Bool.not_eq_false, List.isPrefixOf_iff_prefix] at hc
  have := hc.length_le
  simp only [String.length] at h
  omega

/-! ## Identifier classification (`GetInfoFromPrefixedIdentifier`) -/

/-- C1: for every string `X`, the token `"hash:" ++ X` is classified as Hash with ID
exactly `X` and the token `"alias:" ++ X` as Alias with ID exactly `X`, whatever the
shape of `X`. -/
theorem prefixed_identifier_keeps_remainder (X : String) :
    GetInfoFromPrefixedIdentifier ("hash:" ++ X) = some { Type_ := HashIDType, ID := X } ∧
    GetInfoFromPrefixedIdentifier ("alias:" ++ X) = some { Type_ := AliasIDType, ID := X } := by
  constructor
  · simp [GetInfoFromPrefixedIdentifier, hash_separator, HasPrefix_append, TrimPrefix_append]
  · simp [GetInfoFromPrefixedIdentifier, hash_separator, alias_separator, HasPrefix_append,
      TrimPrefix_append, alias_not_hash_prefixed]

/-- C2: every token of exactly 64 characters, each in `[0-9a-f]`, also matches the alias
pattern, and is nevertheless classified as Hash with ID equal to the token. -/
theorem hash64_wins_over_alias (s : String) (h : IsHash64 s) :
    aliasPattern s = true ∧
    GetInfoFromPrefixedIdentifier s = some { Type_ := HashIDType, ID := s } := by
  have ha := h.isAliasToken
  refine ⟨(aliasPattern_iff s).2 ha, ?_⟩
  rw [unprefixed_classify s (aliasChars_not_prefixed s _ (by decide) ha.2)
    (aliasChars_not_prefixed s _ (by decide) ha.2)]
  simp [(hashPattern_iff s).2 h]

/-- Witness of C2 at a 64-character lowercase-hex token. -/
theorem hash64_wins_over_alias_witness :
    IsHash64 "0123456789abcdef0123456789abcdef0123456789abcdef0123456789abcdef" ∧
    aliasPattern "0123456789abcdef0123456789abcdef0123456789abcdef0123456789abcdef" = true ∧
    GetInfoFromPrefixedIdentifier
        "0123456789abcdef0123456789abcdef0123456789abcdef0123456789abcdef" =
      some { Type_ := HashIDType,
             ID := "0123456789abcdef0123456789abcdef0123456789abcdef0123456789abcdef" } :=
  ⟨by decide, hash64_wins_over_alias _ (by decide)⟩

/-- C3: every token of at least 3 characters, each an ASCII letter, a digit, `-` or `_`,
that is not a 64-character lowercase-hex string is classified as Alias with ID equal
to the token. -/
theorem alias_token_classified_alias (s : String) (h : IsAliasToken s) (hn : ¬ IsHash64 s) :
    GetInfoFromPrefixedIdentifier s = some { Type_ := AliasIDType, ID := s } := by
  rw [unprefixed_classify s (aliasChars_not_prefixed s _ (by decide) h.2)
    (aliasChars_not_prefixed s _ (by decide) h.2)]
  have h1 : hashPattern s = false := by
    rw [← Bool.not_eq_true, hashPattern_iff]; exact hn
  simp [h1, (aliasPattern_iff s).2 h]

/-- Witness of C3 at `"my-alias"`. -/
theorem alias_token_classified_alias_witness :
    IsAliasToken "my-alias" ∧ ¬ IsHash64 "my-alias" ∧
    GetInfoFromPrefixedIdentifier "my-alias" =
      some { Type_ := AliasIDType, ID := "my-alias" } :=
  ⟨by decide, by decide, alias_token_classified_alias _ (by decide) (by decide)⟩

/-- C4: a token starting with neither `hash:` nor `alias:` yields no identifier if and
only if it matches neither `^[a-f0-9]{64}$` nor `^[A-Za-z0-9_-]{3,}$`; the empty string,
every token of 1 or 2 characters and `"invalid:format:"` yield none. -/
theorem unprefixed_none_iff_no_match :
    (∀ s : String, HasPrefix s "hash:" = false → HasPrefix s "alias:" = false →
      (GetInfoFromPrefixedIdentifier s = none ↔ ¬ IsHash64 s ∧ ¬ IsAliasToken s)) ∧
    GetInfoFromPrefixedIdentifier "" = none ∧
    (∀ s : String, s.length = 1 ∨ s.length = 2 → GetInfoFromPrefixedIdentifier s = none) ∧
    GetInfoFromPrefixedIdentifier "invalid:format:" = none := by
  have key : ∀ s : String, HasPrefix s "hash:" = false → HasPrefix s "alias:" = false →
      (GetInfoFromPrefixedIdentifier s = none ↔ ¬ IsHash64 s ∧ ¬ IsAliasToken s) := by
    intro s h1 h2
    rw [unprefixed_classify s h1 h2, ← hashPattern_iff, ← aliasPattern_iff]
    cases hashPattern s <;> cases aliasPattern s <;> simp
  refine ⟨key, by decide, ?_, by decide⟩
  intro s hs
  have hlen : s.length < 3 := by omega
  have p1 : HasPrefix s "hash:" = false :=
    short_not_prefixed s _ (lt_of_lt_of_le hlen (by decide))
  have p2 : HasPrefix s "alias:" = false :=
    short_not_prefixed s _ (lt_of_lt_of_le hlen (by decide))
  rw [key s p1 p2]
  constructor
  · intro h; have := h.1; omega
  · intro h; have := h.1; omega

/-- Witness of C4 at the unprefixed token `"a:b"`, which matches neither pattern. -/
theorem unprefixed_none_iff_no_match_witness :
    HasPrefix "a:b" "hash:" = false ∧ HasPrefix "a:b" "alias:" = false ∧
    (GetInfoFromPrefixedIdentifier "a:b" = none ↔ ¬ IsHash64 "a:b" ∧ ¬ IsAliasToken "a:b") :=
  ⟨by decide, by decide, unprefixed_none_iff_no_match.1 "a:b" (by decide) (by decide)⟩

/-- C5: the unprefixed token of the test case `Hash without prefix` has 60 characters,
so it fails `^[a-f0-9]{64}$` and the code classifies it as Alias, not as Hash. -/
theorem hash_without_prefix_test_token_is_alias :
    String.length "123456789abcdef123456789abcdef123456789abcdef123456789abcdef" = 60 ∧
    hashPattern "123456789abcdef123456789abcdef123456789abcdef123456789abcdef" = false ∧
    GetInfoFromPrefixedIdentifier
        "123456789abcdef123456789abcdef123456789abcdef123456789abcdef" =
      some { Type_ := AliasIDType,
             ID := "123456789abcdef123456789abcdef123456789abcdef123456789abcdef" } ∧
    GetInfoFromPrefixedIdentifier
        "123456789abcdef123456789abcdef123456789abcdef123456789abcdef" ≠
      some { Type_ := HashIDType,
             ID := "123456789abcdef123456789abcdef123456789abcdef123456789abcdef" } := by
  decide

/-! ## Structural validation (`WarpValidator`) -/

theorem validateInputs_ok_iff (i : Nat) (l : List WarpActionInput) :
    validateInputs i l = .ok () ↔ ∀ x ∈ l, validateInput x = .ok () := by
  induction l generalizing i with
  | nil => simp [validateInputs]
  | cons x rest ih =>
    rw [validateInputs]
    cases hx : validateInput x with
    | error e => simp [hx]
    | ok u => cases u; simp [ih, hx]

theorem validateActions_ok_iff (urlParse : String → Except String Unit) (i : Nat)
    (l : List (Option WarpAction)) :
    validateActions urlParse i l = .ok () ↔ ∀ a ∈ l, validateAction urlParse a = .ok () := by
  induction l generalizing i with
  | nil => simp [validateActions]
  | cons x rest ih =>
    rw [validateActions]
    cases hx : validateAction urlParse x with
    | error e => simp [hx]
    | ok u => cases u; simp [ih, hx]

/-- A failing action loop stops at the least invalid index `k`: it reports `i + k` with
that action's error, and the actions after `k` play no part in the result. -/
theorem validateActions_error (urlParse : String → Except String Unit) (i : Nat)
    (l : List (Option WarpAction)) (err : String)
    (h : validateActions urlParse i l = .error err) :
    ∃ k a e, l[k]? = some a ∧ validateAction urlParse a = .error e ∧
      (∀ j b, j < k → l[j]? = some b → validateAction urlParse b = .ok ()) ∧
      err = "WarpValidator: invalid action at index " ++ formatInt ((i + k : Nat) : Int)
        ++ ": " ++ e ∧
      ∀ later, validateActions urlParse i (l.take (k + 1) ++ later) = .error err := by
  induction l generalizing i with
  | nil => simp [validateActions] at h
  | cons x rest ih =>
    rw [validateActions] at h
    cases hx : validateAction urlParse x with
    | error e =>
      rw [hx] at h
      simp only [Except.error.injEq] at h
      refine ⟨0, x, e, by simp, hx, by simp, by simp [h], ?_⟩
      intro later
      simp [validateActions, hx, h]
    | ok u =>
      cases u
      rw [hx] at h
      obtain ⟨k, a, e, hk, ha, hlt, herr, hlater⟩ := ih (i + 1) h
      refine ⟨k + 1, a, e, by simpa using hk, ha, ?_, ?_, ?_⟩
      · intro j b hj hb
        cases j with
        | zero => simp at hb; subst hb; exact hx
        | succ j => exact hlt j b (by omega) (by simpa using hb)
      · rw [herr]; congr 4; omega
      · intro later
        simp only [List.take_succ_cons, List.cons_append, validateActions, hx]
        exact hlater later

/-- C6: `Validate` returns an error for every warp whose protocol, name or title is
empty or whose action list is empty, and for the nil warp. -/
theorem validate_rejects_missing_required (urlParse : String → Except String Unit) :
    (∀ w : Warp, w.Protocol = "" ∨ w.Name = "" ∨ w.Title = "" ∨ w.Actions = [] →
      ∃ err, Validate urlParse (some w) = .error err) ∧
    ∃ err, Validate urlParse none = .error err := by
  refine ⟨?_, _, rfl⟩
  intro w h
  simp only [Validate]
  by_cases h1 : w.Protocol = ""
  · exact ⟨_, by rw [if_pos h1]⟩
  by_cases h2 : w.Name = ""
  · exact ⟨_, by rw [if_neg h1, if_pos h2]⟩
  by_cases h3 : w.Title = ""
  · exact ⟨_, by rw [if_neg h1, if_neg h2, if_pos h3]⟩
  have h4 : w.Actions = [] := by tauto
  exact ⟨_, by rw [if_neg h1, if_neg h2, if_neg h3, if_pos (by simp [h4])]⟩

/-- Witness of C6 at a warp with an empty name. -/
theorem validate_rejects_missing_required_witness :
    ∃ err, Validate (fun _ => .ok ())
      (some { Protocol := "warp-0.0.2", Name := "", Title := "t", Actions := [] }) =
        .error err :=
  (validate_rejects_missing_required (fun _ => .ok ())).1 _ (Or.inr (Or.inl rfl))

/-- C7: for a warp with non-empty protocol, name and title and at least one action,
`Validate` succeeds exactly when every action passes `validateAction`; when it fails,
the reported index `k` is the least index of an invalid action, the message is
`WarpValidator: invalid action at index k: ` followed by that action's error, and
the actions after `k` are not examined (replacing them leaves the result unchanged). -/
theorem validate_fails_fast_at_first_invalid (urlParse : String → Except String Unit)
    (w : Warp) (hp : w.Protocol ≠ "") (hn : w.Name ≠ "") (ht : w.Title ≠ "")
    (ha : w.Actions ≠ []) :
    (Validate urlParse (some w) = .ok () ↔
      ∀ a ∈ w.Actions, validateAction urlParse a = .ok ()) ∧
    ∀ err, Validate urlParse (some w) = .error err →
      ∃ k a e, w.Actions[k]? = some a ∧ validateAction urlParse a = .error e ∧
        (∀ j b, j < k → w.Actions[j]? = some b → validateAction urlParse b = .ok ()) ∧
        err = "WarpValidator: invalid action at index " ++ formatInt (k : Nat) ++ ": " ++ e ∧
        ∀ later, Validate urlParse
          (some { w with Actions := w.Actions.take (k + 1) ++ later }) = .error err := by
  have hlen : w.Actions.length ≠ 0 := by simpa using ha
  have hv : Validate urlParse (some w) = validateActions urlParse 0 w.Actions := by
    simp [Validate, hp, hn, ht, hlen]
  refine ⟨by rw [hv, validateActions_ok_iff], ?_⟩
  intro err herr
  rw [hv] at herr
  obtain ⟨k, a, e, hk, hae, hlt, he, hlater⟩ := validateActions_error urlParse 0 _ err herr
  refine ⟨k, a, e, hk, hae, hlt, by simpa using he, ?_⟩
  intro later
  have hlen2 : (w.Actions.take (k + 1) ++ later).length ≠ 0 := by
    cases hw : w.Actions with
    | nil => exact absurd hw ha
    | cons x rest => simp
  simp only [Validate, hp, hn, ht, hlen2, if_false]
  exact hlater later

/-- Witness of C7 at a warp whose second action is a contract without address. -/
theorem validate_fails_fast_at_first_invalid_witness :
    Validate (fun _ => .ok ())
      (some { Protocol := "warp-0.0.2", Name := "n", Title := "t",
              Actions := [some (.link { Type_ := "link", Label := "l", URL := "u" }),
                          some (.contract { Type_ := "contract", Label := "l", Address := "",
                                            GasLimit := 0 }),
                          none] }) =
      .error "WarpValidator: invalid action at index 1: contract address is required" ∧
    ∃ k a e,
      [some (WarpAction.link { Type_ := "link", Label := "l", URL := "u" }),
       some (.contract { Type_ := "contract", Label := "l", Address := "", GasLimit := 0 }),
       none][k]? = some a ∧
      validateAction (fun _ => .ok ()) a = .error e ∧
      "WarpValidator: invalid action at index 1: contract address is required" =
        "WarpValidator: invalid action at index " ++ formatInt (k : Nat) ++ ": " ++ e := by
  have h := validate_fails_fast_at_first_invalid (fun _ => .ok ())
    { Protocol := "warp-0.0.2", Name := "n", Title := "t",
      Actions := [some (.link { Type_ := "link", Label := "l", URL := "u" }),
                  some (.contract { Type_ := "contract", Label := "l", Address := "",
                                    GasLimit := 0 }),
                  none] }
    (by decide) (by decide) (by decide) (by decide)
  refine ⟨by decide, ?_⟩
  obtain ⟨k, a, e, hk, hae, _, he, _⟩ :=
    h.2 "WarpValidator: invalid action at index 1: contract address is required" (by decide)
  exact ⟨k, a, e, hk, hae, he⟩

theorem toDigitsCore_eq (n : Nat) : ∀ fuel acc, n < fuel →
    Nat.toDigitsCore 10 fuel n acc = Nat.toDigits 10 n ++ acc := by
  induction n using Nat.strong_induction_on with
  | _ n ih =>
    intro fuel acc hf
    cases fuel with
    | zero => omega
    | succ f =>
      unfold Nat.toDigits
      simp only [Nat.toDigitsCore]
      by_cases h0 : n / 10 = 0
      · simp [h0]
      · have hlt : n / 10 < n := Nat.div_lt_self (by omega) (by decide)
        simp only [h0, if_false]
        rw [ih (n / 10) hlt f _ (by omega), ih (n / 10) hlt n _ hlt]
        simp

theorem toDigits_small (n : Nat) (h : n < 10) : Nat.toDigits 10 n = [Nat.digitChar n] := by
  have h0 : n / 10 = 0 := by omega
  have hm : n % 10 = n := by omega
  simp [Nat.toDigits, Nat.toDigitsCore, h0, hm]

theorem toDigits_large (n : Nat) (h : 10 ≤ n) :
    Nat.toDigits 10 n = Nat.toDigits 10 (n / 10) ++ [Nat.digitChar (n % 10)] := by
  have h0 : n / 10 ≠ 0 := by omega
  have hlt : n / 10 < n := Nat.div_lt_self (by omega) (by decide)
  conv_lhs => unfold Nat.toDigits
  simp only [Nat.toDigitsCore, h0, if_false]
  rw [toDigitsCore_eq _ _ _ hlt]

theorem digitChar_toNat (d : Nat) (h : d < 10) : (Nat.digitChar d).toNat = 48 + d := by
  interval_cases d <;> rfl

theorem digitChar_of_toNat (c : Char) (h1 : 48 ≤ c.toNat) (h2 : c.toNat ≤ 57) :
    Nat.digitChar (c.toNat - 48) = c := by
  apply Char.ext
  apply UInt32.ext
  have := digitChar_toNat (c.toNat - 48) (by omega)
  show (Nat.digitChar (c.toNat - 48)).toNat = c.toNat
  omega

theorem nonzeroDigit_mem (c : Char) :
    CharClass.mem [('1', '9')] c = true ↔ 49 ≤ c.toNat ∧ c.toNat ≤ 57 := by
  have a : ('1' : Char).toNat = 49 := rfl
  have b : ('9' : Char).toNat = 57 := rfl
  simp [CharClass.mem, a, b]

theorem digit_mem (c : Char) :
    CharClass.mem [('0', '9')] c = true ↔ 48 ≤ c.toNat ∧ c.toNat ≤ 57 := by
  have a : ('0' : Char).toNat = 48 := rfl
  have b : ('9' : Char).toNat = 57 := rfl
  simp [CharClass.mem, a, b]

/-- The numeral of a positive integer is a digit `1`..`9` followed by digits. -/
theorem toDigits_shape (n : Nat) (hn : 0 < n) :
    ∃ d rest, Nat.toDigits 10 n = d :: rest ∧ CharClass.mem [('1', '9')] d = true ∧
      ∀ c ∈ rest, CharClass.mem [('0', '9')] c = true := by
  induction n using Nat.strong_induction_on with
  | _ n ih =>
    by_cases h : n < 10
    · refine ⟨Nat.digitChar n, [], toDigits_small n h, ?_, by simp⟩
      rw [nonzeroDigit_mem, digitChar_toNat n h]; omega
    · have hlt : n / 10 < n := Nat.div_lt_self (by omega) (by decide)
      obtain ⟨d, rest, hd, h1, h2⟩ := ih (n / 10) hlt (by omega)
      refine ⟨d, rest ++ [Nat.digitChar (n % 10)], ?_, h1, ?_⟩
      · rw [toDigits_large n (by omega), hd]; rfl
      · intro c hc
        rcases List.mem_append.1 hc with hc | hc
        · exact h2 c hc
        · rw [List.mem_singleton.1 hc, digit_mem,
            digitChar_toNat _ (Nat.mod_lt _ (by decide))]
          omega

/-- A digit `1`..`9` followed by digits is the numeral of a positive integer. -/
theorem numeral_is_toDigits (rest : List Char) :
    ∀ d : Char, CharClass.mem [('1', '9')] d = true →
      (∀ c ∈ rest, CharClass.mem [('0', '9')] c = true) →
      ∃ n, 0 < n ∧ Nat.toDigits 10 n = d :: rest := by
  induction rest using List.reverseRecOn with
  | nil =>
    intro d hd _
    rw [nonzeroDigit_mem] at hd
    refine ⟨d.toNat - 48, by omega, ?_⟩
    rw [toDigits_small _ (by omega), digitChar_of_toNat d (by omega) hd.2]
  | append_singleton init c ih =>
    intro d hd hall
    obtain ⟨m, hm, hdig⟩ := ih d hd (fun x hx => hall x (List.mem_append_left _ hx))
    have hc := hall c (by simp)
    rw [digit_mem] at hc
    refine ⟨m * 10 + (c.toNat - 48), by omega, ?_⟩
    have e1 : (m * 10 + (c.toNat - 48)) / 10 = m := by omega
    have e2 : (m * 10 + (c.toNat - 48)) % 10 = c.toNat - 48 := by omega
    rw [toDigits_large _ (by omega), e1, e2, hdig, digitChar_of_toNat c hc.1 hc.2]
    rfl

/-- The pattern `^arg:[1-9][0-9]*$` matches exactly the positions that `ArgPosition`
builds from a positive index. -/
theorem argPositionPattern_iff (s : String) :
    argPositionPattern s = true ↔ ∃ n : Int, 0 < n ∧ s = ArgPosition n := by
  have hlit : ("arg:" : String).data = ['a', 'r', 'g', ':'] := rfl
  constructor
  · intro h
    simp only [argPositionPattern, Bool.and_eq_true, List.isPrefixOf_iff_prefix] at h
    obtain ⟨⟨t, ht⟩, hm⟩ := h
    have hs : s.data = 'a' :: 'r' :: 'g' :: ':' :: t := by rw [← ht]; rfl
    rw [hs] at hm
    simp only [List.drop_succ_cons, List.drop_zero] at hm
    cases t with
    | nil => simp at hm
    | cons d rest =>
      simp only [Bool.and_eq_true, List.all_eq_true] at hm
      obtain ⟨n, hn, hdig⟩ := numeral_is_toDigits rest d hm.1 hm.2
      refine ⟨(n : Int), by exact_mod_cast hn, ?_⟩
      apply String.ext
      rw [hs]
      show _ = ("arg:" ++ String.mk (Nat.toDigits 10 n)).data
      rw [String.data_append, hdig]
      rfl
  · rintro ⟨n, hn, rfl⟩
    obtain ⟨m, rfl⟩ := Int.eq_ofNat_of_zero_le (le_of_lt hn)
    have hm : 0 < m := by exact_mod_cast hn
    obtain ⟨d, rest, hd, h1, h2⟩ := toDigits_shape m hm
    have hdata : (ArgPosition (m : Int)).data = 'a' :: 'r' :: 'g' :: ':' :: d :: rest := by
      show ("arg:" ++ String.mk (Nat.toDigits 10 m)).data = _
      rw [String.data_append, hd, hlit]; rfl
    simp only [argPositionPattern, hdata, hlit, Bool.and_eq_true]
    refine ⟨by simp [List.isPrefixOf], ?_⟩
    simp only [List.drop_succ_cons, List.drop_zero, Bool.and_eq_true, List.all_eq_true]
    exact ⟨h1, h2⟩

theorem validateInput_ok_iff (input : WarpActionInput) :
    validateInput input = .ok () ↔
      input.Name ≠ "" ∧ input.Type_ ≠ "" ∧ input.Position ≠ "" ∧ input.Source ≠ "" ∧
      (input.Source = "field" ∨ input.Source = "query") ∧
      (input.Position = "receiver" ∨ input.Position = "value" ∨
        input.Position = "transfer" ∨ argPositionPattern input.Position = true) := by
  unfold validateInput
  by_cases h1 : input.Name = ""
  · simp [h1]
  by_cases h2 : input.Type_ = ""
  · simp [h1, h2]
  by_cases h3 : input.Position = ""
  · simp [h1, h2, h3]
  by_cases h4 : input.Source = ""
  · simp [h1, h2, h3, h4]
  by_cases h5 : validSources input.Source = true
  · have h5b : input.Source = "field" ∨ input.Source = "query" := by
      simpa [validSources, FieldSource, QuerySource] using h5
    by_cases h6 : input.Position = ReceiverPosition ∨ input.Position = ValuePosition
        ∨ input.Position = TransferPosition
    · have h6b : input.Position = "receiver" ∨ input.Position = "value" ∨
          input.Position = "transfer" ∨ argPositionPattern input.Position = true := by
        simp only [ReceiverPosition, ValuePosition, TransferPosition] at h6
        tauto
      simp only [h1, h2, h3, h4, h5, h6, if_true, if_false, Bool.not_true]
      simp [h1, h2, h3, h4, h5b, h6b]
    · cases h7 : argPositionPattern input.Position with
      | true =>
        simp only [h1, h2, h3, h4, h5, h6, if_true, if_false, Bool.not_true, h7]
        simp [h1, h2, h3, h4, h5b]
      | false =>
        simp only [h1, h2, h3, h4, h5, h6, if_true, if_false, Bool.not_true, h7,
          Bool.not_false]
        simp only [ReceiverPosition, ValuePosition, TransferPosition] at h6
        simp only [ne_eq, not_false_eq_true, true_and, h5b, Bool.false_eq_true, or_false]
        constructor
        · intro h; cases h
        · intro h; exact absurd (by tauto) h6
  · have h5b : ¬ (input.Source = "field" ∨ input.Source = "query") := by
      simpa [validSources, FieldSource, QuerySource] using h5
    simp only [Bool.not_eq_true] at h5
    simp [h1, h2, h3, h4, h5, h5b]

/-- C9: `validateInput` accepts an input exactly when its name, type, position and
source are non-empty, the source is `field` or `query`, and the position is `receiver`,
`value`, `transfer` or `arg:` followed by the decimal numeral of a positive integer;
`arg:0` and `arg:-1` are rejected and `arg:1` is accepted. -/
theorem validateInput_accepts_iff :
    (∀ input : WarpActionInput, validateInput input = .ok () ↔
      input.Name ≠ "" ∧ input.Type_ ≠ "" ∧ input.Position ≠ "" ∧ input.Source ≠ "" ∧
      (input.Source = "field" ∨ input.Source = "query") ∧
      (input.Position = "receiver" ∨ input.Position = "value" ∨
        input.Position = "transfer" ∨
        ∃ n : Int, 0 < n ∧ input.Position = "arg:" ++ formatInt n)) ∧
    (∀ input : WarpActionInput, input.Position = "arg:0" ∨ input.Position = "arg:-1" →
      validateInput input ≠ .ok ()) ∧
    (∀ input : WarpActionInput, input.Name ≠ "" → input.Type_ ≠ "" →
      input.Source = "field" ∨ input.Source = "query" → input.Position = "arg:1" →
      validateInput input = .ok ()) := by
  refine ⟨?_, ?_, ?_⟩
  · intro input
    rw [validateInput_ok_iff, argPositionPattern_iff]
    rfl
  · intro input hpos hok
    rw [validateInput_ok_iff] at hok
    obtain ⟨_, _, _, _, _, hp⟩ := hok
    rcases hpos with hpos | hpos <;> rw [hpos] at hp <;> revert hp <;> decide
  · intro input h1 h2 hs hpos
    rw [validateInput_ok_iff, hpos]
    refine ⟨h1, h2, by decide, ?_, hs, by decide⟩
    rcases hs with hs | hs <;> rw [hs] <;> decide

/-- Witness of C9 at inputs with positions `arg:0`, `arg:-1` and `arg:1`. -/
theorem validateInput_accepts_iff_witness :
    validateInput { Name := "n", Type_ := "string", Position := "arg:0", Source := "field" }
      ≠ .ok () ∧
    validateInput { Name := "n", Type_ := "string", Position := "arg:-1", Source := "field" }
      ≠ .ok () ∧
    validateInput { Name := "n", Type_ := "string", Position := "arg:1", Source := "query" }
      = .ok () :=
  ⟨validateInput_accepts_iff.2.1 _ (Or.inl rfl),
   validateInput_accepts_iff.2.1 _ (Or.inr rfl),
   validateInput_accepts_iff.2.2 _ (by decide) (by decide) (Or.inr rfl) rfl⟩

/-! ### Contract actions and the gas limit -/

/-- The action loop reads its list only through `validateAction`. -/
theorem validateActions_congr (urlParse : String → Except String Unit) :
    ∀ (l l2 : List (Option WarpAction)) (i : Nat),
      l.map (validateAction urlParse) = l2.map (validateAction urlParse) →
      validateActions urlParse i l = validateActions urlParse i l2 := by
  intro l
  induction l with
  | nil =>
    intro l2 i h
    cases l2 with
    | nil => rfl
    | cons y r => simp at h
  | cons x rest ih =>
    intro l2 i h
    cases l2 with
    | nil => simp at h
    | cons y r =>
      simp only [List.map_cons, List.cons.injEq] at h
      simp only [validateActions, h.1]
      cases validateAction urlParse y with
      | error e => rfl
      | ok u => cases u; exact ih r (i + 1) h.2

/-- The check of a contract action does not read its gas limit. -/
theorem validateAction_gasLimit (urlParse : String → Except String Unit)
    (a : WarpContractAction) (g : Int) :
    validateAction urlParse (some (.contract { a with GasLimit := g })) =
      validateAction urlParse (some (.contract a)) := by
  simp [validateAction, WarpAction.GetType, WarpAction.GetLabel, validateContractAction]

theorem configure_snoc (b : WarpBuilder) (calls : List SetterCall) (c : SetterCall) :
    b.configure (calls ++ [c]) = (b.configure calls).call c := by
  simp [WarpBuilder.configure, List.foldl_append]

/-- The pending warp of a configured builder holds what the setters have set, and the
protocol and the other fields of `NewWarpBuilder`. -/
theorem configure_pendingWarp (config : WarpConfig) (calls : List SetterCall) :
    ((NewWarpBuilder config).configure calls).pendingWarp =
      { Protocol := "warp-0.0.2", Name := nameSetBy calls.reverse,
        Title := titleSetBy calls.reverse, Description := descriptionSetBy calls.reverse,
        Preview := previewSetBy calls.reverse, Actions := actionsSetBy calls.reverse } := by
  induction calls using List.reverseRecOn with
  | nil => rfl
  | append_singleton l c ih =>
    rw [configure_snoc, List.reverse_append, List.reverse_singleton, List.singleton_append]
    cases c <;>
      simp [WarpBuilder.call, WarpBuilder.SetName, WarpBuilder.SetTitle,
        WarpBuilder.SetDescription, WarpBuilder.SetPreview, WarpBuilder.SetActions,
        WarpBuilder.AddAction, ih, nameSetBy, titleSetBy, descriptionSetBy, previewSetBy,
        actionsSetBy]

/-- The check of a contract action of declared type `contract` without address fails,
with the message `contract address is required` when the label is not empty. -/
theorem validateAction_contract_no_address (urlParse : String → Except String Unit)
    (a : WarpContractAction) (ht : a.Type_ = ContractActionType) (hadr : a.Address = "") :
    (∃ e, validateAction urlParse (some (.contract a)) = .error e) ∧
    (a.Label ≠ "" →
      validateAction urlParse (some (.contract a)) = .error "contract address is required") := by
  have hc2 : ContractActionType ≠ "" := by decide
  have hc1 : ContractActionType ≠ TransferActionType := by decide
  by_cases hl : a.Label = ""
  · refine ⟨⟨"action label is required", ?_⟩, fun h => absurd hl h⟩
    simp [validateAction, WarpAction.GetType, WarpAction.GetLabel, ht, hc2, hl]
  · have h : validateAction urlParse (some (.contract a)) =
        .error "contract address is required" := by
      simp [validateAction, WarpAction.GetType, WarpAction.GetLabel, ht, hc1, hc2, hl,
        validateContractAction, hadr]
    exact ⟨⟨_, h⟩, fun _ => h⟩

/-- The action loop fails at the first invalid action, with its index and its error. -/
theorem validateActions_first_error (urlParse : String → Except String Unit) :
    ∀ (l : List (Option WarpAction)) (k i : Nat) (x : Option WarpAction) (e : String),
      l[i]? = some x → validateAction urlParse x = .error e →
      (∀ j y, j < i → l[j]? = some y → validateAction urlParse y = .ok ()) →
      validateActions urlParse k l =
        .error ("WarpValidator: invalid action at index " ++ formatInt ((k + i : Nat) : Int)
          ++ ": " ++ e) := by
  intro l
  induction l with
  | nil => intro k i x e h; simp at h
  | cons y rest ih =>
    intro k i x e hi hx hbefore
    cases i with
    | zero =>
      simp only [List.getElem?_cons_zero, Option.some.injEq] at hi
      subst hi
      simp [validateActions, hx]
    | succ i =>
      have hy : validateAction urlParse y = .ok () := hbefore 0 y (by omega) (by simp)
      simp only [List.getElem?_cons_succ] at hi
      rw [validateActions, hy]
      have := ih (k + 1) i x e hi hx
        (fun j z hj hz => hbefore (j + 1) z (by omega) (by simpa using hz))
      rw [this]
      have hk : k + 1 + i = k + (i + 1) := by omega
      rw [hk]

/-- The result of `Build` once its four guards are passed. -/
theorem build_eq_of_guards (urlParse : String → Except String Unit) (b : WarpBuilder)
    (hp : b.pendingWarp.Protocol ≠ "") (hn : b.pendingWarp.Name ≠ "")
    (ht : b.pendingWarp.Title ≠ "") (ha : b.pendingWarp.Actions ≠ []) :
    b.Build urlParse =
      match validateActions urlParse 0 b.pendingWarp.Actions with
      | .error err => .error err
      | .ok () => .ok b.pendingWarp := by
  have hlen : b.pendingWarp.Actions.length ≠ 0 := by simpa using ha
  simp [WarpBuilder.Build, Validate, hp, hn, ht, hlen]

theorem isSuperClient_iff (s : String) : isSuperClient s = true ↔ StartsWithSuperClient s := by
  simp [isSuperClient, StartsWithSuperClient, List.any_eq_true]

/-- C12: `Build` returns the client base URL, then `/` when the base starts with a
super-client URL and `?warp=` otherwise, then the query-escaped token; the token is the
bare id for type alias and `hash:` followed by the id for type hash.  The id
`(hash, abc)` gives `https://usewarp.to/to/hash%3Aabc` for the base
`https://usewarp.to/to` and `https://other.example?warp=hash%3Aabc` for the base
`https://other.example`. -/
theorem link_build_shape :
    (∀ (config : WarpConfig) (id : String),
      (StartsWithSuperClient (clientBaseURL config) →
        WarpLink.Build config AliasIDType id = clientBaseURL config ++ "/" ++ QueryEscape id ∧
        WarpLink.Build config HashIDType id =
          clientBaseURL config ++ "/" ++ QueryEscape ("hash:" ++ id)) ∧
      (¬ StartsWithSuperClient (clientBaseURL config) →
        WarpLink.Build config AliasIDType id =
          clientBaseURL config ++ "?warp=" ++ QueryEscape id ∧
        WarpLink.Build config HashIDType id =
          clientBaseURL config ++ "?warp=" ++ QueryEscape ("hash:" ++ id))) ∧
    WarpLink.Build { Env := Mainnet, ClientURL := "https://usewarp.to/to" } HashIDType "abc" =
      "https://usewarp.to/to/hash%3Aabc" ∧
    WarpLink.Build { Env := Mainnet, ClientURL := "https://other.example" } HashIDType "abc" =
      "https://other.example?warp=hash%3Aabc" := by
  refine ⟨?_, by decide, by decide⟩
  intro config id
  have hne : HashIDType ≠ AliasIDType := by decide
  have htoken : HashIDType ++ IdentifierParamSeparator ++ id = "hash:" ++ id := by
    rw [String.append_assoc]
    show "hash" ++ (":" ++ id) = "hash:" ++ id
    rw [← String.append_assoc]
    rfl
  have hq : "?" ++ IdentifierParamName ++ "=" = "?warp=" := by decide
  constructor
  · intro h
    have hs := (isSuperClient_iff _).2 h
    simp only [clientBaseURL] at hs ⊢
    simp [WarpLink.Build, hs, hne, htoken]
  · intro h
    have hs : isSuperClient (clientBaseURL config) = false := by
      rw [← Bool.not_eq_true, isSuperClient_iff]; exact h
    simp only [clientBaseURL] at hs ⊢
    simp only [WarpLink.Build, hs, hne, htoken, if_true, if_false, Bool.false_eq_true]
    simp only [String.append_assoc]
    constructor <;> rfl

/-- Witness of C12 at the default mainnet base, a super client, and the alias id
`my-warp`. -/
theorem link_build_shape_witness :
    StartsWithSuperClient (clientBaseURL { Env := Mainnet }) ∧
    WarpLink.Build { Env := Mainnet } AliasIDType "my-warp" =
      clientBaseURL { Env := Mainnet } ++ "/" ++ QueryEscape "my-warp" :=
  ⟨by decide, ((link_build_shape.1 { Env := Mainnet } "my-warp").1 (by decide)).1⟩

theorem Split_ne_nil (sep : Char) (l : List Char) : Split sep l ≠ [] := by
  cases l with
  | nil => simp [Split]
  | cons c cs =>
    unfold Split
    split
    · simp
    · split <;> simp

theorem Split_head (sep : Char) (l : List Char) :
    (Split sep l).getD 0 [] = l.takeWhile fun c => c ≠ sep := by
  induction l with
  | nil => simp [Split]
  | cons c cs ih =>
    unfold Split
    by_cases h : c = sep
    · simp [h]
    · simp only [h, if_false]
      cases hs : Split sep cs with
      | nil => exact absurd hs (Split_ne_nil sep cs)
      | cons p ps =>
        rw [hs] at ih
        simp only [List.getD_cons_zero] at ih
        simp [List.takeWhile_cons, h, ih]

theorem utf8ByteSize_go_pos (l : List Char) (h : l ≠ []) : 0 < String.utf8ByteSize.go l := by
  cases l with
  | nil => exact absurd rfl h
  | cons c cs =>
    have := Char.utf8Size_pos c
    simp only [String.utf8ByteSize.go]
    omega

/-- The value that the code reads from the path of a super-client URL is the first
segment of a rooted path. -/
theorem path_value_eq (path : String) (hpath : path = "" ∨ HasPrefix path "/" = true) :
    (if path.utf8ByteSize > 1 ∧ (Split '/' path.data).length > 1 then
        String.mk ((Split '/' path.data).getD 1 [])
      else "") = firstPathSegment path := by
  rcases hpath with h | h
  · subst h; decide
  · have hd : ∃ rest, path.data = '/' :: rest := by
      simp only [HasPrefix, List.isPrefixOf_iff_prefix] at h
      obtain ⟨t, ht⟩ := h
      exact ⟨t, ht.symm⟩
    obtain ⟨rest, hrest⟩ := hd
    have hsplit : Split '/' path.data = [] :: Split '/' rest := by
      rw [hrest]; simp [Split]
    have hlen : (Split '/' path.data).length > 1 := by
      rw [hsplit]
      have := List.length_pos.2 (Split_ne_nil '/' rest)
      simp only [List.length_cons]
      omega
    have hget : (Split '/' path.data).getD 1 [] = rest.takeWhile fun c => c ≠ '/' := by
      rw [hsplit]
      simpa using Split_head '/' rest
    have hseg : firstPathSegment path = String.mk (rest.takeWhile fun c => c ≠ '/') := by
      simp [firstPathSegment, hrest]
    have hsize : path.utf8ByteSize = String.utf8ByteSize.go rest + 1 := by
      have : path = String.mk ('/' :: rest) := by rw [← hrest]
      rw [this]
      rfl
    by_cases hr : rest = []
    · have h1 : ¬ path.utf8ByteSize > 1 := by
        rw [hsize, hr]; decide
      rw [hseg, hr]
      simp [h1]
    · have h1 : path.utf8ByteSize > 1 := by
        have := utf8ByteSize_go_pos rest hr
        omega
      rw [hseg, ← hget]
      simp [h1, hlen]

/-- C15: for a URL that parses, with an empty or rooted path, the token is the first path
segment when scheme and host start with a super-client URL and that segment is not
empty, whatever the query holds, and else the value of the query parameter `warp`; the
result is none when the token is empty or cannot be URL-decoded, and else the
classification of the decoded token by `GetInfoFromPrefixedIdentifier`. -/
theorem extract_reads_segment_or_query (parse : String → Except String URL)
    (urlStr : String) (u : URL) (hparse : parse urlStr = .ok u)
    (hpath : u.Path = "" ∨ HasPrefix u.Path "/" = true) :
    extractIdentifierInfoFromURL parse urlStr = classifyToken (urlToken u) ∧
    (StartsWithSuperClient (u.Scheme ++ "://" ++ u.Host) → firstPathSegment u.Path ≠ "" →
      urlToken u = firstPathSegment u.Path) ∧
    (¬ (StartsWithSuperClient (u.Scheme ++ "://" ++ u.Host) ∧ firstPathSegment u.Path ≠ "") →
      urlToken u = QueryGet u.RawQuery "warp") ∧
    (urlToken u = "" → extractIdentifierInfoFromURL parse urlStr = none) ∧
    (∀ e, QueryUnescape (urlToken u) = .error e →
      extractIdentifierInfoFromURL parse urlStr = none) ∧
    (∀ decoded, urlToken u ≠ "" → QueryUnescape (urlToken u) = .ok decoded →
      extractIdentifierInfoFromURL parse urlStr = GetInfoFromPrefixedIdentifier decoded) := by
  have hmain : extractIdentifierInfoFromURL parse urlStr = classifyToken (urlToken u) := by
    have hv := path_value_eq u.Path hpath
    have hname : IdentifierParamName = "warp" := rfl
    simp only [extractIdentifierInfoFromURL, hparse, classifyToken, urlToken, hname]
    by_cases hs : isSuperClient (u.Scheme ++ "://" ++ u.Host) = true
    · have hs2 := (isSuperClient_iff _).1 hs
      simp only [hs, true_and, hv, hs2]
      by_cases hseg : firstPathSegment u.Path = ""
      · simp [hseg]
      · simp [hseg]
    · have hs2 : ¬ StartsWithSuperClient (u.Scheme ++ "://" ++ u.Host) :=
        fun h => hs ((isSuperClient_iff _).2 h)
      simp [hs, hs2]
  refine ⟨hmain, ?_, ?_, ?_, ?_, ?_⟩
  · intro h1 h2; simp [urlToken, h1, h2]
  · intro h; simp [urlToken, h]
  · intro h; rw [hmain]; simp [classifyToken, h]
  · intro e he; rw [hmain]; simp [classifyToken, he]
  · intro decoded hne hd; rw [hmain]; simp [classifyToken, hne, hd]

/-- Witness of C15 at a super-client URL with a path segment and a `warp` parameter: the
segment is the token and the parameter is ignored. -/
theorem extract_reads_segment_or_query_witness :
    url.Parse "https://usewarp.to/alias%3Amy-warp?warp=other" =
      .ok { Scheme := "https", Host := "usewarp.to", Path := "/alias:my-warp",
            RawQuery := "warp=other" } ∧
    urlToken { Scheme := "https", Host := "usewarp.to", Path := "/alias:my-warp",
               RawQuery := "warp=other" } = "alias:my-warp" ∧
    extractIdentifierInfoFromURL url.Parse "https://usewarp.to/alias%3Amy-warp?warp=other" =
      some { Type_ := AliasIDType, ID := "my-warp" } := by
  have h := extract_reads_segment_or_query url.Parse
    "https://usewarp.to/alias%3Amy-warp?warp=other"
    { Scheme := "https", Host := "usewarp.to", Path := "/alias:my-warp",
      RawQuery := "warp=other" } (by decide) (by decide)
  refine ⟨by decide, by decide, ?_⟩
  rw [h.1]
  decide

/-- C13: for the default mainnet client URL the round trip fails.  `Build` puts the token
after the base `https://usewarp.to/to`, and the extraction reads the first path
segment, `to`, which is no identifier: for a 64-character hash and for the alias
`my-alias` the extraction returns none and `IsValid` is false.  For the default testnet
and devnet client URLs the same identifiers come back. -/
theorem mainnet_round_trip_fails :
    WarpLink.Build { Env := Mainnet } HashIDType
        "0123456789abcdef0123456789abcdef0123456789abcdef0123456789abcdef" =
      "https://usewarp.to/to/hash%3A0123456789abcdef0123456789abcdef0123456789abcdef0123456789abcdef" ∧
    extractIdentifierInfoFromURL url.Parse
        (WarpLink.Build { Env := Mainnet } HashIDType
          "0123456789abcdef0123456789abcdef0123456789abcdef0123456789abcdef") = none ∧
    IsValid url.Parse
        (WarpLink.Build { Env := Mainnet } HashIDType
          "0123456789abcdef0123456789abcdef0123456789abcdef0123456789abcdef") = false ∧
    extractIdentifierInfoFromURL url.Parse
        (WarpLink.Build { Env := Mainnet } AliasIDType "my-alias") = none ∧
    extractIdentifierInfoFromURL url.Parse
        (WarpLink.Build { Env := Testnet } HashIDType
          "0123456789abcdef0123456789abcdef0123456789abcdef0123456789abcdef") =
      some { Type_ := HashIDType,
             ID := "0123456789abcdef0123456789abcdef0123456789abcdef0123456789abcdef" } ∧
    extractIdentifierInfoFromURL url.Parse
        (WarpLink.Build { Env := Devnet } AliasIDType "my-alias") =
      some { Type_ := AliasIDType, ID := "my-alias" } := by
  decide

/-- C14: `url.Parse` gives the URL `https://usewarp.to/to/alias%3Amy-warp` the path
`/to/alias:my-warp`, whose first segment is `to`; the extraction classifies `to`, which
has two characters, and returns none instead of the alias `my-warp`. -/
theorem extract_alias_under_to_is_none :
    url.Parse "https://usewarp.to/to/alias%3Amy-warp" =
      .ok { Scheme := "https", Host := "usewarp.to", Path := "/to/alias:my-warp" } ∧
    Split '/' "/to/alias:my-warp".data = ["".data, "to".data, "alias:my-warp".data] ∧
    GetInfoFromPrefixedIdentifier "to" = none ∧
    extractIdentifierInfoFromURL url.Parse "https://usewarp.to/to/alias%3Amy-warp" = none ∧
    extractIdentifierInfoFromURL url.Parse "https://usewarp.to/to/alias%3Amy-warp" ≠
      some { Type_ := AliasIDType, ID := "my-warp" } := by
  decide

/-! ## Detection (`WarpLink.Detect`) -/

theorem detectFinish_facts (urlStr : String) (warp : Option Warp)
    (registryInfo : Option RegistryInfo) (brand : Option Brand)
    (calls : List CollaboratorCall) :
    (detectFinish urlStr warp registryInfo brand calls).result.URL = urlStr ∧
    (detectFinish urlStr warp registryInfo brand calls).result.Warp = warp ∧
    (detectFinish urlStr warp registryInfo brand calls).result.Match = warp.isSome ∧
    (detectFinish urlStr warp registryInfo brand calls).err = none ∧
    (detectFinish urlStr warp registryInfo brand calls).calls = calls ∧
    (warp = none →
      (detectFinish urlStr warp registryInfo brand calls).result = noMatch urlStr) ∧
    (warp ≠ none →
      (detectFinish urlStr warp registryInfo brand calls).result.RegistryInfo = registryInfo ∧
      (detectFinish urlStr warp registryInfo brand calls).result.Brand = brand) := by
  cases warp <;> simp [detectFinish, noMatch]

theorem Detect_eq (parse : String → Except String URL) (collab : Collaborators)
    (urlStr : String) :
    Detect parse collab urlStr =
      match identifierOf parse urlStr with
      | none => { result := noMatch urlStr, err := none, calls := [] }
      | some idr =>
        if idr.Type_ = HashIDType then
          match collab.CreateFromTransactionHash idr.ID none with
          | (_, some err) =>
            { result := noMatch urlStr, err := some err,
              calls := [.CreateFromTransactionHash idr.ID none] }
          | (warp, none) =>
            match collab.GetInfoByHash idr.ID with
            | (some registryResult, none) =>
              detectFinish urlStr warp registryResult.RegistryInfo registryResult.Brand
                [.CreateFromTransactionHash idr.ID none, .GetInfoByHash idr.ID]
            | _ =>
              detectFinish urlStr warp none none
                [.CreateFromTransactionHash idr.ID none, .GetInfoByHash idr.ID]
        else if idr.Type_ = AliasIDType then
          match collab.GetInfoByAlias idr.ID with
          | (_, some err) =>
            { result := noMatch urlStr, err := some err, calls := [.GetInfoByAlias idr.ID] }
          | (none, none) =>
            { result := noMatch urlStr, err := none, calls := [.GetInfoByAlias idr.ID] }
          | (some registryResult, none) =>
            match registryResult.RegistryInfo with
            | some registryInfo =>
              match collab.CreateFromTransactionHash registryInfo.Hash none with
              | (_, some err) =>
                { result := noMatch urlStr, err := some err,
                  calls := [.GetInfoByAlias idr.ID,
                            .CreateFromTransactionHash registryInfo.Hash none] }
              | (warp, none) =>
                detectFinish urlStr warp registryResult.RegistryInfo registryResult.Brand
                  [.GetInfoByAlias idr.ID, .CreateFromTransactionHash registryInfo.Hash none]
            | none =>
              detectFinish urlStr none registryResult.RegistryInfo registryResult.Brand
                [.GetInfoByAlias idr.ID]
        else detectFinish urlStr none none none [] := by
  rfl

/-- The invariants of the result of `Detect`. -/
theorem Detect_invariants (parse : String → Except String URL) (collab : Collaborators)
    (urlStr : String) :
    (Detect parse collab urlStr).result.URL = urlStr ∧
    ((Detect parse collab urlStr).result.Match = true ↔
      (Detect parse collab urlStr).result.Warp ≠ none) ∧
    ((Detect parse collab urlStr).result.Match = false →
      (Detect parse collab urlStr).result = noMatch urlStr) := by
  have hfin : ∀ warp ri br calls,
      (detectFinish urlStr warp ri br calls).result.URL = urlStr ∧
      ((detectFinish urlStr warp ri br calls).result.Match = true ↔
        (detectFinish urlStr warp ri br calls).result.Warp ≠ none) ∧
      ((detectFinish urlStr warp ri br calls).result.Match = false →
        (detectFinish urlStr warp ri br calls).result = noMatch urlStr) := by
    intro warp ri br calls
    cases warp <;> simp [detectFinish, noMatch]
  have hno : ∀ (e : Option String) (calls : List CollaboratorCall),
      (DetectOutcome.mk (noMatch urlStr) e calls).result.URL = urlStr ∧
      ((DetectOutcome.mk (noMatch urlStr) e calls).result.Match = true ↔
        (DetectOutcome.mk (noMatch urlStr) e calls).result.Warp ≠ none) ∧
      ((DetectOutcome.mk (noMatch urlStr) e calls).result.Match = false →
        (DetectOutcome.mk (noMatch urlStr) e calls).result = noMatch urlStr) := by
    intro e calls; simp [noMatch]
  rw [Detect_eq]
  cases identifierOf parse urlStr with
  | none => exact hno _ _
  | some idr =>
    simp only
    split_ifs
    · rcases hb : collab.CreateFromTransactionHash idr.ID none with ⟨warp, _ | err⟩
      · rcases hr : collab.GetInfoByHash idr.ID with ⟨_ | rr, _ | e2⟩ <;>
          simp only [hb, hr] <;> exact hfin _ _ _ _
      · simp [hb, noMatch]
    · rcases hr : collab.GetInfoByAlias idr.ID with ⟨_ | rr, _ | e2⟩
      · simp [hr, noMatch]
      · simp [hr, noMatch]
      · simp only [hr]
        cases hri : rr.RegistryInfo with
        | none => simp only [hri]; exact hfin _ _ _ _
        | some info =>
          simp only [hri]
          rcases hb : collab.CreateFromTransactionHash info.Hash none with ⟨warp, _ | err⟩
          · simp only [hb]; exact hfin _ _ _ _
          · simp [hb, noMatch]
      · simp [hr, noMatch]
    · exact hfin _ _ _ _

/-- C16: for an input read as a Hash identifier, when the builder resolves a warp `w`,
`Detect` returns `Match = true` with that warp and no error, with the registry's
information when the lookup by hash succeeds and with nil `RegistryInfo` and `Brand`
when it fails; when the builder fails, `Detect` returns `Match = false`, no warp and the
builder's error. -/
theorem detect_hash_identifier (parse : String → Except String URL) (collab : Collaborators)
    (urlStr id : String)
    (hid : identifierOf parse urlStr = some { Type_ := HashIDType, ID := id }) :
    (∀ w, collab.CreateFromTransactionHash id none = (some w, none) →
      (Detect parse collab urlStr).result.Match = true ∧
      (Detect parse collab urlStr).result.Warp = some w ∧
      (Detect parse collab urlStr).err = none ∧
      ((collab.GetInfoByHash id).2 ≠ none ∨ (collab.GetInfoByHash id).1 = none →
        (Detect parse collab urlStr).result.RegistryInfo = none ∧
        (Detect parse collab urlStr).result.Brand = none) ∧
      (∀ rr, collab.GetInfoByHash id = (some rr, none) →
        (Detect parse collab urlStr).result.RegistryInfo = rr.RegistryInfo ∧
        (Detect parse collab urlStr).result.Brand = rr.Brand)) ∧
    (∀ x e, collab.CreateFromTransactionHash id none = (x, some e) →
      (Detect parse collab urlStr).result.Match = false ∧
      (Detect parse collab urlStr).result.Warp = none ∧
      (Detect parse collab urlStr).err = some e) := by
  rw [Detect_eq, hid]
  simp only [if_true]
  constructor
  · intro w hb
    rcases hr : collab.GetInfoByHash id with ⟨_ | rr, _ | e2⟩ <;>
      simp [hb, hr, detectFinish]
  · intro x e hb
    simp [hb, noMatch]

/-- Witness of C16 at the input `hash:abc`, with a builder that resolves a warp and a
registry that fails. -/
theorem detect_hash_identifier_witness :
    (Detect url.Parse
      { CreateFromTransactionHash := fun h _ =>
          (some { Protocol := "warp-0.0.2", Name := h, Title := "t", Actions := [] }, none),
        GetInfoByHash := fun _ => (none, some "failed to get registry info"),
        GetInfoByAlias := fun _ => (none, none) } "hash:abc").result.Match = true ∧
    (Detect url.Parse
      { CreateFromTransactionHash := fun h _ =>
          (some { Protocol := "warp-0.0.2", Name := h, Title := "t", Actions := [] }, none),
        GetInfoByHash := fun _ => (none, some "failed to get registry info"),
        GetInfoByAlias := fun _ => (none, none) } "hash:abc").result.Warp =
      some { Protocol := "warp-0.0.2", Name := "abc", Title := "t", Actions := [] } ∧
    (Detect url.Parse
      { CreateFromTransactionHash := fun h _ =>
          (some { Protocol := "warp-0.0.2", Name := h, Title := "t", Actions := [] }, none),
        GetInfoByHash := fun _ => (none, some "failed to get registry info"),
        GetInfoByAlias := fun _ => (none, none) } "hash:abc").err = none := by
  have h := (detect_hash_identifier url.Parse
    { CreateFromTransactionHash := fun h _ =>
        (some { Protocol := "warp-0.0.2", Name := h, Title := "t", Actions := [] }, none),
      GetInfoByHash := fun _ => (none, some "failed to get registry info"),
      GetInfoByAlias := fun _ => (none, none) } "hash:abc" "abc" (by decide)).1
    { Protocol := "warp-0.0.2", Name := "abc", Title := "t", Actions := [] } rfl
  exact ⟨h.1, h.2.1, h.2.2.1⟩

/-- C17: for an input read as an Alias identifier, when the registry lookup by alias
returns an error or nothing, `Detect` returns `Match = false` and no warp, with the
registry's error, and makes no call to the builder; when it returns an entry, `Detect`
calls `CreateFromTransactionHash` on the hash of the entry, and a failure of that call
gives `Match = false`, no warp and the builder's error. -/
theorem detect_alias_identifier (parse : String → Except String URL) (collab : Collaborators)
    (urlStr id : String)
    (hid : identifierOf parse urlStr = some { Type_ := AliasIDType, ID := id }) :
    ((collab.GetInfoByAlias id).2 ≠ none ∨ (collab.GetInfoByAlias id).1 = none →
      (Detect parse collab urlStr).result.Match = false ∧
      (Detect parse collab urlStr).result.Warp = none ∧
      (Detect parse collab urlStr).err = (collab.GetInfoByAlias id).2 ∧
      (Detect parse collab urlStr).calls = [.GetInfoByAlias id]) ∧
    (∀ rr info, collab.GetInfoByAlias id = (some rr, none) → rr.RegistryInfo = some info →
      (Detect parse collab urlStr).calls =
        [.GetInfoByAlias id, .CreateFromTransactionHash info.Hash none] ∧
      (∀ w, collab.CreateFromTransactionHash info.Hash none = (some w, none) →
        (Detect parse collab urlStr).result =
          { Match := true, URL := urlStr, Warp := some w, RegistryInfo := some info,
            Brand := rr.Brand } ∧
        (Detect parse collab urlStr).err = none) ∧
      (∀ x e, collab.CreateFromTransactionHash info.Hash none = (x, some e) →
        (Detect parse collab urlStr).result.Match = false ∧
        (Detect parse collab urlStr).result.Warp = none ∧
        (Detect parse collab urlStr).err = some e)) := by
  have hne : AliasIDType ≠ HashIDType := by decide
  rw [Detect_eq, hid]
  simp only [hne, if_true, if_false]
  constructor
  · intro h
    rcases hr : collab.GetInfoByAlias id with ⟨_ | rr, _ | e2⟩
    · simp [noMatch]
    · simp [noMatch]
    · rw [hr] at h; simp at h
    · simp [noMatch]
  · intro rr info hr hinfo
    simp only [hr, hinfo]
    rcases hb : collab.CreateFromTransactionHash info.Hash none with ⟨_ | w, _ | e⟩ <;>
      simp [detectFinish, noMatch]

/-- Witness of C17 at the input `my-alias`, with a registry entry of hash `abc` and a
builder that fails. -/
theorem detect_alias_identifier_witness :
    (Detect url.Parse
      { CreateFromTransactionHash := fun _ _ => (none, some "failed to get transaction"),
        GetInfoByHash := fun _ => (none, none),
        GetInfoByAlias := fun a =>
          (some { RegistryInfo := some { Hash := "abc", Alias := some a, Trust := "unverified",
                                         Creator := "erd1...", CreatedAt := 1625097600 },
                  Brand := none }, none) } "my-alias").calls =
      [.GetInfoByAlias "my-alias", .CreateFromTransactionHash "abc" none] :=
  ((detect_alias_identifier url.Parse
    { CreateFromTransactionHash := fun _ _ => (none, some "failed to get transaction"),
      GetInfoByHash := fun _ => (none, none),
      GetInfoByAlias := fun a =>
        (some { RegistryInfo := some { Hash := "abc", Alias := some a, Trust := "unverified",
                                       Creator := "erd1...", CreatedAt := 1625097600 },
                Brand := none }, none) } "my-alias" "my-alias" (by decide)).2
    { RegistryInfo := some { Hash := "abc", Alias := some "my-alias", Trust := "unverified",
                             Creator := "erd1...", CreatedAt := 1625097600 },
      Brand := none }
    { Hash := "abc", Alias := some "my-alias", Trust := "unverified",
      Creator := "erd1...", CreatedAt := 1625097600 } rfl rfl).1

/-- C18: whatever the builder and the registry answer, the result of `Detect` has the
input as URL, has `Match = true` exactly when it has a warp, and has no warp, no
`RegistryInfo` and no `Brand` when `Match = false`; when no identifier is read from the
input, the result is `Match = false` with a nil error and no call to a collaborator. -/
theorem detect_result_invariants (parse : String → Except String URL)
    (collab : Collaborators) (urlStr : String) :
    (Detect parse collab urlStr).result.URL = urlStr ∧
    ((Detect parse collab urlStr).result.Match = true ↔
      (Detect parse collab urlStr).result.Warp ≠ none) ∧
    ((Detect parse collab urlStr).result.Match = false →
      (Detect parse collab urlStr).result.Warp = none ∧
      (Detect parse collab urlStr).result.RegistryInfo = none ∧
      (Detect parse collab urlStr).result.Brand = none) ∧
    (identifierOf parse urlStr = none →
      (Detect parse collab urlStr).result.Match = false ∧
      (Detect parse collab urlStr).err = none ∧
      (Detect parse collab urlStr).calls = []) := by
  obtain ⟨h1, h2, h3⟩ := Detect_invariants parse collab urlStr
  refine ⟨h1, h2, ?_, ?_⟩
  · intro hm
    rw [h3 hm]
    simp [noMatch]
  · intro hid
    rw [Detect_eq, hid]
    simp [noMatch]

/-- Witness of C18 at the input `a:b`, from which no identifier is read. -/
theorem detect_result_invariants_witness :
    identifierOf url.Parse "a:b" = none ∧
    (Detect url.Parse
      { CreateFromTransactionHash := fun _ _ => (none, none),
        GetInfoByHash := fun _ => (none, none),
        GetInfoByAlias := fun _ => (none, none) } "a:b").calls = [] :=
  ⟨by decide,
   ((detect_result_invariants url.Parse
      { CreateFromTransactionHash := fun _ _ => (none, none),
        GetInfoByHash := fun _ => (none, none),
        GetInfoByAlias := fun _ => (none, none) } "a:b").2.2.2 (by decide)).2.2⟩

/-! ## Detection in HTML (`WarpLink.DetectFromHTML`) -/

theorem filterWarpLinks_eq (parse : String → Except String URL) (l : List String) :
    filterWarpLinks parse l = l.filter (IsValid parse) := by
  induction l with
  | nil => rfl
  | cons x rest ih =>
    by_cases h : IsValid parse x = true
    · simp [filterWarpLinks, h, ih]
    · simp [filterWarpLinks, h, ih]

theorem detectWarpLinks_eq (parse : String → Except String URL) (collab : Collaborators)
    (l : List String) :
    detectWarpLinks parse collab l = l.filterMap (htmlResultOf parse collab) := by
  induction l with
  | nil => rfl
  | cons x rest ih =>
    obtain ⟨hurl, hmatch, _⟩ := Detect_invariants parse collab x
    simp only [detectWarpLinks, List.filterMap_cons, htmlResultOf, ih]
    cases herr : (Detect parse collab x).err with
    | some e => simp
    | none =>
      cases hw : (Detect parse collab x).result.Warp with
      | none =>
        have hm : (Detect parse collab x).result.Match = false := by
          rw [← Bool.not_eq_true, hmatch, hw]; simp
        simp [hm]
      | some w =>
        have hm : (Detect parse collab x).result.Match = true := by
          rw [hmatch, hw]; simp
        simp [hm, hurl]

theorem char_eq_ofNat (c : Char) (n : Nat) (h : c.toNat = n) : c = Char.ofNat n := by
  rw [← h]
  exact (Char.ofNat_toNat c).symm

theorem urlBodyChar_iff (c : Char) : urlBodyChar c = true ↔ IsURLBodyChar c := by
  constructor
  · intro h
    simp only [urlBodyChar, Bool.not_eq_true', decide_eq_false_iff_not, List.mem_cons,
      List.mem_singleton, not_or] at h
    simp only [IsURLBodyChar]
    refine ⟨?_, ?_, ?_, ?_, ?_, ?_, ?_, ?_, ?_⟩ <;> (rintro rfl; revert h; decide)
  · intro h
    simp only [IsURLBodyChar] at h
    obtain ⟨h1, h2, h3, h4, h5, h6, h7, h8, h9⟩ := h
    simp only [urlBodyChar, Bool.not_eq_true', decide_eq_false_iff_not, List.mem_cons,
      List.mem_singleton, not_or, List.not_mem_nil, or_false]
    exact ⟨fun e => h2 (char_eq_ofNat c 9 e), fun e => h3 (char_eq_ofNat c 10 e),
      fun e => h4 (char_eq_ofNat c 12 e), fun e => h5 (char_eq_ofNat c 13 e),
      fun e => h1 (char_eq_ofNat c 32 e), fun e => h6 (char_eq_ofNat c 34 e),
      fun e => h7 (char_eq_ofNat c 39 e), fun e => h8 (char_eq_ofNat c 60 e),
      fun e => h9 (char_eq_ofNat c 62 e)⟩

theorem takeWhile_body (body rest : List Char) (hb : ∀ c ∈ body, IsURLBodyChar c)
    (hmax : ∀ c tail, rest = c :: tail → ¬ IsURLBodyChar c) :
    (body ++ rest).takeWhile urlBodyChar = body := by
  rw [List.takeWhile_append_of_pos (fun c hc => (urlBodyChar_iff c).2 (hb c hc))]
  cases rest with
  | nil => simp
  | cons c tail =>
    have hc : urlBodyChar c = false := by
      rw [← Bool.not_eq_true, urlBodyChar_iff]
      exact hmax c tail rfl
    simp [List.takeWhile_cons, hc]

theorem takeWhile_body_ne_nil (body rest : List Char) (hne : body ≠ [])
    (hb : ∀ c ∈ body, IsURLBodyChar c) : (body ++ rest).takeWhile urlBodyChar ≠ [] := by
  cases body with
  | nil => exact absurd rfl hne
  | cons c cs =>
    have hc : urlBodyChar c = true := (urlBodyChar_iff c).2 (hb c (List.mem_cons_self c cs))
    simp [List.takeWhile_cons, hc]

theorem not_https_of_http (t : List Char) :
    ("https://".data.isPrefixOf ("http://".data ++ t)) = false := by
  show List.isPrefixOf ['h', 't', 't', 'p', 's', ':', '/', '/']
    ('h' :: 't' :: 't' :: 'p' :: ':' :: '/' :: '/' :: t) = false
  simp [List.isPrefixOf]

theorem https_heads (t : List Char) : ("https://".data.isPrefixOf ("https://".data ++ t)) = true := by
  rw [List.isPrefixOf_iff_prefix]
  exact List.prefix_append _ _

theorem http_heads (t : List Char) : ("http://".data.isPrefixOf ("http://".data ++ t)) = true := by
  rw [List.isPrefixOf_iff_prefix]
  exact List.prefix_append _ _

theorem drop_https (t : List Char) : ("https://".data ++ t).drop 8 = t := rfl

theorem drop_http (t : List Char) : ("http://".data ++ t).drop 7 = t := rfl

/-- What `urlRegexMatchAt` returns matches the pattern, heads the text, and is not
continued by a character of the class. -/
theorem urlRegexMatchAt_sound (l m : List Char) (h : urlRegexMatchAt l = some m) :
    IsURLPatternMatch (String.mk m) ∧
    ∃ rest, l = m ++ rest ∧ ∀ c tail, rest = c :: tail → ¬ IsURLBodyChar c := by
  have hmaxrest : ∀ t : List Char, ∀ c tail, t.dropWhile urlBodyChar = c :: tail →
      ¬ IsURLBodyChar c := by
    intro t c tail hd hc
    have hh : (t.dropWhile urlBodyChar).head? = some c := by rw [hd]; rfl
    have := List.head?_dropWhile_not urlBodyChar t
    rw [hh] at this
    simp only [Option.all_some, Bool.not_eq_true'] at this
    rw [(urlBodyChar_iff c).2 hc] at this
    exact Bool.noConfusion this
  unfold urlRegexMatchAt at h
  split_ifs at h with h1 h2
  · simp only [Option.some.injEq] at h
    subst h
    obtain ⟨hp, hne⟩ := h1
    rw [List.isPrefixOf_iff_prefix] at hp
    obtain ⟨t, ht⟩ := hp
    have hd : l.drop 8 = t := by rw [← ht]; rfl
    rw [hd] at hne ⊢
    refine ⟨⟨_, hne, fun c hc => (urlBodyChar_iff c).1 (List.mem_takeWhile_imp hc), Or.inr rfl⟩,
      t.dropWhile urlBodyChar, ?_, hmaxrest t⟩
    rw [← ht, List.append_assoc, List.takeWhile_append_dropWhile]
  · simp only [Option.some.injEq] at h
    subst h
    obtain ⟨hp, hne⟩ := h2
    rw [List.isPrefixOf_iff_prefix] at hp
    obtain ⟨t, ht⟩ := hp
    have hd : l.drop 7 = t := by rw [← ht]; rfl
    rw [hd] at hne ⊢
    refine ⟨⟨_, hne, fun c hc => (urlBodyChar_iff c).1 (List.mem_takeWhile_imp hc), Or.inl rfl⟩,
      t.dropWhile urlBodyChar, ?_, hmaxrest t⟩
    rw [← ht, List.append_assoc, List.takeWhile_append_dropWhile]

/-- Where a match of the pattern heads the text and is not continued by a character of
the class, `urlRegexMatchAt` returns it. -/
theorem urlRegexMatchAt_complete (m rest : List Char) (hm : IsURLPatternMatch (String.mk m))
    (hmax : ∀ c tail, rest = c :: tail → ¬ IsURLBodyChar c) :
    urlRegexMatchAt (m ++ rest) = some m := by
  obtain ⟨body, hne, hb, hshape⟩ := hm
  have htw := takeWhile_body body rest hb hmax
  rcases hshape with h | h
  · have hmd : m = "http://".data ++ body := h
    subst hmd
    have hnot := not_https_of_http (body ++ rest)
    unfold urlRegexMatchAt
    rw [List.append_assoc, if_neg (by rw [hnot]; simp), if_pos, drop_http, htw]
    rw [http_heads, drop_http, htw]
    exact ⟨rfl, hne⟩
  · have hmd : m = "https://".data ++ body := h
    subst hmd
    unfold urlRegexMatchAt
    rw [List.append_assoc, if_pos, drop_https, htw]
    rw [https_heads, drop_https, htw]
    exact ⟨rfl, hne⟩

/-- Where some match of the pattern heads the text, `urlRegexMatchAt` finds a match. -/
theorem urlRegexMatchAt_of_start (l : List Char) (h : MatchStartsAt l) :
    ∃ m, urlRegexMatchAt l = some m := by
  obtain ⟨m, ⟨body, hne, hb, hshape⟩, t, ht⟩ := h
  have hnn := takeWhile_body_ne_nil body t hne hb
  rcases hshape with h | h
  · have hmd : m = "http://".data ++ body := h
    subst hmd
    subst ht
    have hnot := not_https_of_http (body ++ t)
    refine ⟨"http://".data ++ (body ++ t).takeWhile urlBodyChar, ?_⟩
    unfold urlRegexMatchAt
    rw [List.append_assoc, if_neg (by rw [hnot]; simp), if_pos, drop_http]
    rw [http_heads, drop_http]
    exact ⟨rfl, hnn⟩
  · have hmd : m = "https://".data ++ body := h
    subst hmd
    subst ht
    refine ⟨"https://".data ++ (body ++ t).takeWhile urlBodyChar, ?_⟩
    unfold urlRegexMatchAt
    rw [List.append_assoc, if_pos, drop_https]
    rw [https_heads, drop_https]
    exact ⟨rfl, hnn⟩

theorem urlRegexMatchAt_none (l : List Char) (h : ¬ MatchStartsAt l) :
    urlRegexMatchAt l = none := by
  cases hm : urlRegexMatchAt l with
  | none => rfl
  | some m =>
    obtain ⟨h1, rest, h2, _⟩ := urlRegexMatchAt_sound l m hm
    exact absurd ⟨m, h1, rest, h2.symm⟩ h

theorem urlRegexFindAllFrom_sound (l : List Char) :
    ∀ (skip : Nat) (m : String), m ∈ urlRegexFindAllFrom skip l →
      IsURLPatternMatch m ∧ m.data <:+: l := by
  induction l with
  | nil => intro skip m h; simp [urlRegexFindAllFrom] at h
  | cons c rest ih =>
    intro skip m h
    cases skip with
    | succ k =>
      simp only [urlRegexFindAllFrom] at h
      obtain ⟨h1, h2⟩ := ih k m h
      exact ⟨h1, h2.trans (List.suffix_cons c rest).isInfix⟩
    | zero =>
      simp only [urlRegexFindAllFrom] at h
      cases hm : urlRegexMatchAt (c :: rest) with
      | none =>
        rw [hm] at h
        obtain ⟨h1, h2⟩ := ih 0 m h
        exact ⟨h1, h2.trans (List.suffix_cons c rest).isInfix⟩
      | some found =>
        rw [hm] at h
        simp only [List.mem_cons] at h
        rcases h with h | h
        · subst h
          obtain ⟨h1, t, h2, _⟩ := urlRegexMatchAt_sound _ _ hm
          exact ⟨h1, (show found <+: c :: rest from ⟨t, h2.symm⟩).isInfix⟩
        · obtain ⟨h1, h2⟩ := ih _ m h
          exact ⟨h1, h2.trans (List.suffix_cons c rest).isInfix⟩

theorem patternMatch_ne_nil (m : List Char) (hm : IsURLPatternMatch (String.mk m)) : m ≠ [] := by
  obtain ⟨body, _, _, hshape⟩ := hm
  rcases hshape with h | h
  · have hmd : m = "http://".data ++ body := h
    subst hmd
    exact fun e => List.noConfusion e
  · have hmd : m = "https://".data ++ body := h
    subst hmd
    exact fun e => List.noConfusion e

theorem not_matchStartsAt_nil : ¬ MatchStartsAt [] := by
  rintro ⟨m, hm, hp⟩
  exact patternMatch_ne_nil m hm (List.prefix_nil.1 hp)

/-- Skipping the characters of a match resumes the scan right behind it. -/
theorem scan_skip (a rest : List Char) :
    urlRegexFindAllFrom a.length (a ++ rest) = urlRegexFindAllFrom 0 rest := by
  induction a with
  | nil => rfl
  | cons c a ih =>
    show urlRegexFindAllFrom (a.length + 1) (c :: (a ++ rest)) = _
    rw [urlRegexFindAllFrom]
    exact ih

/-- The scan steps over a character at which no match starts. -/
theorem scan_step_none (c : Char) (l : List Char) (h : ¬ MatchStartsAt (c :: l)) :
    urlRegexFindAllFrom 0 (c :: l) = urlRegexFindAllFrom 0 l := by
  rw [urlRegexFindAllFrom, urlRegexMatchAt_none (c :: l) h]

/-- The scan takes the match that heads the text and resumes behind it. -/
theorem scan_step_some (l m rest : List Char) (hm : urlRegexMatchAt l = some m)
    (hl : l = m ++ rest) :
    urlRegexFindAllFrom 0 l = String.mk m :: urlRegexFindAllFrom 0 rest := by
  have hne : m ≠ [] := patternMatch_ne_nil m (urlRegexMatchAt_sound l m hm).1
  cases m with
  | nil => exact absurd rfl hne
  | cons c m' =>
    subst hl
    show urlRegexFindAllFrom 0 (c :: (m' ++ rest)) = _
    rw [urlRegexFindAllFrom]
    have hm2 : urlRegexMatchAt (c :: (m' ++ rest)) = some (c :: m') := hm
    rw [hm2]
    show String.mk (c :: m') :: urlRegexFindAllFrom m'.length (m' ++ rest) = _
    rw [scan_skip]

theorem scan_gap (gap tail : List Char)
    (hgap : ∀ a b, gap = a ++ b → b ≠ [] → ¬ MatchStartsAt (b ++ tail)) :
    urlRegexFindAllFrom 0 (gap ++ tail) = urlRegexFindAllFrom 0 tail := by
  induction gap with
  | nil => rfl
  | cons c g ih =>
    have h0 : ¬ MatchStartsAt (c :: (g ++ tail)) :=
      hgap [] (c :: g) rfl (fun e => List.noConfusion e)
    show urlRegexFindAllFrom 0 (c :: (g ++ tail)) = _
    rw [scan_step_none c (g ++ tail) h0]
    exact ih (fun a b hab hb => hgap (c :: a) b (by rw [hab]; rfl) hb)

theorem scan_none (l : List Char) (hnone : ∀ t, t <:+ l → ¬ MatchStartsAt t) :
    urlRegexFindAllFrom 0 l = [] := by
  induction l with
  | nil => rfl
  | cons c l ih =>
    rw [scan_step_none c l (hnone (c :: l) (List.suffix_refl _))]
    exact ih (fun t ht => hnone t (ht.trans (List.suffix_cons c l)))

/-- A list of matches that meets the description of the search is the list the scan
returns. -/
theorem isFindAll_unique (l : List Char) (ms : List String) (h : IsFindAll l ms) :
    ms = urlRegexFindAllFrom 0 l := by
  induction h with
  | done l hnone => exact (scan_none l hnone).symm
  | found gap m rest ms hgap hm hmax _ ih =>
    rw [scan_gap gap (m ++ rest) hgap,
      scan_step_some (m ++ rest) m rest (urlRegexMatchAt_complete m rest hm hmax) rfl, ih]

theorem isFindAll_cons_gap (c : Char) (l : List Char) (ms : List String)
    (hc : ¬ MatchStartsAt (c :: l)) (h : IsFindAll l ms) : IsFindAll (c :: l) ms := by
  cases h with
  | done _ hnone =>
    refine IsFindAll.done _ (fun t ht => ?_)
    rcases List.suffix_cons_iff.1 ht with h1 | h1
    · rw [h1]; exact hc
    · exact hnone t h1
  | found gap m rest ms' hgap hm hmax hrest =>
    refine IsFindAll.found (c :: gap) m rest ms' (fun a b hab hb => ?_) hm hmax hrest
    cases a with
    | nil =>
      have hb2 : b = c :: gap := hab.symm
      rw [hb2]
      exact hc
    | cons x a' =>
      have hg : gap = a' ++ b := (List.cons.inj hab).2
      exact hgap a' b hg hb

/-- The list the scan returns meets the description of the search. -/
theorem isFindAll_scan : ∀ (n : Nat) (l : List Char), l.length ≤ n →
    IsFindAll l (urlRegexFindAllFrom 0 l) := by
  intro n
  induction n with
  | zero =>
    intro l hl
    have hnil : l = [] := List.length_eq_zero.1 (Nat.le_zero.1 hl)
    subst hnil
    exact IsFindAll.done [] (fun t ht => by
      rw [List.suffix_nil.1 ht]
      exact not_matchStartsAt_nil)
  | succ n ih =>
    intro l hl
    cases l with
    | nil =>
      exact IsFindAll.done [] (fun t ht => by
        rw [List.suffix_nil.1 ht]
        exact not_matchStartsAt_nil)
    | cons c l' =>
      cases hm : urlRegexMatchAt (c :: l') with
      | none =>
        have hno : ¬ MatchStartsAt (c :: l') := by
          intro hs
          obtain ⟨m, hm2⟩ := urlRegexMatchAt_of_start (c :: l') hs
          rw [hm] at hm2
          exact Option.noConfusion hm2
        rw [scan_step_none c l' hno]
        exact isFindAll_cons_gap c l' _ hno (ih l' (Nat.le_of_succ_le_succ hl))
      | some m =>
        obtain ⟨hpm, rest, hl2, hmax⟩ := urlRegexMatchAt_sound (c :: l') m hm
        rw [scan_step_some (c :: l') m rest hm hl2, hl2]
        have hne : m ≠ [] := patternMatch_ne_nil m hpm
        have hlen : rest.length ≤ n := by
          have h1 : (c :: l').length = m.length + rest.length := by
            rw [hl2, List.length_append]
          have h2 : 0 < m.length := List.length_pos.2 hne
          simp only [List.length_cons] at hl h1
          omega
        have := IsFindAll.found [] m rest _ (fun a b hab hb => by
          have : b = [] := (List.append_eq_nil.1 hab.symm).2
          exact absurd this hb) hpm hmax (ih rest hlen)
        exact this

/-- The search for the URL pattern: a list of matches meets the description of the
search exactly when it is the list `urlRegexFindAllString` returns. -/
theorem urlRegexFindAllString_spec (content : String) (ms : List String) :
    IsFindAll content.data ms ↔ ms = urlRegexFindAllString content := by
  constructor
  · exact isFindAll_unique content.data ms
  · intro h
    rw [h]
    exact isFindAll_scan content.data.length content.data (Nat.le_refl _)

theorem utf8ByteSize_eq_zero (s : String) : s.utf8ByteSize = 0 ↔ s = "" := by
  constructor
  · intro h
    by_contra hne
    have hd : s.data ≠ [] := fun hd => hne (String.ext hd)
    have := utf8ByteSize_go_pos s.data hd
    have hs : s.utf8ByteSize = String.utf8ByteSize.go s.data := rfl
    omega
  · rintro rfl; rfl

/-- The three exits of `DetectFromHTML` return the same pair. -/
theorem DetectFromHTML_eq (parse : String → Except String URL) (collab : Collaborators)
    (content : String) :
    DetectFromHTML parse collab content =
      ({ Match := decide
           ((detectWarpLinks parse collab
              (filterWarpLinks parse (urlRegexFindAllString content))).length > 0),
         Results := detectWarpLinks parse collab
           (filterWarpLinks parse (urlRegexFindAllString content)) }, none) := by
  by_cases h1 : content.utf8ByteSize = 0
  · rw [(utf8ByteSize_eq_zero content).1 h1]; rfl
  · by_cases h2 : (filterWarpLinks parse (urlRegexFindAllString content)).length = 0
    · have h3 := List.length_eq_zero.1 h2
      simp only [DetectFromHTML, h1, h2, if_true, if_false, h3]
      rfl
    · simp only [DetectFromHTML, h1, h2, if_false]

/-- C19: `DetectFromHTML` returns a nil error and, in the order of the matches of the
URL pattern in the content, one result (URL, warp) for each match that passes `IsValid`
and whose detection returns no error and a warp, the other matches being passed over;
the matches are those of a search for all matches of the pattern, from left to right:
each starts at the first position behind the match before it at which a match starts,
is of the shape of the pattern and as long as the characters of the class go on, and
no other list of strings is such a list of matches; every match is a part of the
content; `Match` is true exactly when the results are not empty; and the empty content
gives `Match = false` with no result. -/
theorem detectFromHTML_results (parse : String → Except String URL) (collab : Collaborators)
    (content : String) :
    (DetectFromHTML parse collab content).2 = none ∧
    (DetectFromHTML parse collab content).1.Results =
      ((urlRegexFindAllString content).filter (IsValid parse)).filterMap
        (htmlResultOf parse collab) ∧
    ((DetectFromHTML parse collab content).1.Match = true ↔
      (DetectFromHTML parse collab content).1.Results ≠ []) ∧
    (∀ m ∈ urlRegexFindAllString content, IsURLPatternMatch m ∧ m.data <:+: content.data) ∧
    DetectFromHTML parse collab "" = ({ Match := false, Results := [] }, none) ∧
    (∀ ms, IsFindAll content.data ms ↔ ms = urlRegexFindAllString content) ∧
    (∀ ms, IsFindAll content.data ms →
      (DetectFromHTML parse collab content).1.Results =
        (ms.filter (IsValid parse)).filterMap (htmlResultOf parse collab)) := by
  refine ⟨?_, ?_, ?_, fun m hm => urlRegexFindAllFrom_sound _ 0 m hm, by rfl,
    urlRegexFindAllString_spec content, fun ms hms => ?_⟩
  · rw [DetectFromHTML_eq]
  · rw [DetectFromHTML_eq, filterWarpLinks_eq, detectWarpLinks_eq]
  · rw [DetectFromHTML_eq]
    simp [List.length_pos]
  · rw [(urlRegexFindAllString_spec content ms).1 hms, DetectFromHTML_eq, filterWarpLinks_eq,
      detectWarpLinks_eq]

/-- Witness of C19 at a page with two warp links around one other link: the three URLs
are the matches of the pattern, and the two warp links give two results in the order of
the page; and at a page with an `http://` link between double quotes: the link, without
the quotes, is the one match. -/
theorem detectFromHTML_results_witness :
    urlRegexFindAllString examplePage =
      ["https://usewarp.to/first-warp", "https://example.org/logo.png",
       "https://testnet.usewarp.to/to?warp=alias%3Asecond-warp"] ∧
    IsFindAll examplePage.data
      ["https://usewarp.to/first-warp", "https://example.org/logo.png",
       "https://testnet.usewarp.to/to?warp=alias%3Asecond-warp"] ∧
    (DetectFromHTML url.Parse exampleCollaborators examplePage).1.Results =
      [{ URL := "https://usewarp.to/first-warp",
         Warp := { Protocol := "warp-0.0.2", Name := "hash-of-first-warp", Title := "t",
                   Actions := [] } },
       { URL := "https://testnet.usewarp.to/to?warp=alias%3Asecond-warp",
         Warp := { Protocol := "warp-0.0.2", Name := "hash-of-second-warp", Title := "t",
                   Actions := [] } }] ∧
    (DetectFromHTML url.Parse exampleCollaborators examplePage).1.Match = true ∧
    IsFindAll quotedPage.data ["http://usewarp.to/first-warp"] ∧
    urlRegexFindAllString quotedPage = ["http://usewarp.to/first-warp"] := by
  have h := detectFromHTML_results url.Parse exampleCollaborators examplePage
  have hq := detectFromHTML_results url.Parse exampleCollaborators quotedPage
  have hr : ((urlRegexFindAllString examplePage).filter (IsValid url.Parse)).filterMap
      (htmlResultOf url.Parse exampleCollaborators) =
      [{ URL := "https://usewarp.to/first-warp",
         Warp := { Protocol := "warp-0.0.2", Name := "hash-of-first-warp", Title := "t",
                   Actions := [] } },
       { URL := "https://testnet.usewarp.to/to?warp=alias%3Asecond-warp",
         Warp := { Protocol := "warp-0.0.2", Name := "hash-of-second-warp", Title := "t",
                   Actions := [] } }] := by
    decide
  refine ⟨by decide, (h.2.2.2.2.2.1 _).2 (by decide), h.2.1.trans hr, ?_,
    (hq.2.2.2.2.2.1 _).2 (by decide), by decide⟩
  rw [h.2.2.1, h.2.1, hr]
  simp

/-! ## The cache (`WarpCache`) -/

theorem wrapInt64_of_range (x : Int) (h1 : -9223372036854775808 ≤ x)
    (h2 : x ≤ 9223372036854775807) : wrapInt64 x = x := by
  unfold wrapInt64
  omega

/-- A `Set` with a time to live of 1 to 9223372036 seconds, followed by a `Get` of the
key at the same instant, returns the value and leaves the cache as `Set` made it. -/
theorem set_get_same_instant_in_range {α : Type} (c : WarpCache α) (k : CacheKey)
    (v : Option α) (ttlSeconds now : Int) (h1 : 0 < ttlSeconds)
    (h2 : ttlSeconds ≤ 9223372036) :
    (c.Set k v ttlSeconds now).Get k now = (v, c.Set k v ttlSeconds now) := by
  have hw1 : wrapInt64 ttlSeconds = ttlSeconds := wrapInt64_of_range _ (by omega) (by omega)
  have hw2 : wrapInt64 (ttlSeconds * Second) = ttlSeconds * Second := by
    apply wrapInt64_of_range <;> simp only [Second] <;> omega
  have hpos : ¬ now > now + ttlSeconds * Second := by
    simp only [Second]; omega
  simp [WarpCache.Get, WarpCache.Set, hw1, hw2, hpos]

/-- C20: the round trip fails for a large time to live.  In every cache state, for every
key, value and instant, `Set(k, v, 9223372037)` followed by `Get(k)` at the same instant
returns nil and not the value: the duration `9223372037 * time.Second` wraps around to
a negative count of nanoseconds, so the entry is stored as already expired. -/
theorem set_get_same_instant_overflow {α : Type} (c : WarpCache α) (k : CacheKey) (v : α)
    (now : Int) :
    (0 : Int) < 9223372037 ∧
    wrapInt64 (wrapInt64 9223372037 * Second) = -9223372036709551616 ∧
    ((c.Set k (some v) 9223372037 now).Get k now).1 = none ∧
    ((c.Set k (some v) 9223372037 now).Get k now).1 ≠ some v := by
  have hw : wrapInt64 (wrapInt64 9223372037 * Second) = -9223372036709551616 := by
    decide
  have hexp : now > now + -9223372036709551616 := by omega
  have hget : ((c.Set k (some v) 9223372037 now).Get k now).1 = none := by
    simp [WarpCache.Get, WarpCache.Set, hw, hexp]
  refine ⟨by decide, hw, hget, ?_⟩
  rw [hget]
  simp

/-! ## Cache keys (`CacheKey`) -/

theorem append_left_cancel_string (p a b : String) (h : p ++ a = p ++ b) : a = b := by
  have hd := congrArg String.data h
  simp only [String.data_append] at hd
  exact String.ext (List.append_cancel_left hd)

theorem append_ne_of_head_ne (p q a b : String) (c d : Char) (pt qt : List Char)
    (hp : p.data = c :: pt) (hq : q.data = d :: qt) (hcd : c ≠ d) : p ++ a ≠ q ++ b := by
  intro h
  have hd := congrArg String.data h
  simp only [String.data_append, hp, hq, List.cons_append, List.cons.injEq] at hd
  exact hcd hd.1

/-- C23: the keys are `warp:`, `registry:` and `brand:` followed by the argument; keys of
different generators are different whatever the arguments, and each generator is
injective. -/
theorem cache_keys_never_collide (a b c : String) :
    CacheKey.Warp a = "warp:" ++ a ∧ CacheKey.RegistryInfo b = "registry:" ++ b ∧
    CacheKey.Brand c = "brand:" ++ c ∧
    CacheKey.Warp a ≠ CacheKey.RegistryInfo b ∧ CacheKey.Warp a ≠ CacheKey.Brand c ∧
    CacheKey.RegistryInfo b ≠ CacheKey.Brand c ∧
    (CacheKey.Warp a = CacheKey.Warp b → a = b) ∧
    (CacheKey.RegistryInfo a = CacheKey.RegistryInfo b → a = b) ∧
    (CacheKey.Brand a = CacheKey.Brand b → a = b) := by
  refine ⟨rfl, rfl, rfl, ?_, ?_, ?_, ?_, ?_, ?_⟩
  · exact append_ne_of_head_ne "warp:" "registry:" a b 'w' 'r' _ _ rfl rfl (by decide)
  · exact append_ne_of_head_ne "warp:" "brand:" a c 'w' 'b' _ _ rfl rfl (by decide)
  · exact append_ne_of_head_ne "registry:" "brand:" b c 'r' 'b' _ _ rfl rfl (by decide)
  · exact append_left_cancel_string _ a b
  · exact append_left_cancel_string _ a b
  · exact append_left_cancel_string _ a b

/-- Witness of C23 at keys made from one and the same argument. -/
theorem cache_keys_never_collide_witness :
    CacheKey.Warp "abc" ≠ CacheKey.RegistryInfo "abc" ∧
    CacheKey.Warp "abc" ≠ CacheKey.Brand "abc" ∧
    CacheKey.RegistryInfo "abc" ≠ CacheKey.Brand "abc" :=
  ⟨(cache_keys_never_collide "abc" "abc" "abc").2.2.2.1,
   (cache_keys_never_collide "abc" "abc" "abc").2.2.2.2.1,
   (cache_keys_never_collide "abc" "abc" "abc").2.2.2.2.2.1⟩

/-! ## Variable substitution (`PrepareVars`) -/

theorem substituteVars_keys (configVars vars : List (String × String)) :
    (substituteVars configVars vars).map Prod.fst = vars.map Prod.fst := by
  induction vars with
  | nil => rfl
  | cons kv rest ih =>
    obtain ⟨k, v⟩ := kv
    simp only [substituteVars]
    cases mapLookup configVars k <;> simp [ih]

theorem substituteVars_lookup (configVars vars : List (String × String)) (key : String) :
    mapLookup (substituteVars configVars vars) key =
      (mapLookup vars key).map fun v => (mapLookup configVars key).getD v := by
  induction vars with
  | nil => rfl
  | cons kv rest ih =>
    obtain ⟨k, v⟩ := kv
    simp only [substituteVars]
    by_cases hk : k = key
    · subst hk
      cases hc : mapLookup configVars k <;> simp [mapLookup, List.find?_cons]
    · have ih2 := ih
      simp only [mapLookup] at ih2
      cases hc : mapLookup configVars k <;>
        simp [mapLookup, List.find?_cons, hk, ih2]

/-- C25: for a warp with a `Vars` map and a configuration with a `Vars` map, `PrepareVars`
returns the warp with only `Vars` changed; the new map has the keys of the old one, and
a key has the configured value when the configuration has the key and its old value
otherwise.  When the `Vars` of the warp or of the configuration is nil the warp is
returned unchanged, and a nil warp gives nil. -/
theorem prepareVars_substitutes (w : Warp) (config : WarpConfig) :
    (∀ vars configVars, w.Vars = some vars → config.Vars = some configVars →
      ∃ newVars, (PrepareVars (some w) config).1 = some { w with Vars := some newVars } ∧
        newVars.map Prod.fst = vars.map Prod.fst ∧
        ∀ key, mapLookup newVars key =
          (mapLookup vars key).map fun v => (mapLookup configVars key).getD v) ∧
    (w.Vars = none ∨ config.Vars = none → (PrepareVars (some w) config).1 = some w) ∧
    (PrepareVars none config).1 = none := by
  refine ⟨?_, ?_, rfl⟩
  · intro vars configVars hv hc
    refine ⟨substituteVars configVars vars, ?_, substituteVars_keys _ _,
      substituteVars_lookup _ _⟩
    simp [PrepareVars, hv, hc]
  · intro h
    rcases h with h | h
    · simp [PrepareVars, h]
    · cases hv : w.Vars <;> simp [PrepareVars, h, hv]

/-- Witness of C25 at a warp with the variables `A` and `B` and a configuration with the
variables `B` and `C`. -/
theorem prepareVars_substitutes_witness :
    (PrepareVars
      (some { Protocol := "warp-0.0.2", Name := "n", Title := "t", Actions := [],
              Vars := some [("A", "1"), ("B", "2")] })
      { Env := "mainnet", Vars := some [("B", "x"), ("C", "y")] }).1 =
      some { Protocol := "warp-0.0.2", Name := "n", Title := "t", Actions := [],
             Vars := some [("A", "1"), ("B", "x")] } := by
  obtain ⟨newVars, h, _, _⟩ :=
    (prepareVars_substitutes
      { Protocol := "warp-0.0.2", Name := "n", Title := "t", Actions := [],
        Vars := some [("A", "1"), ("B", "2")] }
      { Env := "mainnet", Vars := some [("B", "x"), ("C", "y")] }).1
      [("A", "1"), ("B", "2")] [("B", "x"), ("C", "y")] rfl rfl
  decide

/-! ## Registration (`WarpRegistry.RegisterAlias`, `WarpRegistry.RegisterBrand`) -/

/-- C28: `RegisterAlias` fails exactly when the user address is empty; `RegisterBrand`
fails when the user address is empty whatever the brand holds, and with a user address
it fails exactly when the protocol, the name, the description or the logo of the brand
is empty, and returns a transaction reference otherwise. -/
theorem register_fails_iff (config : WarpConfig) (hash aliasName : String) (brand : Brand) :
    ((∃ e, WarpRegistry.RegisterAlias config hash aliasName = .error e) ↔
      config.UserAddress = "") ∧
    (config.UserAddress = "" → ∃ e, WarpRegistry.RegisterBrand config brand = .error e) ∧
    (config.UserAddress ≠ "" →
      ((∃ e, WarpRegistry.RegisterBrand config brand = .error e) ↔
        brand.Protocol = "" ∨ brand.Name = "" ∨ brand.Description = "" ∨ brand.Logo = "")) ∧
    (config.UserAddress ≠ "" → brand.Protocol ≠ "" → brand.Name ≠ "" →
      brand.Description ≠ "" → brand.Logo ≠ "" →
      WarpRegistry.RegisterBrand config brand = .ok "tx-hash-for-register-brand") := by
  refine ⟨?_, ?_, ?_, ?_⟩
  · by_cases h : config.UserAddress = "" <;> simp [WarpRegistry.RegisterAlias, h]
  · intro h
    exact ⟨"WarpRegistry: user address not set", by simp [WarpRegistry.RegisterBrand, h]⟩
  · intro h
    by_cases h1 : brand.Protocol = ""
    · simp [WarpRegistry.RegisterBrand, h, h1]
    by_cases h2 : brand.Name = ""
    · simp [WarpRegistry.RegisterBrand, h, h1, h2]
    by_cases h3 : brand.Description = ""
    · simp [WarpRegistry.RegisterBrand, h, h1, h2, h3]
    by_cases h4 : brand.Logo = ""
    · simp [WarpRegistry.RegisterBrand, h, h1, h2, h3, h4]
    · simp [WarpRegistry.RegisterBrand, h, h1, h2, h3, h4]
  · intro h h1 h2 h3 h4
    simp [WarpRegistry.RegisterBrand, h, h1, h2, h3, h4]

/-- Witness of C28 at a configuration with a user address and a brand without logo. -/
theorem register_fails_iff_witness :
    ∃ e, WarpRegistry.RegisterBrand { Env := "mainnet", UserAddress := "erd1user" }
      { Protocol := "brand-0.0.2", Name := "n", Description := "d", Logo := "" } = .error e :=
  ((register_fails_iff { Env := "mainnet", UserAddress := "erd1user" } "h" "a"
      { Protocol := "brand-0.0.2", Name := "n", Description := "d", Logo := "" }).2.2.1
    (by decide)).2 (Or.inr (Or.inr (Or.inr rfl)))

/-! ## Preview text (`ToPreviewText`) -/

/-- C30: a text of at most `maxChars` bytes is returned unchanged, and the empty text
gives the empty string for every `maxChars`; so for `("", 10)`, `("Hello", 10)` and
`("Hello World", 11)`. -/
theorem toPreviewText_short_unchanged :
    (∀ (text : String) (maxChars : Int), (text.utf8ByteSize : Int) ≤ maxChars →
      ToPreviewText text maxChars = some text) ∧
    (∀ maxChars : Int, ToPreviewText "" maxChars = some "") ∧
    ToPreviewText "" 10 = some "" ∧ ToPreviewText "Hello" 10 = some "Hello" ∧
    ToPreviewText "Hello World" 11 = some "Hello World" := by
  refine ⟨?_, fun _ => rfl, by decide, by decide, by decide⟩
  intro text maxChars h
  by_cases ht : text = ""
  · simp [ToPreviewText, ht]
  · simp [ToPreviewText, ht, h]

/-- Witness of C30 at the text `Hello` and the bound 10. -/
theorem toPreviewText_short_unchanged_witness :
    (("Hello" : String).utf8ByteSize : Int) ≤ 10 ∧ ToPreviewText "Hello" 10 = some "Hello" :=
  ⟨by decide, toPreviewText_short_unchanged.1 "Hello" 10 (by decide)⟩

/-! ## Expiry of cache entries -/

theorem duration_in_range (ttlSeconds : Int) (h1 : -9223372036 ≤ ttlSeconds)
    (h2 : ttlSeconds ≤ 9223372036) :
    wrapInt64 (wrapInt64 ttlSeconds * Second) = ttlSeconds * Second := by
  have hw1 : wrapInt64 ttlSeconds = ttlSeconds := wrapInt64_of_range _ (by omega) (by omega)
  rw [hw1]
  apply wrapInt64_of_range <;> simp only [Second] <;> omega

theorem get_absent {α : Type} (c : WarpCache α) (k : CacheKey) (now : Int)
    (h : c.items k = none) : c.Get k now = (none, c) := by
  simp [WarpCache.Get, h]

theorem gets_absent {α : Type} (c : WarpCache α) (k : CacheKey) (times : List Int)
    (h : c.items k = none) :
    c.Gets k times = (times.map fun _ => none, c) := by
  induction times with
  | nil => rfl
  | cons t rest ih => simp [WarpCache.Gets, get_absent c k t h, ih]

theorem get_live {α : Type} (c : WarpCache α) (k : CacheKey) (v : Option α)
    (ttlSeconds t0 t : Int) (h1 : -9223372036 ≤ ttlSeconds) (h2 : ttlSeconds ≤ 9223372036)
    (ht : t ≤ t0 + ttlSeconds * Second) :
    (c.Set k v ttlSeconds t0).Get k t = (v, c.Set k v ttlSeconds t0) := by
  have hn : ¬ t > t0 + ttlSeconds * Second := by omega
  simp [WarpCache.Get, WarpCache.Set, duration_in_range ttlSeconds h1 h2, hn]

theorem get_expired {α : Type} (c : WarpCache α) (k : CacheKey) (v : Option α)
    (ttlSeconds t0 t : Int) (h1 : -9223372036 ≤ ttlSeconds) (h2 : ttlSeconds ≤ 9223372036)
    (ht : t > t0 + ttlSeconds * Second) :
    (c.Set k v ttlSeconds t0).Get k t = (none, (c.Set k v ttlSeconds t0).deleteItem k) := by
  simp [WarpCache.Get, WarpCache.Set, duration_in_range ttlSeconds h1 h2, ht]

theorem gets_expired {α : Type} (c : WarpCache α) (k : CacheKey) (v : Option α)
    (ttlSeconds t0 t : Int) (later : List Int) (h1 : -9223372036 ≤ ttlSeconds)
    (h2 : ttlSeconds ≤ 9223372036) (ht : t > t0 + ttlSeconds * Second) :
    (c.Set k v ttlSeconds t0).Gets k (t :: later) =
      ((t :: later).map fun _ => none, (c.Set k v ttlSeconds t0).deleteItem k) := by
  have hd : ((c.Set k v ttlSeconds t0).deleteItem k).items k = none := by
    simp [WarpCache.deleteItem]
  simp [WarpCache.Gets, get_expired c k v ttlSeconds t0 t h1 h2 ht, gets_absent _ k later hd]

/-- Expiry for a time to live of 1 to 9223372036 seconds: a `Get` up to and including the
instant `t0 + ttlSeconds` seconds returns the value and leaves the cache unchanged; a `Get`
strictly later returns nil and removes the entry, and so do all later `Get` calls. -/
theorem expiry_in_range {α : Type} (c : WarpCache α) (k : CacheKey) (v : Option α)
    (ttlSeconds t0 t : Int) (later : List Int) (h1 : 0 < ttlSeconds)
    (h2 : ttlSeconds ≤ 9223372036) :
    (t ≤ t0 + ttlSeconds * Second →
      (c.Set k v ttlSeconds t0).Get k t = (v, c.Set k v ttlSeconds t0)) ∧
    (t > t0 + ttlSeconds * Second →
      (c.Set k v ttlSeconds t0).Gets k (t :: later) =
        ((t :: later).map fun _ => none, (c.Set k v ttlSeconds t0).deleteItem k) ∧
      ((c.Set k v ttlSeconds t0).deleteItem k).items k = none) :=
  ⟨get_live c k v ttlSeconds t0 t (by omega) h2, fun ht =>
    ⟨gets_expired c k v ttlSeconds t0 t later (by omega) h2 ht, by simp [WarpCache.deleteItem]⟩⟩

/-- C21: the expiry rule fails for a large time to live.  In every cache state, for every
key, value and instant `t0`, after `Set(k, v, 9223372037)` at `t0` a `Get(k)` at any instant
from `t0` on, so also long before `t0 + 9223372037` seconds, returns nil and removes the
entry: the duration wraps around to a negative count of nanoseconds. -/
theorem expiry_fails_for_large_ttl {α : Type} (c : WarpCache α) (k : CacheKey) (v : α)
    (t0 t : Int) :
    (0 : Int) < 9223372037 ∧
    (t0 ≤ t → t ≤ t0 + 9223372037 * Second →
      ((c.Set k (some v) 9223372037 t0).Get k t).1 = none ∧
      ((c.Set k (some v) 9223372037 t0).Get k t).1 ≠ some v ∧
      ((c.Set k (some v) 9223372037 t0).Get k t).2.items k = none) := by
  refine ⟨by decide, fun h0 _ => ?_⟩
  have hw : wrapInt64 (wrapInt64 9223372037 * Second) = -9223372036709551616 := by
    decide
  have hexp : t > t0 + -9223372036709551616 := by omega
  have hget : (c.Set k (some v) 9223372037 t0).Get k t =
      (none, (c.Set k (some v) 9223372037 t0).deleteItem k) := by
    simp [WarpCache.Get, WarpCache.Set, hw, hexp]
  rw [hget]
  simp [WarpCache.deleteItem]

/-- Witness of C21: the empty cache, the key `k`, the value 7, a `Set` at the instant 1000
and a `Get` one nanosecond later. -/
theorem expiry_fails_for_large_ttl_witness :
    (((NewWarpCache : WarpCache Nat).Set "k" (some 7) 9223372037 1000).Get "k" 1001).1
      = none :=
  ((expiry_fails_for_large_ttl (NewWarpCache : WarpCache Nat) "k" 7 1000 1001).2
    (by decide) (by decide)).1

/-- C22, counterexample: an entry stored with a time to live of 0 seconds is returned by
a `Get` at the instant of the `Set`, since an entry expires only strictly after its
expiration instant. -/
theorem zero_ttl_read_at_same_instant :
    (0 : Int) ≤ 0 ∧
    (((NewWarpCache : WarpCache Nat).Set "k" (some 7) 0 1000).Get "k" 1000).1 = some 7 := by
  refine ⟨le_refl _, ?_⟩
  simp [WarpCache.Get, WarpCache.Set, wrapInt64, Second]

/-- C22, amended: for a time to live from -9223372036 to 0 seconds, every run of `Get`
calls that starts strictly after the instant of the `Set` returns nil throughout and
removes the entry; for a negative time to live so does a run that starts at the instant
of the `Set`; for the time to live 0 a `Get` at the instant of the `Set` returns the
value and leaves the cache unchanged. -/
theorem nonpositive_ttl_expires_after_set {α : Type} (c : WarpCache α) (k : CacheKey)
    (v : Option α) (ttlSeconds t0 t : Int) (later : List Int)
    (h1 : -9223372036 ≤ ttlSeconds) (h2 : ttlSeconds ≤ 0) :
    (t0 < t ∨ (t0 = t ∧ ttlSeconds < 0) →
      (c.Set k v ttlSeconds t0).Gets k (t :: later) =
        ((t :: later).map fun _ => none, (c.Set k v ttlSeconds t0).deleteItem k)) ∧
    (ttlSeconds = 0 → (c.Set k v ttlSeconds t0).Get k t0 = (v, c.Set k v ttlSeconds t0)) := by
  constructor
  · intro h
    apply gets_expired c k v ttlSeconds t0 t later h1 (by omega)
    simp only [Second]
    omega
  · intro h
    apply get_live c k v ttlSeconds t0 t0 h1 (by omega)
    simp only [Second]
    omega

/-- Witness of C22 (amended): a time to live of -5 seconds and `Get` calls at the instant
of the `Set` and later. -/
theorem nonpositive_ttl_expires_after_set_witness :
    (((NewWarpCache : WarpCache Nat).Set "k" (some 7) (-5) 1000).Gets "k" [1000, 1000, 2000]).1
      = [none, none, none] := by
  have h := (nonpositive_ttl_expires_after_set (NewWarpCache : WarpCache Nat) "k" (some 7)
    (-5) 1000 1000 [1000, 2000] (by decide) (by decide)).1 (Or.inr ⟨rfl, by decide⟩)
  rw [h]
  rfl

/-! ## Encoding and decoding a warp -/

theorem decodeMembers_error_at {α : Type} (step : α → String × JSON → Except String α)
    (m : String × JSON) (hm : ∀ s, ∃ e, step s m = .error e)
    (pre post : List (String × JSON)) (start : α) :
    ∃ e, decodeMembers step start (pre ++ m :: post) = .error e := by
  induction pre generalizing start with
  | nil =>
    obtain ⟨e, he⟩ := hm start
    exact ⟨e, by simp [decodeMembers, he]⟩
  | cons p rest ih =>
    cases hs : step start p with
    | error e => exact ⟨e, by simp [decodeMembers, hs]⟩
    | ok next =>
      obtain ⟨e, he⟩ := ih next
      exact ⟨e, by simp [decodeMembers, hs, he]⟩

theorem marshalAction_kind (a : WarpAction) : ∃ members, marshalAction a = .obj members := by
  cases a <;> exact ⟨_, rfl⟩

theorem decodeActionItems_error (actions : List (Option WarpAction))
    (h : ∃ a, some a ∈ actions) :
    ∃ e, decodeActionItems (actions.map marshalActionValue) = .error e := by
  induction actions with
  | nil => simp at h
  | cons x rest ih =>
    cases x with
    | some a =>
      obtain ⟨members, hm⟩ := marshalAction_kind a
      exact ⟨_, by simp [decodeActionItems, marshalActionValue, hm]; rfl⟩
    | none =>
      have h2 : ∃ a, some a ∈ rest := by
        obtain ⟨a, ha⟩ := h
        simp at ha
        exact ⟨a, ha⟩
      obtain ⟨e, he⟩ := ih h2
      exact ⟨e, by simp [decodeActionItems, marshalActionValue, he]⟩

theorem decodeWarpMember_actions (w : Warp) (v : JSON) :
    decodeWarpMember w ("actions", v) =
      (decodeActions v).map fun actions => { w with Actions := actions } := by
  have h1 : keyIs "actions" "protocol" = false := by decide
  have h2 : keyIs "actions" "name" = false := by decide
  have h3 : keyIs "actions" "title" = false := by decide
  have h4 : keyIs "actions" "description" = false := by decide
  have h5 : keyIs "actions" "bot" = false := by decide
  have h6 : keyIs "actions" "preview" = false := by decide
  have h7 : keyIs "actions" "vars" = false := by decide
  have h8 : keyIs "actions" "actions" = true := by decide
  simp [decodeWarpMember, h1, h2, h3, h4, h5, h6, h7, h8]

/-- The decoder rejects the JSON value of every warp that has a non-nil action: the
value of the action is an object, which cannot be stored in the interface type. -/
theorem decodeWarp_marshalWarp_error (w : Warp) (h : ∃ a, some a ∈ w.Actions) :
    ∃ e, decodeWarp (marshalWarp w) = .error e := by
  have hne : w.Actions ≠ [] := by
    obtain ⟨a, ha⟩ := h
    intro hnil
    rw [hnil] at ha
    simp at ha
  obtain ⟨e, he⟩ := decodeActionItems_error w.Actions h
  have hstep : ∀ s : Warp, ∃ e, decodeWarpMember s
      ("actions", .arr (w.Actions.map marshalActionValue)) = .error e := by
    intro s
    refine ⟨e, ?_⟩
    rw [decodeWarpMember_actions]
    simp [decodeActions, he, Except.map]
  simp only [marshalWarp, if_neg hne, decodeWarp, List.append_assoc, List.singleton_append]
  have hsplit := decodeMembers_error_at decodeWarpMember _ hstep
    ([("protocol", JSON.str w.Protocol), ("name", JSON.str w.Name), ("title", JSON.str w.Title),
        ("description", marshalStringPtr w.Description)] ++
      (omitEmptyString "bot" w.Bot ++
        (omitEmptyString "preview" w.Preview ++
          (match w.Vars with
            | none => []
            | some entries => omitEmpty "vars" entries.length (marshalMap (some entries))))))
    (omitEmptyString "next" w.Next ++
      match w.Meta with
      | none => []
      | some m => [("meta", marshalMeta m)]) zeroWarp
  simpa only [List.append_assoc] using hsplit

theorem validateActions_all_some (urlParse : String → Except String Unit) (i : Nat)
    (actions : List (Option WarpAction)) (h : validateActions urlParse i actions = .ok ())
    (x : Option WarpAction) (hx : x ∈ actions) : ∃ a, x = some a := by
  induction actions generalizing i with
  | nil => simp at hx
  | cons y rest ih =>
    cases hy : validateAction urlParse y with
    | error e => simp [validateActions, hy] at h
    | ok u =>
      simp only [validateActions, hy] at h
      rcases List.mem_cons.mp hx with hxy | hxr
      · subst hxy
        cases x with
        | none => simp [validateAction] at hy
        | some a => exact ⟨a, rfl⟩
      · exact ih (i + 1) h hxr

theorem validate_ok_has_action (urlParse : String → Except String Unit) (w : Warp)
    (h : Validate urlParse (some w) = .ok ()) : ∃ a, some a ∈ w.Actions := by
  simp only [Validate] at h
  split_ifs at h with h1 h2 h3 h4
  cases hA : w.Actions with
  | nil => simp [hA] at h4
  | cons x rest =>
    obtain ⟨a, ha⟩ := validateActions_all_some urlParse 0 w.Actions h x (by simp [hA])
    exact ⟨a, by simp [ha]⟩

/-- Whenever the decoder reads the payload of a warp accepted by `Validate` back as the
JSON value that was written, `CreateFromRaw` fails on the payload. -/
theorem createFromRaw_of_inscription_fails (rt : Runtime) (b : WarpBuilder) (w : Warp)
    (validate : Bool) (hv : Validate rt.urlParse (some w) = .ok ())
    (hp : jsonParse (json.MarshalWarp (some w)) = .ok (marshalWarp w)) :
    ∃ e, b.CreateFromRaw rt (json.MarshalWarp (some w)) validate = (none, some e) := by
  obtain ⟨e, he⟩ := decodeWarp_marshalWarp_error w (validate_ok_has_action rt.urlParse w hv)
  exact ⟨e, by simp [WarpBuilder.CreateFromRaw, json.UnmarshalWarp, hp, he]⟩

set_option maxRecDepth 100000 in
/-- The decoder reads the payload of `linkWarp` back as the JSON value that was written,
so `CreateFromRaw` fails on it with and without validation. -/
theorem createFromRaw_of_link_payload_fails (b : WarpBuilder) (validate : Bool) :
    ∃ e, b.CreateFromRaw plainRuntime (json.MarshalWarp (some linkWarp)) validate
      = (none, some e) :=
  createFromRaw_of_inscription_fails plainRuntime b linkWarp validate (by decide) rfl

set_option maxRecDepth 100000 in
/-- C26: the round trip fails.  The warp `linkWarp`, with a single valid link action, is
accepted by `Validate`; with a user address set and no configuration variables
`CreateInscriptionTransaction` returns its JSON text as the payload; on that payload
`CreateFromRaw` with `validate = true` returns no warp and the error of
`json.Unmarshal`, whatever the runtime: the element of `actions` is an object, which
the decoder cannot store in the interface type `WarpAction`. -/
theorem round_trip_fails_on_link_warp (rt : Runtime) :
    Validate urlParses (some linkWarp) = .ok () ∧
    (NewWarpBuilder { Env := Mainnet, UserAddress := "erd1user" }).CreateInscriptionTransaction
      (some linkWarp) = (json.MarshalWarp (some linkWarp), none) ∧
    (NewWarpBuilder { Env := Mainnet, UserAddress := "erd1user" }).CreateFromRaw rt
      ((NewWarpBuilder { Env := Mainnet, UserAddress := "erd1user" }).CreateInscriptionTransaction
        (some linkWarp)).1 true =
      (none, some ("json: cannot unmarshal object into Go struct field Warp.actions of type "
        ++ "types.WarpAction")) ∧
    (NewWarpBuilder { Env := Mainnet, UserAddress := "erd1user" }).CreateFromRaw rt
      ((NewWarpBuilder { Env := Mainnet, UserAddress := "erd1user" }).CreateInscriptionTransaction
        (some linkWarp)).1 true ≠ (some linkWarp, none) := by
  have hU : json.UnmarshalWarp (json.MarshalWarp (some linkWarp)) =
      .error ("json: cannot unmarshal object into Go struct field Warp.actions of type "
        ++ "types.WarpAction") := by
    decide
  have hI : (NewWarpBuilder { Env := Mainnet, UserAddress := "erd1user" }).CreateInscriptionTransaction
      (some linkWarp) = (json.MarshalWarp (some linkWarp), none) := by
    decide
  refine ⟨by decide, hI, ?_, ?_⟩
  · rw [hI]
    simp [WarpBuilder.CreateFromRaw, hU]
  · rw [hI]
    simp [WarpBuilder.CreateFromRaw, hU]

/-! ## `CreateFromTransaction` -/

theorem createFromRaw_shape (rt : Runtime) (b : WarpBuilder) (encoded : String)
    (validate : Bool) :
    (∃ w, b.CreateFromRaw rt encoded validate = (some w, none)) ∨
    (∃ e, b.CreateFromRaw rt encoded validate = (none, some e)) := by
  unfold WarpBuilder.CreateFromRaw
  cases hU : json.UnmarshalWarp encoded with
  | error e => exact Or.inr ⟨e, rfl⟩
  | ok warp =>
    have hP : ∃ w, (PrepareVars (some warp) b.config).1 = some w := by
      cases h1 : warp.Vars <;> cases h2 : b.config.Vars <;> simp [PrepareVars, h1, h2]
    obtain ⟨w, hw⟩ := hP
    cases validate with
    | false => exact Or.inl ⟨w, by simp [hw]⟩
    | true =>
      cases hV : Validate rt.urlParse (some warp) with
      | error e => exact Or.inr ⟨e, by simp [hV]⟩
      | ok u => exact Or.inl ⟨w, by simp [hV, hw]⟩

/-- C27: `CreateFromRaw` returns either a warp and no error or no warp and an error.  In
the second case `CreateFromTransaction` returns no warp and the same error; in the first
it returns that warp with `Meta` set to the hash `txHash`, the creator `sender` and, as
`CreatedAt`, the RFC 3339 rendering in the local time zone of the instant `timestamp`
seconds after the Unix epoch, every other field being as `CreateFromRaw` produced it. -/
theorem createFromTransaction_attaches_meta (rt : Runtime) (b : WarpBuilder)
    (txData sender : String) (timestamp : Int) (txHash : String) (validate : Bool) :
    ((∃ w, b.CreateFromRaw rt txData validate = (some w, none)) ∨
      (∃ e, b.CreateFromRaw rt txData validate = (none, some e))) ∧
    (∀ e, b.CreateFromRaw rt txData validate = (none, some e) →
      b.CreateFromTransaction rt txData sender timestamp txHash validate = (none, some e)) ∧
    (∀ w, b.CreateFromRaw rt txData validate = (some w, none) →
      ∃ createdAt, RendersInstant createdAt timestamp (rt.localOffset timestamp) ∧
        b.CreateFromTransaction rt txData sender timestamp txHash validate =
          (some { w with
                  Meta := some { Hash := txHash, Creator := sender, CreatedAt := createdAt } },
           none)) := by
  refine ⟨createFromRaw_shape rt b txData validate, ?_, ?_⟩
  · intro e h
    simp [WarpBuilder.CreateFromTransaction, h]
  · intro w h
    exact ⟨_, rfl, by simp [WarpBuilder.CreateFromTransaction, h, FormatTimeISO8601, time.Unix]⟩

set_option maxRecDepth 100000 in
/-- Witness of C27: the payload of `plainWarp`, decoded without validation, for the
sender `erd1sender`, the timestamp 1700000000 and the hash `abc`, in the time zone UTC. -/
theorem createFromTransaction_attaches_meta_witness :
    (NewWarpBuilder { Env := Mainnet }).CreateFromTransaction plainRuntime
      (json.MarshalWarp (some plainWarp)) "erd1sender" 1700000000 "abc" false =
      (some { plainWarp with
              Meta := some { Hash := "abc", Creator := "erd1sender",
                             CreatedAt := "2023-11-14T22:13:20Z" } }, none) := by
  have hraw : (NewWarpBuilder { Env := Mainnet }).CreateFromRaw plainRuntime
      (json.MarshalWarp (some plainWarp)) false = (some plainWarp, none) := by
    decide
  obtain ⟨createdAt, hc, h⟩ :=
    (createFromTransaction_attaches_meta plainRuntime (NewWarpBuilder { Env := Mainnet })
      (json.MarshalWarp (some plainWarp)) "erd1sender" 1700000000 "abc" false).2.2
      plainWarp hraw
  have ht : createdAt = "2023-11-14T22:13:20Z" := by
    rw [hc]
    decide
  rw [h, ht]

/-! ## The address requested by `CreateFromTransactionHash` -/

theorem append_ne_of_data (p q a b : String) (pre pt qt : List Char) (c d : Char)
    (hp : p.data = pre ++ c :: pt) (hq : q.data = pre ++ d :: qt) (hcd : c ≠ d) :
    p ++ a ≠ q ++ b := by
  intro h
  have hd := congrArg String.data h
  simp only [String.data_append, hp, hq, List.append_assoc, List.cons_append] at hd
  have h2 := List.append_cancel_left hd
  simp only [List.cons.injEq] at h2
  exact hcd h2.1

theorem lookup_new_builder (config : WarpConfig) (hash : String)
    (cacheConfig : Option WarpCacheConfig) (now : Int) :
    (NewWarpBuilder config).lookup hash cacheConfig now = (none, NewWarpCache) := by
  cases cacheConfig <;> simp [WarpBuilder.lookup, NewWarpBuilder, WarpCache.Get, NewWarpCache]

theorem requests_of_miss (rt : Runtime) (b : WarpBuilder) (hash : String)
    (cacheConfig : Option WarpCacheConfig) (tGet tSet : Int)
    (h : (b.lookup hash cacheConfig tGet).1 = none) :
    (b.CreateFromTransactionHash rt hash cacheConfig tGet tSet).requests
      = [b.transactionURL hash] := by
  unfold WarpBuilder.CreateFromTransactionHash
  rw [h]
  rcases hf : b.fetchWarp rt hash with ⟨warp, err⟩
  cases err <;> simp

/-- C29: the environment does not select the chain API of `CreateFromTransactionHash`.
For a configuration of the testnet or the devnet without `ChainAPIURL`, a new builder
requests the hash from `https://api.multiversx.com`, the default of the mainnet, and not
from `DefaultChainAPIURL(env)`, which the registry resolvers use for their requests. -/
theorem unset_chain_url_requests_mainnet (rt : Runtime) (config : WarpConfig) (hash : String)
    (cacheConfig : Option WarpCacheConfig) (tGet tSet : Int)
    (hurl : config.ChainAPIURL = "") (henv : config.Env = Testnet ∨ config.Env = Devnet) :
    ((NewWarpBuilder config).CreateFromTransactionHash rt hash cacheConfig tGet tSet).requests
      = ["https://api.multiversx.com/transactions/" ++ hash] ∧
    ((NewWarpBuilder config).CreateFromTransactionHash rt hash cacheConfig tGet tSet).requests
      ≠ [DefaultChainAPIURL config.Env ++ "/transactions/" ++ hash] ∧
    "https://api.multiversx.com" = DefaultChainAPIURL Mainnet ∧
    WarpRegistry.apiURL config = DefaultChainAPIURL config.Env ++ "/vm-values/query" := by
  have hreq := requests_of_miss rt (NewWarpBuilder config) hash cacheConfig tGet tSet
    (by rw [lookup_new_builder])
  have hu : (NewWarpBuilder config).transactionURL hash =
      "https://api.multiversx.com/transactions/" ++ hash := by
    simp [WarpBuilder.transactionURL, NewWarpBuilder, hurl, String.append_assoc]
  rw [hreq, hu]
  refine ⟨rfl, ?_, by decide, by simp [WarpRegistry.apiURL, hurl]⟩
  intro h
  have h2 := List.head_eq_of_cons_eq h
  rcases henv with he | he
  · rw [he] at h2
    exact append_ne_of_data "https://api.multiversx.com/transactions/"
      "https://testnet-api.multiversx.com/transactions/" hash hash "https://".data _ _ 'a' 't'
      rfl rfl (by decide) (by simpa [DefaultChainAPIURL, Testnet, String.append_assoc] using h2)
  · rw [he] at h2
    exact append_ne_of_data "https://api.multiversx.com/transactions/"
      "https://devnet-api.multiversx.com/transactions/" hash hash "https://".data _ _ 'a' 'd'
      rfl rfl (by decide) (by simpa [DefaultChainAPIURL, Devnet, String.append_assoc] using h2)

/-- Witness of C29: the testnet, the hash `abc`, no cache configuration. -/
theorem unset_chain_url_requests_mainnet_witness :
    ((NewWarpBuilder { Env := Testnet }).CreateFromTransactionHash plainRuntime "abc" none
      1000 2000).requests = ["https://api.multiversx.com/transactions/abc"] ∧
    DefaultChainAPIURL Testnet ++ "/transactions/" ++ "abc" =
      "https://testnet-api.multiversx.com/transactions/abc" :=
  ⟨(unset_chain_url_requests_mainnet plainRuntime { Env := Testnet } "abc" none 1000 2000 rfl
      (Or.inl rfl)).1, by decide⟩

/-! ## The cache of `CreateFromTransactionHash` -/

theorem first_call_stores (rt : Runtime) (b : WarpBuilder) (hash : String) (w : Warp)
    (cc : WarpCacheConfig) (tGet tSet : Int) (hpos : cc.TTL > 0)
    (hfirst : (b.CreateFromTransactionHash rt hash (some cc) tGet tSet).result = (some w, none))
    (hreq : (b.CreateFromTransactionHash rt hash (some cc) tGet tSet).requests ≠ []) :
    (b.CreateFromTransactionHash rt hash (some cc) tGet tSet).builder =
      { b with
        cache := (b.lookup hash (some cc) tGet).2.Set (CacheKey.Warp hash) (some w) cc.TTL
          tSet } := by
  unfold WarpBuilder.CreateFromTransactionHash at hfirst hreq ⊢
  cases hl : (b.lookup hash (some cc) tGet).1 with
  | some cached => simp [hl] at hreq
  | none =>
    rcases hf : b.fetchWarp rt hash with ⟨warp, err⟩
    cases err with
    | some e => simp [hl, hf] at hfirst
    | none =>
      simp only [hl, hf] at hfirst ⊢
      have hw : warp = some w := by simpa using hfirst
      simp [hw, WarpBuilder.store, hpos]

/-- For a time to live of 1 to 9223372036 seconds, after a first call that asked the
chain API and returned a warp, a second call for the hash up to the expiry returns the
warp from the cache, asks nothing and leaves the builder as it is. -/
theorem second_call_hits_cache (rt : Runtime) (b : WarpBuilder) (hash : String) (w : Warp)
    (cc : WarpCacheConfig) (tGet tSet t2 t3 : Int) (h1 : 0 < cc.TTL)
    (h2 : cc.TTL ≤ 9223372036)
    (hfirst : (b.CreateFromTransactionHash rt hash (some cc) tGet tSet).result = (some w, none))
    (hreq : (b.CreateFromTransactionHash rt hash (some cc) tGet tSet).requests ≠ [])
    (ht : t2 ≤ tSet + cc.TTL * Second) :
    ((b.CreateFromTransactionHash rt hash (some cc) tGet tSet).builder.CreateFromTransactionHash
      rt hash (some cc) t2 t3).result = (some w, none) ∧
    ((b.CreateFromTransactionHash rt hash (some cc) tGet tSet).builder.CreateFromTransactionHash
      rt hash (some cc) t2 t3).requests = [] ∧
    ((b.CreateFromTransactionHash rt hash (some cc) tGet tSet).builder.CreateFromTransactionHash
      rt hash (some cc) t2 t3).builder =
      (b.CreateFromTransactionHash rt hash (some cc) tGet tSet).builder := by
  rw [first_call_stores rt b hash w cc tGet tSet h1 hfirst hreq]
  have hget := get_live (b.lookup hash (some cc) tGet).2 (CacheKey.Warp hash) (some w) cc.TTL
    tSet t2 (by omega) h2 ht
  simp only [WarpBuilder.lookup] at hget
  simp [WarpBuilder.CreateFromTransactionHash, WarpBuilder.lookup, hget]

/-- C24: a second call asks the chain API again when the time to live is large.  With
the time to live 9223372037, after a first call that asked the chain API and returned
a warp, a second call for the same hash on the same builder at any instant from the
`Set` of the first call on, so also long before the time to live has passed, requests
the transaction once more: the entry was stored as already expired. -/
theorem second_call_requests_again (rt : Runtime) (b : WarpBuilder) (hash : String) (w : Warp)
    (tGet tSet t2 t3 : Int)
    (hfirst : (b.CreateFromTransactionHash rt hash (some { TTL := 9223372037 }) tGet tSet).result
      = (some w, none))
    (hreq : (b.CreateFromTransactionHash rt hash (some { TTL := 9223372037 }) tGet tSet).requests
      ≠ [])
    (ht : tSet ≤ t2) :
    ((b.CreateFromTransactionHash rt hash (some { TTL := 9223372037 }) tGet
        tSet).builder.CreateFromTransactionHash rt hash (some { TTL := 9223372037 }) t2
        t3).requests = [b.transactionURL hash] ∧
    ((b.CreateFromTransactionHash rt hash (some { TTL := 9223372037 }) tGet
        tSet).builder.CreateFromTransactionHash rt hash (some { TTL := 9223372037 }) t2
        t3).requests ≠ [] := by
  have hstore := first_call_stores rt b hash w { TTL := 9223372037 } tGet tSet (by decide)
    hfirst hreq
  have hw : wrapInt64 (wrapInt64 9223372037 * Second) = -9223372036709551616 := by
    decide
  have hexp : t2 > tSet + -9223372036709551616 := by omega
  have hmiss : ((b.CreateFromTransactionHash rt hash (some { TTL := 9223372037 }) tGet
      tSet).builder.lookup hash (some { TTL := 9223372037 }) t2).1 = none := by
    rw [hstore]
    simp [WarpBuilder.lookup, WarpCache.Get, WarpCache.Set, hw, hexp]
  have hr := requests_of_miss rt _ hash (some { TTL := 9223372037 }) t2 t3 hmiss
  have hu : (b.CreateFromTransactionHash rt hash (some { TTL := 9223372037 }) tGet
      tSet).builder.transactionURL hash = b.transactionURL hash := by
    rw [hstore]
    rfl
  rw [hr, hu]
  exact ⟨rfl, by simp⟩

set_option maxRecDepth 100000 in
/-- Witness of C24: a new builder for the mainnet, the hash `abc` and a chain API that
answers with the payload of `plainWarp`; the first call at the instants 1000 and 2000,
the second one nanosecond after the `Set`. -/
theorem second_call_requests_again_witness :
    (((NewWarpBuilder { Env := Mainnet }).CreateFromTransactionHash plainRuntime "abc"
        (some { TTL := 9223372037 }) 1000 2000).builder.CreateFromTransactionHash plainRuntime
        "abc" (some { TTL := 9223372037 }) 2001 2002).requests =
      ["https://api.multiversx.com/transactions/abc"] := by
  have hfirst : ((NewWarpBuilder { Env := Mainnet }).CreateFromTransactionHash plainRuntime "abc"
      (some { TTL := 9223372037 }) 1000 2000).result =
      (some { plainWarp with
              Meta := some { Hash := "abc", Creator := "erd1sender",
                             CreatedAt := "2023-11-14T22:13:20Z" } }, none) := by
    decide
  have hreq : ((NewWarpBuilder { Env := Mainnet }).CreateFromTransactionHash plainRuntime "abc"
      (some { TTL := 9223372037 }) 1000 2000).requests ≠ [] := by
    decide
  exact (second_call_requests_again plainRuntime (NewWarpBuilder { Env := Mainnet }) "abc" _
    1000 2000 2001 2002 hfirst hreq (by decide)).1

/-! ## Preview text: the cut (`ToPreviewText`, `GetDescriptionPreview`) -/

/-- C31: the test case `Long` fails on the code.  For the text
`Hello World, this is a long text` and the bound 15 the code keeps the first 12 bytes,
which end in the comma, and returns `Hello World,...`, not `Hello World...`. -/
theorem toPreviewText_long_keeps_comma :
    ToPreviewText "Hello World, this is a long text" 15 = some "Hello World,..." ∧
    ToPreviewText "Hello World, this is a long text" 15 ≠ some "Hello World..." := by
  constructor <;> decide

/-- C32: the call fails for a bound below 3.  For every text longer than `maxChars` bytes
with `0 ≤ maxChars < 3` the slice `text[:maxChars-3]` has a negative bound, so
`ToPreviewText` panics and returns no string, and so does
`WarpBuilder.GetDescriptionPreview`. -/
theorem toPreviewText_fails_below_three (b : WarpBuilder) (text : String) (maxChars : Int)
    (h0 : 0 ≤ maxChars) (h3 : maxChars < 3) (hlen : maxChars < (text.utf8ByteSize : Int)) :
    ToPreviewText text maxChars = none ∧ b.GetDescriptionPreview text maxChars = none := by
  have hne : text ≠ "" := by
    intro h
    rw [h] at hlen
    have : (("" : String).utf8ByteSize : Int) = 0 := by decide
    omega
  have h1 : ¬ (text.utf8ByteSize : Int) ≤ maxChars := by omega
  have h2 : maxChars - 3 < 0 := by omega
  simp [WarpBuilder.GetDescriptionPreview, ToPreviewText, hne, h1, h2]

/-- Witness of C32: the text `Hello` and the bound 2. -/
theorem toPreviewText_fails_below_three_witness :
    ToPreviewText "Hello" 2 = none ∧
    (NewWarpBuilder { Env := Mainnet }).GetDescriptionPreview "Hello" 2 = none :=
  toPreviewText_fails_below_three (NewWarpBuilder { Env := Mainnet }) "Hello" 2 (by decide)
    (by decide) (by decide)

/-! ## Chain identifier and protocol identifier -/

/-- C33: `GetChainID` returns `1` for the mainnet, `T` for the testnet, `D` for the
devnet and `1` for every other environment. -/
theorem getChainID_table (env : ChainEnv) :
    GetChainID Mainnet = "1" ∧ GetChainID Testnet = "T" ∧ GetChainID Devnet = "D" ∧
    (env ≠ Mainnet → env ≠ Testnet → env ≠ Devnet → GetChainID env = "1") ∧
    GetChainID "unknown" = "1" := by
  refine ⟨by decide, by decide, by decide, ?_, by decide⟩
  intro h1 h2 h3
  simp [GetChainID, h1, h2, h3]

/-- Witness of C33 at the environment `staging`. -/
theorem getChainID_table_witness : GetChainID "staging" = "1" :=
  (getChainID_table "staging").2.2.2.1 (by decide) (by decide) (by decide)

/-- C34: `GetLatestProtocolIdentifier(p)` is `p` followed by `-0.0.2`, so `warp-0.0.2`,
`brand-0.0.2` and `abi-0.0.2` for the three protocol names; and every warp that `Build`
returns on a builder made by `NewWarpBuilder` and configured by setter calls has the
protocol `warp-0.0.2`. -/
theorem latest_protocol_identifier (p : ProtocolName)
    (urlParse : String → Except String Unit) (config : WarpConfig)
    (calls : List SetterCall) (w : Warp) :
    GetLatestProtocolIdentifier p = p ++ "-0.0.2" ∧
    GetLatestProtocolIdentifier WarpProtocol = "warp-0.0.2" ∧
    GetLatestProtocolIdentifier BrandProtocol = "brand-0.0.2" ∧
    GetLatestProtocolIdentifier AbiProtocol = "abi-0.0.2" ∧
    (NewWarpBuilder config).pendingWarp.Protocol = "warp-0.0.2" ∧
    (((NewWarpBuilder config).configure calls).Build urlParse = .ok w →
      w.Protocol = "warp-0.0.2") := by
  refine ⟨rfl, by decide, by decide, by decide, rfl, ?_⟩
  intro h
  have hp := configure_pendingWarp config calls
  unfold WarpBuilder.Build at h
  split_ifs at h
  cases hv : Validate urlParse (some ((NewWarpBuilder config).configure calls).pendingWarp) with
  | error e => simp [hv] at h
  | ok u =>
    simp only [hv] at h
    have hw : w = ((NewWarpBuilder config).configure calls).pendingWarp := by
      cases h
      rfl
    rw [hw, hp]

/-- Witness of C34: a builder with a name, a title and one link action. -/
theorem latest_protocol_identifier_witness :
    ∃ w, ((NewWarpBuilder { Env := Mainnet }).configure
        [.SetName "demo", .SetTitle "Demo",
         .AddAction (some (.link { Type_ := "link", Label := "Open",
                                   URL := "https://example.com" }))]).Build urlParses = .ok w ∧
      w.Protocol = "warp-0.0.2" := by
  have hb : ((NewWarpBuilder { Env := Mainnet }).configure
      [.SetName "demo", .SetTitle "Demo",
       .AddAction (some (.link { Type_ := "link", Label := "Open",
                                 URL := "https://example.com" }))]).Build urlParses
      = .ok linkWarp := by
    decide
  exact ⟨linkWarp, hb, (latest_protocol_identifier WarpProtocol urlParses { Env := Mainnet } _
    linkWarp).2.2.2.2.2 hb⟩

/-! ## The background sweep (`WarpCache.cleanup`) -/

/-- A pass of `cleanup` whose clock reading at the entry of `k` is not after `t1` changes
no later `Get(k)`: the value returned at `t1` is the same, and the cache after the `Get`
is the one without the pass, swept by the same pass. -/
theorem cleanupPass_get {α : Type} (c : WarpCache α) (clock : CacheKey → Int) (k : CacheKey)
    (t1 : Int) (h : clock k ≤ t1) :
    ((c.cleanupPass clock).Get k t1).1 = (c.Get k t1).1 ∧
    ((c.cleanupPass clock).Get k t1).2 = (c.Get k t1).2.cleanupPass clock := by
  cases hk : c.items k with
  | none =>
    simp [WarpCache.Get, WarpCache.cleanupPass, hk]
  | some item =>
    by_cases h1 : clock k > item.expiration
    · have h2 : t1 > item.expiration := by omega
      constructor
      · simp [WarpCache.Get, WarpCache.cleanupPass, hk, h1, h2]
      · simp only [WarpCache.Get, WarpCache.cleanupPass, hk, h1, h2, if_true,
          WarpCache.deleteItem]
        congr 1
        funext key
        by_cases hkey : key = k
        · subst hkey; simp [hk, h1]
        · simp [hkey]
    · by_cases h2 : t1 > item.expiration
      · constructor
        · simp [WarpCache.Get, WarpCache.cleanupPass, hk, h1, h2]
        · simp only [WarpCache.Get, WarpCache.cleanupPass, hk, h1, h2, if_true, if_false,
            WarpCache.deleteItem]
          congr 1
          funext key
          by_cases hkey : key = k
          · subst hkey; simp
          · simp [hkey]
      · simp [WarpCache.Get, WarpCache.cleanupPass, hk, h1, h2]

/-- C36: a sweep at the instant `t` removes exactly the entries whose expiration is
strictly before `t` and leaves every other entry, and every key without entry, as it
is; and for `t ≤ t1` the `Get(k)` at `t1` returns the same value whether or not the
sweep ran at `t`. -/
theorem sweep_not_needed {α : Type} (c : WarpCache α) (k : CacheKey) (t t1 : Int) :
    (∀ item, c.items k = some item → item.expiration < t → (c.sweep t).items k = none) ∧
    (∀ item, c.items k = some item → ¬ item.expiration < t →
      (c.sweep t).items k = some item) ∧
    (c.items k = none → (c.sweep t).items k = none) ∧
    (t ≤ t1 → ((c.sweep t).Get k t1).1 = (c.Get k t1).1) := by
  refine ⟨?_, ?_, ?_, ?_⟩
  · intro item hk hlt
    simp [WarpCache.sweep, WarpCache.cleanupPass, hk, hlt]
  · intro item hk hlt
    simp [WarpCache.sweep, WarpCache.cleanupPass, hk, hlt]
  · intro hk
    simp [WarpCache.sweep, WarpCache.cleanupPass, hk]
  · intro h
    exact (cleanupPass_get c (fun _ => t) k t1 h).1

/-- Witness of C36: an entry set at the instant 0 for 10 seconds, a sweep at 20 seconds
and a `Get` at 30 seconds, and the same with a `Get` at 5 seconds after a sweep at 1
second. -/
theorem sweep_not_needed_witness :
    ((((NewWarpCache : WarpCache Nat).Set "k" (some 7) 10 0).sweep 20000000000).Get "k"
        30000000000).1 = none ∧
    ((((NewWarpCache : WarpCache Nat).Set "k" (some 7) 10 0).sweep 1000000000).Get "k"
        5000000000).1 = some 7 := by
  have h1 := (sweep_not_needed ((NewWarpCache : WarpCache Nat).Set "k" (some 7) 10 0) "k"
    20000000000 30000000000).2.2.2 (by decide)
  have h2 := (sweep_not_needed ((NewWarpCache : WarpCache Nat).Set "k" (some 7) 10 0) "k"
    1000000000 5000000000).2.2.2 (by decide)
  rw [h1, h2]
  constructor <;> simp [WarpCache.Get, WarpCache.Set, NewWarpCache, wrapInt64, Second]

/-! ## Actions whose variant differs from their declared type -/

/-- C37: for an action whose declared type is one of the five known types, whose label
is not empty and whose concrete variant is another one, `validateAction` returns
success whatever the other fields and the inputs hold; so `Validate` accepts a warp with
protocol, name and title whose only action is such a value. -/
theorem validateAction_skips_other_variant (urlParse : String → Except String Unit)
    (action : WarpAction) (hknown : IsKnownActionType action.GetType)
    (hlabel : action.GetLabel ≠ "") (hvar : action.variantType ≠ action.GetType) :
    validateAction urlParse (some action) = .ok () ∧
    ∀ w : Warp, w.Protocol ≠ "" → w.Name ≠ "" → w.Title ≠ "" → w.Actions = [some action] →
      Validate urlParse (some w) = .ok () := by
  have hne : action.GetType ≠ "" := by
    rcases hknown with h | h | h | h | h <;> rw [h] <;> decide
  have hva : validateAction urlParse (some action) = .ok () := by
    rcases hknown with h | h | h | h | h <;>
      cases action <;>
        simp_all [validateAction, WarpAction.GetType, WarpAction.GetLabel,
          WarpAction.variantType, TransferActionType, ContractActionType, QueryActionType,
          CollectActionType, LinkActionType]
  refine ⟨hva, ?_⟩
  intro w hp hn ht ha
  simp [Validate, hp, hn, ht, ha, validateActions, hva]

/-- Witness of C37: a link value with the declared type `contract`, a label and an empty
URL. -/
theorem validateAction_skips_other_variant_witness :
    validateAction urlParses
      (some (.link { Type_ := "contract", Label := "Open", URL := "" })) = .ok () ∧
    Validate urlParses
      (some { Protocol := "warp-0.0.2", Name := "demo", Title := "Demo",
              Actions := [some (.link { Type_ := "contract", Label := "Open", URL := "" })] })
      = .ok () :=
  ⟨(validateAction_skips_other_variant urlParses
      (.link { Type_ := "contract", Label := "Open", URL := "" })
      (Or.inr (Or.inl rfl)) (by decide) (by decide)).1,
   (validateAction_skips_other_variant urlParses
      (.link { Type_ := "contract", Label := "Open", URL := "" })
      (Or.inr (Or.inl rfl)) (by decide) (by decide)).2 _ (by decide) (by decide) (by decide)
      rfl⟩

/-! ## Super-client status -/

theorem isSuperClient_prefixes (s : String) :
    isSuperClient s = true ↔
      (HasPrefix s "https://warp.to" = true ∨ HasPrefix s "https://usewarp.to" = true) := by
  simp [isSuperClient, SuperClientURLs]

theorem extract_eq_classifyToken (parse : String → Except String URL) (urlStr : String)
    (u : URL) (hparse : parse urlStr = .ok u)
    (hpath : u.Path = "" ∨ HasPrefix u.Path "/" = true) :
    extractIdentifierInfoFromURL parse urlStr =
      classifyToken
        (if isSuperClient (u.Scheme ++ "://" ++ u.Host) = true ∧ firstPathSegment u.Path ≠ ""
          then firstPathSegment u.Path
          else QueryGet u.RawQuery "warp") := by
  have hv := path_value_eq u.Path hpath
  have hname : IdentifierParamName = "warp" := rfl
  simp only [extractIdentifierInfoFromURL, hparse, classifyToken, hname]
  by_cases hs : isSuperClient (u.Scheme ++ "://" ++ u.Host) = true
  · simp only [hs, true_and, hv]
    by_cases hseg : firstPathSegment u.Path = ""
    · simp [hseg]
    · simp [hseg]
  · simp [hs]

/-- C38: super-client status is a prefix test.  `isSuperClient` holds exactly of the
texts that begin with `https://warp.to` or `https://usewarp.to`; `Build` applies it to
the client URL and writes the token after `/` when it holds and after `?warp=` when it
does not; `extractIdentifierInfoFromURL` applies it to scheme, `://` and host and
reads the first path segment when it holds and the segment is not empty, and the query
parameter otherwise.  So the host `usewarp.to.evil.example` is a super client, and
`http://usewarp.to` and the default client URLs of the testnet and the devnet are not:
`Build` gives them query-style URLs. -/
theorem super_client_by_prefix :
    (∀ s, isSuperClient s = true ↔
      (HasPrefix s "https://warp.to" = true ∨ HasPrefix s "https://usewarp.to" = true)) ∧
    (∀ (config : WarpConfig) (idType : WarpIDType) (id : String),
      WarpLink.Build config idType id =
        clientBaseURL config
          ++ (if isSuperClient (clientBaseURL config) = true then "/" else "?warp=")
          ++ QueryEscape (if idType = AliasIDType then id else idType ++ ":" ++ id)) ∧
    (∀ (parse : String → Except String URL) (urlStr : String) (u : URL),
      parse urlStr = .ok u → (u.Path = "" ∨ HasPrefix u.Path "/" = true) →
      extractIdentifierInfoFromURL parse urlStr =
        classifyToken
          (if isSuperClient (u.Scheme ++ "://" ++ u.Host) = true ∧
              firstPathSegment u.Path ≠ ""
            then firstPathSegment u.Path
            else QueryGet u.RawQuery "warp")) ∧
    isSuperClient "https://usewarp.to.evil.example" = true ∧
    isSuperClient "https://warp.to" = true ∧
    isSuperClient "http://usewarp.to" = false ∧
    isSuperClient (DefaultClientURL Testnet) = false ∧
    isSuperClient (DefaultClientURL Devnet) = false ∧
    WarpLink.Build { Env := Mainnet, ClientURL := "https://usewarp.to.evil.example" }
      HashIDType "abc" = "https://usewarp.to.evil.example/hash%3Aabc" ∧
    WarpLink.Build { Env := Mainnet, ClientURL := "http://usewarp.to" } HashIDType "abc" =
      "http://usewarp.to?warp=hash%3Aabc" ∧
    WarpLink.Build { Env := Testnet } HashIDType "abc" =
      "https://testnet.usewarp.to/to?warp=hash%3Aabc" ∧
    WarpLink.Build { Env := Devnet } AliasIDType "my-alias" =
      "https://devnet.usewarp.to/to?warp=my-alias" ∧
    extractIdentifierInfoFromURL url.Parse "https://usewarp.to.evil.example/my-alias" =
      some { Type_ := AliasIDType, ID := "my-alias" } ∧
    extractIdentifierInfoFromURL url.Parse "http://usewarp.to/my-alias" = none ∧
    extractIdentifierInfoFromURL url.Parse "https://testnet.usewarp.to/to?warp=my-alias" =
      some { Type_ := AliasIDType, ID := "my-alias" } := by
  refine ⟨isSuperClient_prefixes, ?_, extract_eq_classifyToken, by decide, by decide,
    by decide, by decide, by decide, by decide, by decide, by decide, by decide, by decide,
    by decide, by decide⟩
  intro config idType id
  have hsep : IdentifierParamSeparator = ":" := rfl
  have hname : IdentifierParamName = "warp" := rfl
  by_cases hs : isSuperClient (clientBaseURL config) = true
  · by_cases ha : idType = AliasIDType <;>
      simp [WarpLink.Build, clientBaseURL, hsep, hname, ha] at hs ⊢ <;>
      simp [hs, String.append_assoc]
  · by_cases ha : idType = AliasIDType <;>
      simp [WarpLink.Build, clientBaseURL, hsep, hname, ha] at hs ⊢ <;>
      simp [hs, String.append_assoc]

/-- Witness of C38: the URL `https://usewarp.to.evil.example/my-alias`, whose first path
segment is read because scheme and host begin with `https://usewarp.to`. -/
theorem super_client_by_prefix_witness :
    extractIdentifierInfoFromURL url.Parse "https://usewarp.to.evil.example/my-alias" =
      classifyToken "my-alias" := by
  have h := super_client_by_prefix.2.2.1 url.Parse "https://usewarp.to.evil.example/my-alias"
    { Scheme := "https", Host := "usewarp.to.evil.example", Path := "/my-alias" }
    (by decide) (Or.inr (by decide))
  rw [h]
  decide

/-! ## The expiration computed by `Set` -/

/-- C39: `Set` stores the expiration `now + ttlSeconds * 10^9` nanoseconds for
`1 ≤ ttlSeconds ≤ 9223372036`, an instant strictly after `now`; for
`ttlSeconds = 9223372037` the product, which is `2^63 + 228191` and more, wraps modulo
`2^64` to a negative duration, the expiration lies before `now`, and a `Get(k)` right
after the `Set` returns nil. -/
theorem set_expiration_int64 {α : Type} (c : WarpCache α) (k : CacheKey) (v : Option α)
    (ttlSeconds now : Int) :
    (1 ≤ ttlSeconds → ttlSeconds ≤ 9223372036 →
      (c.Set k v ttlSeconds now).items k =
        some { value := v, expiration := now + ttlSeconds * 1000000000 } ∧
      now < now + ttlSeconds * 1000000000) ∧
    wrapInt64 (9223372037 * 1000000000) = 9223372037 * 1000000000 - 2 ^ 64 ∧
    wrapInt64 (9223372037 * 1000000000) < 0 ∧
    (c.Set k v 9223372037 now).items k =
      some { value := v, expiration := now - 9223372036709551616 } ∧
    ((c.Set k v 9223372037 now).Get k now).1 = none := by
  have hw : wrapInt64 (wrapInt64 9223372037 * Second) = -9223372036709551616 := by
    decide
  refine ⟨?_, by decide, by decide, ?_, ?_⟩
  · intro h1 h2
    have hd := duration_in_range ttlSeconds (by omega) h2
    simp only [Second] at hd
    constructor
    · simp [WarpCache.Set, Second, hd]
    · omega
  · simp only [WarpCache.Set, hw, if_true]
    congr 2
  · have hexp : now > now + -9223372036709551616 := by omega
    simp [WarpCache.Get, WarpCache.Set, hw, hexp]

/-- Witness of C39: a time to live of one hour, set at the instant 1000. -/
theorem set_expiration_int64_witness :
    ((NewWarpCache : WarpCache Nat).Set "k" (some 7) 3600 1000).items "k" =
      some { value := some 7, expiration := 3600000001000 } := by
  have h := ((set_expiration_int64 (NewWarpCache : WarpCache Nat) "k" (some 7) 3600 1000).1
    (by decide) (by decide)).1
  rw [h]
  rfl

/-! ## `CreateFromTransactionHash` without caching, and `Detect` -/

theorem createFromTransactionHash_nil (rt : Runtime) (b : WarpBuilder) (hash : String)
    (tGet tSet : Int) :
    (b.CreateFromTransactionHash rt hash none tGet tSet).builder = b ∧
    (b.CreateFromTransactionHash rt hash none tGet tSet).requests = [b.transactionURL hash] ∧
    (b.CreateFromTransactionHash rt hash none tGet tSet).result = b.fetchWarp rt hash := by
  unfold WarpBuilder.CreateFromTransactionHash
  simp only [WarpBuilder.lookup, WarpBuilder.store]
  rcases hf : b.fetchWarp rt hash with ⟨warp, _ | err⟩
  · simp
  · have hshape : warp = none := by
      simp only [WarpBuilder.fetchWarp] at hf
      split at hf
      · cases hf; rfl
      · split_ifs at hf
        · cases hf; rfl
        · split at hf
          · cases hf; rfl
          · split at hf
            · cases hf; rfl
            · simp only [WarpBuilder.CreateFromTransaction] at hf
              split at hf
              · cases hf
              · cases hf; rfl
    simp [hshape]

theorem createFromTransactionHash_no_ttl (rt : Runtime) (b : WarpBuilder) (hash : String)
    (cc : WarpCacheConfig) (tGet tSet : Int) (httl : cc.TTL ≤ 0) :
    (b.CreateFromTransactionHash rt hash (some cc) tGet tSet).builder =
      { b with cache := (b.cache.Get (CacheKey.Warp hash) tGet).2 } ∧
    (∀ w, (b.cache.Get (CacheKey.Warp hash) tGet).1 = some w →
      (b.CreateFromTransactionHash rt hash (some cc) tGet tSet).result = (some w, none) ∧
      (b.CreateFromTransactionHash rt hash (some cc) tGet tSet).requests = []) ∧
    ((b.cache.Get (CacheKey.Warp hash) tGet).1 = none →
      (b.CreateFromTransactionHash rt hash (some cc) tGet tSet).requests
        = [b.transactionURL hash]) := by
  have hn : ¬ cc.TTL > 0 := by omega
  unfold WarpBuilder.CreateFromTransactionHash
  simp only [WarpBuilder.lookup, WarpBuilder.store, hn, if_false]
  cases hg : (b.cache.Get (CacheKey.Warp hash) tGet).1 with
  | some cached => simp
  | none =>
    rcases hf : b.fetchWarp rt hash with ⟨warp, _ | err⟩ <;> simp

theorem resolve_new_registry (post : String → Except String PostResponse)
    (config : WarpConfig) (key : String) (info : RegistryInfo) (tGet tSet : Int) :
    ((NewWarpRegistry config).resolve post key info tGet tSet).result =
      match post (WarpRegistry.apiURL config) with
      | .error err => (none, some err)
      | .ok resp =>
        if resp.StatusCode ≠ 200 then
          (none, some ("failed to get registry info: " ++ resp.Status))
        else (some { RegistryInfo := some info, Brand := none }, none) := by
  simp only [WarpRegistry.resolve, NewWarpRegistry, WarpCache.Get, NewWarpCache]
  cases post (WarpRegistry.apiURL config) with
  | error err => rfl
  | ok resp => by_cases h : resp.StatusCode = 200 <;> simp [h]

/-- C40, counterexample: a `Detect` call on the alias `my-warp`, with a registry endpoint
that answers 404, calls the registry only and returns its error: it makes no call of
`CreateFromTransactionHash` and issues no request for a transaction. -/
theorem detect_unresolved_alias_requests_nothing :
    identifierOf url.Parse "alias:my-warp" = some { Type_ := AliasIDType, ID := "my-warp" } ∧
    (Detect url.Parse (detectCollaborators plainRuntime notFoundPost { Env := Mainnet } 0 0)
      "alias:my-warp").calls = [.GetInfoByAlias "my-warp"] ∧
    transactionRequests plainRuntime { Env := Mainnet } 0 0
      (Detect url.Parse (detectCollaborators plainRuntime notFoundPost { Env := Mainnet } 0 0)
        "alias:my-warp").calls = [] := by
  decide

/-- C40, amended: `CreateFromTransactionHash` with a nil `cacheConfig` leaves the builder,
and so the cache, as it is and requests the transaction whatever the cache holds; with
a `cacheConfig` whose TTL is at most 0 the cache afterwards is the cache after the `Get`
of the lookup (no `Set` is made), a cached warp is returned without a request and a miss
requests the transaction.  `Detect` passes nil to a new builder: a `Detect` call on a
hash requests the transaction of the hash; a `Detect` call on an alias requests the
transaction of the hash that the registry returns when the registry answers with the
status 200, and requests no transaction when the post fails or has another status. -/
theorem uncached_calls_request (rt : Runtime) (b : WarpBuilder) (hash : String)
    (cc : WarpCacheConfig) (tGet tSet : Int) (parse : String → Except String URL)
    (post : String → Except String PostResponse) (config : WarpConfig) (urlStr id : String) :
    ((b.CreateFromTransactionHash rt hash none tGet tSet).builder = b ∧
      (b.CreateFromTransactionHash rt hash none tGet tSet).requests
        = [b.transactionURL hash]) ∧
    (cc.TTL ≤ 0 →
      (b.CreateFromTransactionHash rt hash (some cc) tGet tSet).builder =
        { b with cache := (b.cache.Get (CacheKey.Warp hash) tGet).2 } ∧
      (∀ w, (b.cache.Get (CacheKey.Warp hash) tGet).1 = some w →
        (b.CreateFromTransactionHash rt hash (some cc) tGet tSet).result = (some w, none) ∧
        (b.CreateFromTransactionHash rt hash (some cc) tGet tSet).requests = []) ∧
      ((b.cache.Get (CacheKey.Warp hash) tGet).1 = none →
        (b.CreateFromTransactionHash rt hash (some cc) tGet tSet).requests
          = [b.transactionURL hash])) ∧
    (identifierOf parse urlStr = some { Type_ := HashIDType, ID := id } →
      transactionRequests rt config tGet tSet
        (Detect parse (detectCollaborators rt post config tGet tSet) urlStr).calls
        = [(NewWarpBuilder config).transactionURL id]) ∧
    (identifierOf parse urlStr = some { Type_ := AliasIDType, ID := id } →
      (∀ resp, post (WarpRegistry.apiURL config) = .ok resp → resp.StatusCode = 200 →
        transactionRequests rt config tGet tSet
          (Detect parse (detectCollaborators rt post config tGet tSet) urlStr).calls
          = [(NewWarpBuilder config).transactionURL "123456789abcdef"]) ∧
      ((∀ resp, post (WarpRegistry.apiURL config) = .ok resp → resp.StatusCode ≠ 200) →
        transactionRequests rt config tGet tSet
          (Detect parse (detectCollaborators rt post config tGet tSet) urlStr).calls
          = [])) := by
  have hnil := createFromTransactionHash_nil rt
  refine ⟨⟨(hnil b hash tGet tSet).1, (hnil b hash tGet tSet).2.1⟩,
    createFromTransactionHash_no_ttl rt b hash cc tGet tSet, ?_, ?_⟩
  · intro hid
    have hr := (hnil (NewWarpBuilder config) id tGet tSet).2.1
    rw [Detect_eq, hid]
    simp only [detectCollaborators, if_true]
    rcases hb : ((NewWarpBuilder config).CreateFromTransactionHash rt id none tGet tSet).result
      with ⟨warp, _ | err⟩
    · rcases hg : ((NewWarpRegistry config).GetInfoByHash post id tGet tSet).result
        with ⟨_ | rr, _ | e2⟩ <;>
        cases warp <;> simp [detectFinish, transactionRequests, hr]
    · simp [transactionRequests, hr]
  · intro hid
    have hne : AliasIDType ≠ HashIDType := by decide
    have hres := resolve_new_registry post config id
      { Hash := "123456789abcdef", Alias := some id, Trust := Unverified,
        Creator := "erd1...", CreatedAt := 1625097600, Brand := none, Upgrade := none }
      tGet tSet
    have hr := (hnil (NewWarpBuilder config) "123456789abcdef" tGet tSet).2.1
    constructor
    · intro resp hpost hok
      rw [hpost] at hres
      simp only [hok, ne_eq, not_true_eq_false, if_false] at hres
      rw [Detect_eq, hid]
      simp only [detectCollaborators, hne, if_false, if_true, WarpRegistry.GetInfoByAlias, hres]
      rcases hb : ((NewWarpBuilder config).CreateFromTransactionHash rt "123456789abcdef" none
        tGet tSet).result with ⟨warp, _ | err⟩
      · cases warp <;> simp [detectFinish, transactionRequests, hr]
      · simp [transactionRequests, hr]
    · intro hbad
      rw [Detect_eq, hid]
      simp only [detectCollaborators, hne, if_false, if_true, WarpRegistry.GetInfoByAlias, hres]
      cases hpost : post (WarpRegistry.apiURL config) with
      | error err => simp [transactionRequests]
      | ok resp =>
        have := hbad resp hpost
        simp [this, transactionRequests]

/-- Witness of C40 (amended): a `Detect` call on the hash `abc` and one on the alias
`my-warp` with a registry endpoint that answers 200. -/
theorem uncached_calls_request_witness :
    transactionRequests plainRuntime { Env := Mainnet } 0 0
      (Detect url.Parse (detectCollaborators plainRuntime okPost { Env := Mainnet } 0 0)
        "hash:abc").calls = ["https://api.multiversx.com/transactions/abc"] ∧
    transactionRequests plainRuntime { Env := Mainnet } 0 0
      (Detect url.Parse (detectCollaborators plainRuntime okPost { Env := Mainnet } 0 0)
        "alias:my-warp").calls
      = ["https://api.multiversx.com/transactions/123456789abcdef"] := by
  have h := uncached_calls_request plainRuntime (NewWarpBuilder { Env := Mainnet }) "abc"
    { TTL := 0 } 0 0 url.Parse okPost { Env := Mainnet }
  exact ⟨(h "hash:abc" "abc").2.2.1 (by decide),
    ((h "alias:my-warp" "my-warp").2.2.2 (by decide)).1 _ rfl rfl⟩

/-! ## The calendar of `time` -/

theorem era_split (doe : Int) (h0 : 0 ≤ doe) (h1 : doe < 146096) :
    ∃ c q r : Int, 0 ≤ c ∧ c ≤ 3 ∧ 0 ≤ q ∧ q ≤ 24 ∧ 0 ≤ r ∧ r ≤ 1460 ∧
      (q = 24 → r ≤ 1459) ∧ doe = 36524 * c + 1461 * q + r :=
  ⟨doe / 36524, (doe - 36524 * (doe / 36524)) / 1461, (doe - 36524 * (doe / 36524)) % 1461,
    by omega, by omega, by omega, by omega, by omega, by omega, by omega, by omega⟩

theorem era_quotients (c q r : Int) (hc0 : 0 ≤ c) (hc3 : c ≤ 3) (hq0 : 0 ≤ q) (hq1 : q ≤ 24)
    (hr0 : 0 ≤ r) (hr1 : r ≤ 1460) (hq24 : q = 24 → r ≤ 1459) :
    (36524 * c + 1461 * q + r) / 36524 = c ∧
    (36524 * c + 1461 * q + r) / 146096 = 0 ∧
    (((36524 * c + 1461 * q + r) / 1460 = 25 * c + q ∧ r ≤ 1459) ∨
      ((36524 * c + 1461 * q + r) / 1460 = 25 * c + q + 1 ∧ 1364 ≤ r)) := by
  refine ⟨by omega, by omega, by omega⟩

theorem year_of_cycle (c q r x yoe : Int) (hr0 : 0 ≤ r) (hr1 : r ≤ 1460)
    (hx : (x = 0 ∧ r ≤ 1459) ∨ (x = 1 ∧ 1364 ≤ r))
    (hy : yoe = (36500 * c + 1460 * q + r - x) / 365) :
    0 ≤ yoe - 100 * c - 4 * q ∧ yoe - 100 * c - 4 * q ≤ 3 ∧
    365 * (yoe - 100 * c - 4 * q) ≤ r - x ∧ r - x ≤ 365 * (yoe - 100 * c - 4 * q) + 364 := by
  omega

theorem year_quotients (c q k : Int) (hq0 : 0 ≤ q) (hq1 : q ≤ 24) (hk0 : 0 ≤ k) (hk1 : k ≤ 3) :
    (100 * c + 4 * q + k) / 4 = 25 * c + q ∧ (100 * c + 4 * q + k) / 100 = c := by
  constructor <;> omega

theorem cycle_end_leap (c q : Int) (hq0 : 0 ≤ q) (hq1 : q ≤ 23) :
    (100 * c + 4 * q + 3 + 1) % 4 = 0 ∧ (100 * c + 4 * q + 3 + 1) % 100 ≠ 0 := by
  constructor <;> omega

theorem doy_spec (doe yoe doy : Int) (h0 : 0 ≤ doe) (h1 : doe ≤ 146096)
    (hy : yoe = (doe - doe / 1460 + doe / 36524 - doe / 146096) / 365)
    (hd : doy = doe - (365 * yoe + yoe / 4 - yoe / 100)) :
    0 ≤ yoe ∧ yoe ≤ 399 ∧ 0 ≤ doy ∧ doy ≤ 365 ∧
    (doy = 365 → (yoe + 1) % 4 = 0 ∧ ((yoe + 1) % 100 ≠ 0 ∨ (yoe + 1) % 400 = 0)) := by
  by_cases hlast : doe = 146096
  · subst hlast
    have hyv : yoe = 399 := by rw [hy]; decide
    subst hyv
    have hdv : doy = 365 := by rw [hd]; decide
    subst hdv
    decide
  · obtain ⟨c, q, r, hc0, hc3, hq0, hq1, hr0, hr1, hq24, hdoe⟩ :=
      era_split doe h0 (by omega)
    obtain ⟨e1, e2, e3⟩ := era_quotients c q r hc0 hc3 hq0 hq1 hr0 hr1 hq24
    rw [← hdoe] at e1 e2 e3
    rw [e1, e2] at hy
    obtain ⟨x, hx, hbx⟩ : ∃ x : Int, ((x = 0 ∧ r ≤ 1459) ∨ (x = 1 ∧ 1364 ≤ r)) ∧
        doe / 1460 = 25 * c + q + x := by
      rcases e3 with ⟨e, hr⟩ | ⟨e, hr⟩
      · exact ⟨0, Or.inl ⟨rfl, hr⟩, by omega⟩
      · exact ⟨1, Or.inr ⟨rfl, hr⟩, by omega⟩
    rw [hbx] at hy
    have hN : doe - (25 * c + q + x) + c - 0 = 36500 * c + 1460 * q + r - x := by omega
    rw [hN] at hy
    obtain ⟨k0, k3, kl, ku⟩ := year_of_cycle c q r x yoe hr0 hr1 hx hy
    clear hy hbx e1 e2 e3 hN
    obtain ⟨k, hk⟩ : ∃ k, k = yoe - 100 * c - 4 * q := ⟨_, rfl⟩
    rw [← hk] at k0 k3 kl ku
    have hyk : yoe = 100 * c + 4 * q + k := by omega
    obtain ⟨f4, f100⟩ := year_quotients c q k hq0 hq1 k0 k3
    rw [← hyk] at f4 f100
    rw [f4, f100] at hd
    refine ⟨by omega, by omega, by omega, by omega, ?_⟩
    intro h365
    have hk3 : k = 3 := by omega
    have hr0 : r = 1460 := by omega
    have hq23 : q ≤ 23 := by omega
    have hend := cycle_end_leap c q hq0 hq23
    rw [hyk, hk3]
    exact ⟨hend.1, Or.inl hend.2⟩

theorem div4_pred (y : Int) : (y - 1) / 4 + (if y % 4 = 0 then 1 else 0) = y / 4 := by
  split_ifs <;> omega

theorem div100_pred (y : Int) : (y - 1) / 100 + (if y % 100 = 0 then 1 else 0) = y / 100 := by
  split_ifs <;> omega

theorem div400_pred (y : Int) : (y - 1) / 400 + (if y % 400 = 0 then 1 else 0) = y / 400 := by
  split_ifs <;> omega

theorem isLeap_iff (y : Int) :
    isLeap y = true ↔ y % 4 = 0 ∧ (y % 100 ≠ 0 ∨ y % 400 = 0) := by
  simp [isLeap]

theorem leap_count (y : Int) :
    (y - 1) / 4 - (y - 1) / 100 + (y - 1) / 400 + (if isLeap y = true then 1 else 0) =
      y / 4 - y / 100 + y / 400 := by
  have h4 := div4_pred y
  have h100 := div100_pred y
  have h400 := div400_pred y
  simp only [isLeap_iff]
  split_ifs at h4 h100 h400 ⊢ <;> omega

theorem era_count (era yoe : Int) (hy0 : 0 ≤ yoe) (hy1 : yoe ≤ 399) :
    (yoe + era * 400) / 4 - (yoe + era * 400) / 100 + (yoe + era * 400) / 400 =
      yoe / 4 - yoe / 100 + era * 97 := by
  omega

theorem daysFromCivil_from_march (y m d : Int) (hm : 2 < m) :
    daysFromCivil y m d =
      365 * y + (y / 4 - y / 100 + y / 400) + daysBefore m + d - 719528 := by
  have hl := leap_count y
  have hgt : m > 2 := hm
  simp only [daysFromCivil, hgt, true_and]
  split_ifs at hl ⊢ <;> omega

theorem daysFromCivil_jan_feb (y m d : Int) (hm : m ≤ 2) :
    daysFromCivil (y + 1) m d =
      365 * y + (y / 4 - y / 100 + y / 400) + daysBefore m + d - 719163 := by
  have hgt : ¬ m > 2 := by omega
  have hy : y + 1 - 1 = y := by omega
  simp only [daysFromCivil, hgt, false_and, if_false, hy]
  omega

theorem isLeap_of_era (era yoe : Int)
    (h : (yoe + 1) % 4 = 0 ∧ ((yoe + 1) % 100 ≠ 0 ∨ (yoe + 1) % 400 = 0)) :
    isLeap (yoe + era * 400 + 1) = true := by
  rw [isLeap_iff]
  omega

theorem date_of_doy (era yoe doy mp : Int) (hy0 : 0 ≤ yoe) (hy1 : yoe ≤ 399)
    (hd0 : 0 ≤ doy) (hd1 : doy ≤ 365)
    (hleap : doy = 365 → (yoe + 1) % 4 = 0 ∧ ((yoe + 1) % 100 ≠ 0 ∨ (yoe + 1) % 400 = 0))
    (hmp : mp = (5 * doy + 2) / 153) :
    1 ≤ (if mp < 10 then mp + 3 else mp - 9) ∧ (if mp < 10 then mp + 3 else mp - 9) ≤ 12 ∧
    1 ≤ doy - (153 * mp + 2) / 5 + 1 ∧
    doy - (153 * mp + 2) / 5 + 1 ≤
      daysIn (if mp < 10 then mp + 3 else mp - 9)
        (if (if mp < 10 then mp + 3 else mp - 9) ≤ 2 then yoe + era * 400 + 1
          else yoe + era * 400) ∧
    daysFromCivil
        (if (if mp < 10 then mp + 3 else mp - 9) ≤ 2 then yoe + era * 400 + 1
          else yoe + era * 400)
        (if mp < 10 then mp + 3 else mp - 9) (doy - (153 * mp + 2) / 5 + 1) =
      era * 146097 + (365 * yoe + yoe / 4 - yoe / 100 + doy) - 719468 := by
  have he := era_count era yoe hy0 hy1
  have hcases : mp = 0 ∨ mp = 1 ∨ mp = 2 ∨ mp = 3 ∨ mp = 4 ∨ mp = 5 ∨ mp = 6 ∨ mp = 7 ∨
      mp = 8 ∨ mp = 9 ∨ mp = 10 ∨ mp = 11 := by omega
  have hfeb : doy - 337 + 1 ≤ daysIn 2 (yoe + era * 400 + 1) := by
    by_cases h365 : doy = 365
    · simp only [daysIn, if_true, isLeap_of_era era yoe (hleap h365)]
      omega
    · simp only [daysIn, if_true]
      split_ifs <;> omega
  rcases hcases with h | h | h | h | h | h | h | h | h | h | h | h <;> subst h
  iterate 10
    rw [daysFromCivil_from_march _ _ _ (by norm_num)]
    norm_num [daysIn, daysBefore]
    omega
  · have e := daysFromCivil_jan_feb (yoe + era * 400) 1 (doy - 306 + 1) (by norm_num)
    have h1 : ¬ ((10 : Int) < 10) := by norm_num
    have h2 : (10 : Int) - 9 = 1 := by norm_num
    have h3 : (153 * 10 + 2 : Int) / 5 = 306 := by norm_num
    simp only [h1, h2, h3, if_false, show (1 : Int) ≤ 2 by norm_num, if_true, e]
    norm_num [daysIn, daysBefore]
    omega
  · have e := daysFromCivil_jan_feb (yoe + era * 400) 2 (doy - 337 + 1) (by norm_num)
    have h1 : ¬ ((11 : Int) < 10) := by norm_num
    have h2 : (11 : Int) - 9 = 2 := by norm_num
    have h3 : (153 * 11 + 2 : Int) / 5 = 337 := by norm_num
    simp only [h1, h2, h3, if_false, show (2 : Int) ≤ 2 by norm_num, if_true, e]
    refine ⟨by norm_num, by norm_num, by omega, hfeb, ?_⟩
    norm_num [daysBefore]
    omega

/-- The date that `civilFromDays` computes is a date of the calendar, and `time.Date`
counts the same days for it. -/
theorem civilFromDays_spec (z : Int) :
    1 ≤ (civilFromDays z).2.1 ∧ (civilFromDays z).2.1 ≤ 12 ∧ 1 ≤ (civilFromDays z).2.2 ∧
    (civilFromDays z).2.2 ≤ daysIn (civilFromDays z).2.1 (civilFromDays z).1 ∧
    daysFromCivil (civilFromDays z).1 (civilFromDays z).2.1 (civilFromDays z).2.2 = z := by
  obtain ⟨era, hera⟩ : ∃ era, era = (z + 719468) / 146097 := ⟨_, rfl⟩
  obtain ⟨doe, hdoe⟩ : ∃ doe, doe = z + 719468 - era * 146097 := ⟨_, rfl⟩
  obtain ⟨yoe, hyoe⟩ : ∃ yoe, yoe = (doe - doe / 1460 + doe / 36524 - doe / 146096) / 365 :=
    ⟨_, rfl⟩
  obtain ⟨doy, hdoy⟩ : ∃ doy, doy = doe - (365 * yoe + yoe / 4 - yoe / 100) := ⟨_, rfl⟩
  obtain ⟨mp, hmp⟩ : ∃ mp, mp = (5 * doy + 2) / 153 := ⟨_, rfl⟩
  have h0 : 0 ≤ doe ∧ doe ≤ 146096 := by omega
  obtain ⟨hy0, hy1, hd0, hd1, hleap⟩ := doy_spec doe yoe doy h0.1 h0.2 hyoe hdoy
  have hdate := date_of_doy era yoe doy mp hy0 hy1 hd0 hd1 hleap hmp
  have hz : era * 146097 + (365 * yoe + yoe / 4 - yoe / 100 + doy) - 719468 = z := by omega
  rw [hz] at hdate
  simp only [civilFromDays, ← hera, ← hdoe, ← hyoe, ← hdoy, ← hmp]
  exact hdate

/-- The year that `civilFromDays` computes has four digits for the days from 0000-01-01
to 9999-12-31. -/
theorem civilFromDays_year (z : Int) (hlo : -719528 ≤ z) (hhi : z ≤ 2932896) :
    0 ≤ (civilFromDays z).1 ∧ (civilFromDays z).1 ≤ 9999 := by
  obtain ⟨era, hera⟩ : ∃ era, era = (z + 719468) / 146097 := ⟨_, rfl⟩
  obtain ⟨doe, hdoe⟩ : ∃ doe, doe = z + 719468 - era * 146097 := ⟨_, rfl⟩
  obtain ⟨yoe, hyoe⟩ : ∃ yoe, yoe = (doe - doe / 1460 + doe / 36524 - doe / 146096) / 365 :=
    ⟨_, rfl⟩
  obtain ⟨doy, hdoy⟩ : ∃ doy, doy = doe - (365 * yoe + yoe / 4 - yoe / 100) := ⟨_, rfl⟩
  obtain ⟨mp, hmp⟩ : ∃ mp, mp = (5 * doy + 2) / 153 := ⟨_, rfl⟩
  have h0 : 0 ≤ doe ∧ doe ≤ 146096 := by omega
  obtain ⟨hy0, hy1, hd0, hd1, _⟩ := doy_spec doe yoe doy h0.1 h0.2 hyoe hdoy
  have he : -1 ≤ era ∧ era ≤ 24 := by omega
  have hlow : era = -1 → yoe = 399 ∧ 10 ≤ mp := by
    intro h
    have h1 : 146037 ≤ doe := by omega
    have h2 : yoe = 399 := by omega
    exact ⟨h2, by omega⟩
  have hhigh : era = 24 → yoe = 399 → mp < 10 := by
    intro h h2
    have h1 : doe ≤ 146036 := by omega
    omega
  simp only [civilFromDays, ← hera, ← hdoe, ← hyoe, ← hdoy, ← hmp]
  by_cases hm : mp < 10
  · simp only [hm, if_true]
    have h3 : ¬ mp + 3 ≤ 2 := by omega
    simp only [h3, if_false]
    constructor
    · by_contra hneg
      have : era = -1 := by omega
      have := hlow this
      omega
    · omega
  · simp only [hm, if_false]
    have h3 : mp - 9 ≤ 2 := by omega
    simp only [h3, if_true]
    constructor
    · omega
    · by_contra hneg
      have h24 : era = 24 := by omega
      have h399 : yoe = 399 := by omega
      have := hhigh h24 h399
      omega

/-! ## Zero-padded numerals -/

theorem zeroPadded_zero (w : Nat) : zeroPadded w 0 = List.replicate w '0' := by
  induction w with
  | zero => rfl
  | succ w ih =>
    simp only [zeroPadded, Nat.zero_div, Nat.zero_mod, ih]
    rw [List.replicate_succ']
    rfl

theorem toDigits_length_le (w : Nat) : ∀ n, 0 < w → n < 10 ^ w →
    (Nat.toDigits 10 n).length ≤ w := by
  induction w with
  | zero => intro n h; omega
  | succ w ih =>
    intro n _ hn
    by_cases h10 : n < 10
    · rw [toDigits_small n h10]
      simp
    · rw [toDigits_large n (by omega)]
      have hw : 0 < w := by
        rcases Nat.eq_zero_or_pos w with h | h
        · subst h; simp at hn; omega
        · exact h
      have hdiv : n / 10 < 10 ^ w := by
        rw [Nat.pow_succ] at hn
        omega
      have := ih (n / 10) hw hdiv
      simp only [List.length_append, List.length_singleton]
      omega

theorem pad_toDigits (w : Nat) : ∀ n, 0 < w → n < 10 ^ w →
    List.replicate (w - (Nat.toDigits 10 n).length) '0' ++ Nat.toDigits 10 n
      = zeroPadded w n := by
  induction w with
  | zero => intro n h; omega
  | succ w ih =>
    intro n _ hn
    by_cases h10 : n < 10
    · have h0 : n / 10 = 0 := by omega
      have hm : n % 10 = n := by omega
      rw [toDigits_small n h10]
      simp only [zeroPadded, h0, hm, zeroPadded_zero, List.length_singleton,
        Nat.add_sub_cancel]
    · have hw : 0 < w := by
        rcases Nat.eq_zero_or_pos w with h | h
        · subst h; simp at hn; omega
        · exact h
      have hdiv : n / 10 < 10 ^ w := by
        rw [Nat.pow_succ] at hn
        omega
      have hlen := toDigits_length_le w (n / 10) hw hdiv
      rw [toDigits_large n (by omega)]
      simp only [zeroPadded, List.length_append, List.length_singleton, Nat.add_sub_add_right,
        ← List.append_assoc, ih (n / 10) hw hdiv]

/-- The numeral that `appendInt` writes for a number from 0 below `10 ^ width` is the
zero-padded numeral of that width. -/
theorem appendInt_eq (x : Int) (w : Nat) (hw : 0 < w) (h0 : 0 ≤ x) (h1 : x < 10 ^ w) :
    appendInt x w = String.mk (zeroPadded w x.toNat) := by
  have hneg : ¬ x < 0 := by omega
  have habs : x.natAbs = x.toNat := by omega
  have hlt : x.toNat < 10 ^ w := by
    have : ((x.toNat : Nat) : Int) < ((10 ^ w : Nat) : Int) := by
      rw [Int.toNat_of_nonneg h0]
      push_cast
      exact h1
    exact_mod_cast this
  simp only [appendInt, hneg, if_false, habs, pad_toDigits w x.toNat hw hlt]
  rfl

theorem digit_byte (k : Nat) (h : k < 10) : utf8Bytes (Nat.digitChar k) = [48 + k] := by
  interval_cases k <;> rfl

theorem bytesOf_zeroPadded2 (n : Nat) :
    bytesOf (zeroPadded 2 n) = [48 + n / 10 % 10, 48 + n % 10] := by
  simp [zeroPadded, bytesOf, digit_byte (n / 10 % 10) (Nat.mod_lt _ (by decide)),
    digit_byte (n % 10) (Nat.mod_lt _ (by decide))]

theorem bytesOf_zeroPadded4 (n : Nat) :
    bytesOf (zeroPadded 4 n) =
      [48 + n / 10 / 10 / 10 % 10, 48 + n / 10 / 10 % 10, 48 + n / 10 % 10, 48 + n % 10] := by
  simp [zeroPadded, bytesOf, digit_byte (n / 10 / 10 / 10 % 10) (Nat.mod_lt _ (by decide)),
    digit_byte (n / 10 / 10 % 10) (Nat.mod_lt _ (by decide)),
    digit_byte (n / 10 % 10) (Nat.mod_lt _ (by decide)),
    digit_byte (n % 10) (Nat.mod_lt _ (by decide))]

theorem isDigitByte_digit (k : Nat) (h : k < 10) : isDigitByte (48 + k) = true := by
  simp [isDigitByte]
  omega

theorem getnum_two (a b : Nat) (ha : a < 10) (hb : b < 10) (rest : List Nat) (fixed : Bool) :
    getnum ((48 + a) :: (48 + b) :: rest) fixed = some (a * 10 + b, rest) := by
  simp [getnum, isDigitByte_digit a ha, isDigitByte_digit b hb]

theorem getYear_four (a b c d : Nat) (ha : a < 10) (hb : b < 10) (hc : c < 10) (hd : d < 10)
    (rest : List Nat) :
    getYear ((48 + a) :: (48 + b) :: (48 + c) :: (48 + d) :: rest) =
      some (a * 1000 + b * 100 + c * 10 + d, rest) := by
  simp [getYear, isDigitByte_digit a ha, isDigitByte_digit b hb, isDigitByte_digit c hc,
    isDigitByte_digit d hd]

/-- The parser reads the text of zero-padded fields of a date and a clock in UTC back
as the instant of these fields, when they are a date of the calendar and a time of the
day. -/
theorem parse_of_fields (year month day hour minute second : Nat) (hy : year < 10000)
    (hm1 : 1 ≤ month) (hm2 : month ≤ 12) (hd1 : 1 ≤ day)
    (hd2 : (day : Int) ≤ daysIn month year) (hh : hour < 24) (hmi : minute < 60)
    (hs : second < 60) :
    time.ParseRFC3339
      (String.mk (zeroPadded 4 year) ++ "-" ++ String.mk (zeroPadded 2 month) ++ "-"
        ++ String.mk (zeroPadded 2 day) ++ "T" ++ String.mk (zeroPadded 2 hour) ++ ":"
        ++ String.mk (zeroPadded 2 minute) ++ ":" ++ String.mk (zeroPadded 2 second) ++ "Z") =
      .ok { unix := daysFromCivil year month day * 86400
                      + ((hour * 3600 + minute * 60 + second : Nat) : Int),
            offset := 0, nsec := 0 } := by
  have hday : day < 100 := by
    have : daysIn month year ≤ 31 := by
      simp only [daysIn]
      split_ifs <;> omega
    omega
  have hbytes : bytesOf
      (String.mk (zeroPadded 4 year) ++ "-" ++ String.mk (zeroPadded 2 month) ++ "-"
        ++ String.mk (zeroPadded 2 day) ++ "T" ++ String.mk (zeroPadded 2 hour) ++ ":"
        ++ String.mk (zeroPadded 2 minute) ++ ":" ++ String.mk (zeroPadded 2 second)
        ++ "Z").data =
      (48 + year / 10 / 10 / 10 % 10) :: (48 + year / 10 / 10 % 10) :: (48 + year / 10 % 10) ::
        (48 + year % 10) :: 45 :: (48 + month / 10 % 10) :: (48 + month % 10) :: 45 ::
        (48 + day / 10 % 10) :: (48 + day % 10) :: 84 :: (48 + hour / 10 % 10) ::
        (48 + hour % 10) :: 58 :: (48 + minute / 10 % 10) :: (48 + minute % 10) :: 58 ::
        (48 + second / 10 % 10) :: (48 + second % 10) :: [90] := by
    have hb : ∀ a b : List Char, bytesOf (a ++ b) = bytesOf a ++ bytesOf b := by
      intro a b; simp [bytesOf]
    simp only [String.data_append, hb, bytesOf_zeroPadded2, bytesOf_zeroPadded4]
    rfl
  have hm10 : ∀ n : Nat, n % 10 < 10 := fun n => Nat.mod_lt _ (by decide)
  have eyear : year / 10 / 10 / 10 % 10 * 1000 + year / 10 / 10 % 10 * 100
      + year / 10 % 10 * 10 + year % 10 = year := by omega
  have emonth : month / 10 % 10 * 10 + month % 10 = month := by omega
  have eday : day / 10 % 10 * 10 + day % 10 = day := by omega
  have ehour : hour / 10 % 10 * 10 + hour % 10 = hour := by omega
  have eminute : minute / 10 % 10 * 10 + minute % 10 = minute := by omega
  have esecond : second / 10 % 10 * 10 + second % 10 = second := by omega
  have hmonth : ¬ (month = 0 ∨ 12 < month) := by omega
  have hhour : ¬ 24 ≤ hour := by omega
  have hminute : ¬ 60 ≤ minute := by omega
  have hsecond : ¬ 60 ≤ second := by omega
  have hdayok : ¬ ((day : Int) < 1 ∨ (day : Int) > daysIn month year) := by omega
  simp only [time.ParseRFC3339, hbytes, getDate, getClock, getYear_four _ _ _ _ (hm10 _)
    (hm10 _) (hm10 _) (hm10 _), getnum_two _ _ (hm10 _) (hm10 _), skipByte, if_true, eyear,
    emonth, eday, ehour, eminute, esecond, hmonth, hhour, hminute, hsecond, if_false,
    getFraction, getZone]
  have hgoal : ¬ day = 0 ∧ (day : Int) ≤ daysIn month year := ⟨by omega, hd2⟩
  simp [hgoal]

/-! ## The round trip of `FormatTimeISO8601` and `ParseTimeISO8601` -/

/-- C35: for every instant `t` in UTC with whole seconds from 0000-01-01T00:00:00 to
9999-12-31T23:59:59 there are civil fields, a date of the calendar and a time of the
day that `time.Date` maps to `t`, such that `FormatTimeISO8601(t)` is the text
`YYYY-MM-DDTHH:MM:SSZ` of the zero-padded fields, and `ParseTimeISO8601` of that text
succeeds and returns `t`, so an instant equal to `t`. -/
theorem iso8601_round_trip (t : Time) (hutc : t.offset = 0) (hns : t.nsec = 0)
    (hlo : -62167219200 ≤ t.unix) (hhi : t.unix ≤ 253402300799) :
    ∃ year month day hour minute second : Nat,
      (year ≤ 9999 ∧ 1 ≤ month ∧ month ≤ 12 ∧ 1 ≤ day ∧ (day : Int) ≤ daysIn month year ∧
        hour < 24 ∧ minute < 60 ∧ second < 60) ∧
      t.unix = daysFromCivil year month day * 86400
        + ((hour * 3600 + minute * 60 + second : Nat) : Int) ∧
      FormatTimeISO8601 t =
        String.mk (zeroPadded 4 year) ++ "-" ++ String.mk (zeroPadded 2 month) ++ "-"
          ++ String.mk (zeroPadded 2 day) ++ "T" ++ String.mk (zeroPadded 2 hour) ++ ":"
          ++ String.mk (zeroPadded 2 minute) ++ ":" ++ String.mk (zeroPadded 2 second)
          ++ "Z" ∧
      ParseTimeISO8601 (FormatTimeISO8601 t) = .ok t ∧
      ∀ u, ParseTimeISO8601 (FormatTimeISO8601 t) = .ok u → u.Equal t = true := by
  obtain ⟨z, hz⟩ : ∃ z, z = t.unix / 86400 := ⟨_, rfl⟩
  obtain ⟨clock, hclock⟩ : ∃ clock, clock = t.unix % 86400 := ⟨_, rfl⟩
  have habs : absSeconds t = t.unix := by
    simp only [absSeconds, hutc]
    omega
  have hzr : -719528 ≤ z ∧ z ≤ 2932896 := by omega
  have hcr : 0 ≤ clock ∧ clock < 86400 := by omega
  obtain ⟨hm1, hm2, hd1, hd2, hdays⟩ := civilFromDays_spec z
  obtain ⟨hy1, hy2⟩ := civilFromDays_year z hzr.1 hzr.2
  obtain ⟨y, hy⟩ : ∃ y, y = (civilFromDays z).1 := ⟨_, rfl⟩
  obtain ⟨m, hm⟩ : ∃ m, m = (civilFromDays z).2.1 := ⟨_, rfl⟩
  obtain ⟨d, hd⟩ : ∃ d, d = (civilFromDays z).2.2 := ⟨_, rfl⟩
  rw [← hy, ← hm, ← hd] at hdays
  rw [← hy, ← hm, ← hd] at hd2
  rw [← hy] at hy1 hy2
  rw [← hm] at hm1 hm2
  rw [← hd] at hd1
  have hd31 : d ≤ 31 := by
    have : daysIn m y ≤ 31 := by
      simp only [daysIn]
      split_ifs <;> omega
    omega
  have cy : ((y.toNat : Nat) : Int) = y := Int.toNat_of_nonneg hy1
  have cm : ((m.toNat : Nat) : Int) = m := Int.toNat_of_nonneg (by omega)
  have cd : ((d.toNat : Nat) : Int) = d := Int.toNat_of_nonneg (by omega)
  have ch : (((clock / 3600).toNat : Nat) : Int) = clock / 3600 :=
    Int.toNat_of_nonneg (by omega)
  have cmi : (((clock % 3600 / 60).toNat : Nat) : Int) = clock % 3600 / 60 :=
    Int.toNat_of_nonneg (by omega)
  have cs : (((clock % 60).toNat : Nat) : Int) = clock % 60 :=
    Int.toNat_of_nonneg (by omega)
  have hfmt : FormatTimeISO8601 t =
      String.mk (zeroPadded 4 y.toNat) ++ "-" ++ String.mk (zeroPadded 2 m.toNat) ++ "-"
        ++ String.mk (zeroPadded 2 d.toNat) ++ "T"
        ++ String.mk (zeroPadded 2 (clock / 3600).toNat) ++ ":"
        ++ String.mk (zeroPadded 2 (clock % 3600 / 60).toNat) ++ ":"
        ++ String.mk (zeroPadded 2 (clock % 60).toNat) ++ "Z" := by
    simp only [FormatTimeISO8601, Time.FormatRFC3339, habs, ← hz, ← hclock, ← hy, ← hm, ← hd,
      hutc, if_true]
    rw [appendInt_eq y 4 (by decide) hy1 (by norm_num; omega),
      appendInt_eq m 2 (by decide) (by omega) (by norm_num; omega),
      appendInt_eq d 2 (by decide) (by omega) (by norm_num; omega),
      appendInt_eq (clock / 3600) 2 (by decide) (by omega) (by norm_num; omega),
      appendInt_eq (clock % 3600 / 60) 2 (by decide) (by omega) (by norm_num; omega),
      appendInt_eq (clock % 60) 2 (by decide) (by omega) (by norm_num; omega)]
  have hparse := parse_of_fields y.toNat m.toNat d.toNat (clock / 3600).toNat
    (clock % 3600 / 60).toNat (clock % 60).toNat (by omega) (by omega) (by omega) (by omega)
    (by rw [cy, cm, cd]; exact hd2) (by omega) (by omega) (by omega)
  have hunix : daysFromCivil y.toNat m.toNat d.toNat * 86400
      + (((clock / 3600).toNat * 3600 + (clock % 3600 / 60).toNat * 60
          + (clock % 60).toNat : Nat) : Int) = t.unix := by
    rw [cy, cm, cd, hdays]
    push_cast
    rw [ch, cmi, cs]
    omega
  have ht : ({ unix := t.unix, offset := 0, nsec := 0 } : Time) = t := by
    cases t
    simp_all
  rw [hunix, ht] at hparse
  have hp : ParseTimeISO8601 (FormatTimeISO8601 t) = .ok t := by
    rw [hfmt]
    exact hparse
  refine ⟨y.toNat, m.toNat, d.toNat, (clock / 3600).toNat, (clock % 3600 / 60).toNat,
    (clock % 60).toNat, ⟨by omega, by omega, by omega, by omega, by rw [cy, cm, cd]; exact hd2,
      by omega, by omega, by omega⟩, hunix.symm, hfmt, hp, ?_⟩
  intro u hu
  rw [hp] at hu
  cases hu
  simp [Time.Equal]

/-- Witness of C35: the instant 2023-01-02 03:04:05 UTC and the text
`2023-01-02T03:04:05Z`. -/
theorem iso8601_round_trip_witness :
    FormatTimeISO8601 { unix := 1672628645, offset := 0 } = "2023-01-02T03:04:05Z" ∧
    ParseTimeISO8601 "2023-01-02T03:04:05Z" = .ok { unix := 1672628645, offset := 0 } := by
  have hf : FormatTimeISO8601 { unix := 1672628645, offset := 0 } = "2023-01-02T03:04:05Z" := by
    decide
  obtain ⟨_, _, _, _, _, _, _, _, _, hp, _⟩ :=
    iso8601_round_trip { unix := 1672628645, offset := 0 } rfl rfl (by decide) (by decide)
  rw [hf] at hp
  exact ⟨hf, hp⟩

/-! ## Preview text: the bound for `maxChars` from 3 on -/

theorem runesFrom_length_le (p : List Nat) : ∀ skip, (runesFrom skip p).length ≤ p.length := by
  induction p with
  | nil => intro skip; cases skip <;> simp [runesFrom]
  | cons b rest ih =>
    intro skip
    cases skip with
    | zero =>
      simp only [runesFrom, List.length_cons]
      have := ih ((DecodeRune (b :: rest)).2 - 1)
      omega
    | succ k =>
      simp only [runesFrom, List.length_cons]
      have := ih k
      omega

theorem length_le_utf8ByteSize_go (l : List Char) : l.length ≤ String.utf8ByteSize.go l := by
  induction l with
  | nil => simp [String.utf8ByteSize.go]
  | cons c cs ih =>
    have := Char.utf8Size_pos c
    simp only [String.utf8ByteSize.go, List.length_cons]
    omega

/-- For a bound of at least 3 `ToPreviewText` returns a string of at most `maxChars`
characters: the text itself, or its first `maxChars - 3` bytes and three periods. -/
theorem toPreviewText_bounded (text : String) (maxChars : Int) (h3 : 3 ≤ maxChars) :
    ∃ s, ToPreviewText text maxChars = some s ∧ (s.length : Int) ≤ maxChars := by
  by_cases hne : text = ""
  · exact ⟨"", by simp [ToPreviewText, hne], by simp; omega⟩
  · by_cases hle : (text.utf8ByteSize : Int) ≤ maxChars
    · refine ⟨text, by simp [ToPreviewText, hne, hle], ?_⟩
      have h1 := length_le_utf8ByteSize_go text.data
      have h2 : text.utf8ByteSize = String.utf8ByteSize.go text.data := rfl
      have h4 : text.length = text.data.length := rfl
      omega
    · have hn : ¬ maxChars - 3 < 0 := by omega
      refine ⟨String.mk (runesOf ((bytesOf text.data).take (maxChars - 3).toNat)) ++ "...",
        by simp only [ToPreviewText, hne, hle, hn, if_false], ?_⟩
      have h1 := runesFrom_length_le ((bytesOf text.data).take (maxChars - 3).toNat) 0
      have h2 : ((bytesOf text.data).take (maxChars - 3).toNat).length ≤ (maxChars - 3).toNat :=
        List.length_take_le _ _
      have h5 : (String.mk (runesOf ((bytesOf text.data).take (maxChars - 3).toNat))
          ++ "...").length =
          (runesFrom 0 ((bytesOf text.data).take (maxChars - 3).toNat)).length + 3 := by
        rw [String.length_append]
        rfl
      rw [h5]
      omega

end Warps
